import Mathlib

/-!
# Workload resolution of `business/workloads.go`

A shallow embedding of the controller registry that `fetchWorkloads` and
`fetchWorkload` build from the fetched pods and controller collections, of the
tie-break `controllerPriority`, and of the workload list that is built from
the registry, followed by the properties proved about them.

Go values are embedded as follows.

* `map[string]string` (the registry `controllers`) is an association list
  with at most one pair per key; two registries are the same map when they
  agree on every lookup.
* `*bool` (`OwnerReference.Controller`) is `Option Bool`; a pointer to an
  object (`*apps_v1.Deployment`) is `Option`, `none` being `nil`.
* `for k, v := range m` over a map visits the keys in an order the language
  leaves open; the order is an explicit argument of the embedded loop.
-/

namespace Kiali

/-! ## Tie-break between controller kinds -/

/-- The table `controllerOrder` of `workloads.go`: the weight of each kind
that the tie-break knows. -/
def controllerOrder : List (String × Int) :=
  [("Deployment", 6),
   ("DeploymentConfig", 5),
   ("ReplicaSet", 4),
   ("ReplicationController", 3),
   ("StatefulSet", 2),
   ("Job", 1),
   ("DaemonSet", 0),
   ("Pod", -1)]

/-- The two-valued map read `w, e := controllerOrder[k]` of Go: a key that is
not in the map reads as the zero value `0` together with `false`. -/
def controllerOrderGet (k : String) : Int × Bool :=
  match controllerOrder.lookup k with
  | some w => (w, true)
  | none => (0, false)

/-- The function `controllerPriority(type1, type2)`: the first kind unless the
second one has a strictly larger weight. The two `log.Errorf` calls for a kind
that is not in the table do not change the result. -/
def controllerPriority (type1 type2 : String) : String :=
  let w1 := (controllerOrderGet type1).1
  let w2 := (controllerOrderGet type2).1
  if w1 ≥ w2 then type1 else type2

/-- The weight that `controllerPriority` reads for a kind. -/
def weight (k : String) : Int := (controllerOrderGet k).1

/-- The eight kinds of `controllerOrder`, from the highest precedence to the
lowest, as the specification lists them. -/
def precedence : List String :=
  ["Deployment", "DeploymentConfig", "ReplicaSet", "ReplicationController",
   "StatefulSet", "Job", "DaemonSet", "Pod"]

/-- A kind is recognised when `controllerOrder` has a weight for it. -/
def recognised (k : String) : Bool := (controllerOrderGet k).2


/-! ## Data model -/

/-- The fields of `meta_v1.OwnerReference` that the resolution reads.
`Controller` is a `*bool` in Go. -/
structure OwnerReference where
  Name : String
  Kind : String
  Controller : Option Bool
  deriving DecidableEq, Repr

/-- The test `ref.Controller != nil && *ref.Controller`. -/
def OwnerReference.isController (ref : OwnerReference) : Bool :=
  match ref.Controller with
  | some b => b
  | none => false

/-- A Go `map[string]string` of labels. -/
abbrev LabelSet := List (String × String)

/-- The fields of `core_v1.Pod` that the resolution reads. -/
structure Pod where
  Name : String
  Labels : LabelSet
  OwnerReferences : List OwnerReference
  deriving DecidableEq, Repr

/-- The fields that the resolution reads of a controller object of any of the
seven controller kinds: its name, its owner references and the labels of its
pod template (`Spec.Template.Labels`, and for a CronJob
`Spec.JobTemplate.Spec.Template.Labels`). -/
structure Controller where
  Name : String
  OwnerReferences : List OwnerReference
  TemplateLabels : LabelSet
  deriving DecidableEq, Repr

/-! ## The controller registry -/

/-- The registry `controllers := map[string]string{}`: controller name to
controller kind. -/
abbrev Registry := List (String × String)

namespace Registry

/-- The read `controllers[k]` with its `exist` flag. -/
def get (r : Registry) (k : String) : Option String :=
  match r with
  | [] => none
  | (k', v) :: rest => if k' = k then some v else get rest k

/-- The statement `delete(controllers, k)`. -/
def delete (r : Registry) (k : String) : Registry :=
  r.filter (fun p => !decide (p.1 = k))

/-- The assignment `controllers[k] = v`. -/
def set (r : Registry) (k v : String) : Registry :=
  (k, v) :: delete r k

/-- The keys of the map. -/
def keys (r : Registry) : List String := r.map Prod.fst

end Registry

/-- The block that records an owner in the registry, written out four times
in each of `fetchWorkloads` and `fetchWorkload`:
a new name takes the kind of the reference, a name already there with another
kind takes the winner of `controllerPriority(recorded, ref.Kind)`. -/
def recordOwner (controllers : Registry) (ref : OwnerReference) : Registry :=
  match controllers.get ref.Name with
  | none => controllers.set ref.Name ref.Kind
  | some recorded =>
    if recorded ≠ ref.Kind then
      controllers.set ref.Name (controllerPriority recorded ref.Kind)
    else controllers

/-- The body of the loop "Find controllers from pods" for one pod. -/
def seedPod (controllers : Registry) (pod : Pod) : Registry :=
  if pod.OwnerReferences.length ≠ 0 then
    pod.OwnerReferences.foldl
      (fun c ref => if ref.isController then recordOwner c ref else c) controllers
  else
    match controllers.get pod.Name with
    | none => controllers.set pod.Name "Pod"
    | some _ => controllers

/-- The seeding pass: the loop "Find controllers from pods" run on an empty
registry. -/
def seedPass (pods : List Pod) : Registry :=
  pods.foldl seedPod []

/-- The search `for i, x := range xs { if x.Name == cname { ...; break } }`:
the first object of the collection with the name. -/
def findByName (xs : List Controller) (cname : String) : Option Controller :=
  xs.find? (fun x => decide (x.Name = cname))

/-- The collections that the collapse pass reads. -/
structure Collections where
  repset : List Controller
  repcon : List Controller
  jbs : List Controller
  conjbs : List Controller
  deriving Repr

/-- The inner loop over the owner references of a found ReplicaSet or
ReplicationController: each controller reference is recorded and the child
entry `cname` is deleted. -/
def collapseOwners (cname : String) (refs : List OwnerReference)
    (controllers : Registry) : Registry :=
  refs.foldl
    (fun c ref => if ref.isController then (recordOwner c ref).delete cname else c)
    controllers

/-- The flag `cnExist`: a CronJob of that name is in the fetched CronJobs. -/
def cronJobExists (conjbs : List Controller) (name : String) : Bool :=
  conjbs.any (fun cnj => decide (cnj.Name = name))

/-- The inner loop over the owner references of a found Job: each controller
reference is recorded, and the child entry `cname` is deleted only when a
CronJob with the name of the reference was fetched. -/
def collapseJobOwners (conjbs : List Controller) (cname : String)
    (refs : List OwnerReference) (controllers : Registry) : Registry :=
  refs.foldl
    (fun c ref =>
      if ref.isController then
        let c1 := recordOwner c ref
        if cronJobExists conjbs ref.Name then c1.delete cname else c1
      else c)
    controllers

/-- One of the three blocks of the collapse loop for a child kind whose owner
loop always deletes the child. -/
def collapseChild (xs : List Controller) (cname : String)
    (controllers : Registry) : Registry :=
  match findByName xs cname with
  | some x =>
    if x.OwnerReferences.length > 0 then
      collapseOwners cname x.OwnerReferences controllers
    else controllers
  | none => controllers

/-- The body of the collapse loop for the entry `(cname, ctype)` that the
iteration produced. -/
def collapseEntry (cs : Collections) (cname ctype : String)
    (controllers : Registry) : Registry :=
  let c1 :=
    if ctype = "ReplicaSet" then collapseChild cs.repset cname controllers
    else controllers
  let c2 :=
    if ctype = "ReplicationController" then collapseChild cs.repcon cname c1
    else c1
  if ctype = "Job" then
    match findByName cs.jbs cname with
    | some jb =>
      if jb.OwnerReferences.length > 0 then
        collapseJobOwners cs.conjbs cname jb.OwnerReferences c2
      else c2
    | none => c2
  else c2

/-- One turn of `for cname, ctype := range controllers`: the key `cname` is
produced with the kind recorded for it at that moment, and a key that is not
in the map at its turn produces nothing. -/
def collapseVisit (cs : Collections) (controllers : Registry)
    (cname : String) : Registry :=
  match controllers.get cname with
  | some ctype => collapseEntry cs cname ctype controllers
  | none => controllers

/-- The collapse pass `for cname, ctype := range controllers { ... }`.
Go leaves the order of a map iteration open, produces no entry that was
removed before its turn, and may produce or skip an entry created during the
iteration; `order` is the sequence of keys of the turns of one run. -/
def collapsePass (cs : Collections) (order : List String)
    (controllers : Registry) : Registry :=
  order.foldl (collapseVisit cs) controllers

/-- A sequence of turns that leaves out no key of the registry the loop
starts from. Every run of the Go loop is of this form: the loop deletes no
key but that of the current turn, so each entry that is there at the start is
still there when the iteration reaches it. -/
def coversKeys (order : List String) (controllers : Registry) : Prop :=
  ∀ k ∈ controllers.keys, k ∈ order

/-! ## Recovery of controllers without pods -/

/-- A parsed label selector (`labels.Selector` of the Kubernetes library),
kept as its `Matches` test; the `nil` selector is `none`. -/
abbrev Selector := Option (LabelSet → Bool)

/-- The variable `selectorCheck` of the recovery loops: true without a
selector, the answer of `selector.Matches` with one. -/
def selectorCheck (selector : Selector) (labels : LabelSet) : Bool :=
  match selector with
  | some sel => sel labels
  | none => true

/-- The selector of the recovery pass: `labels.Parse(labelSelector)` when the
string is not empty (a parse error leaves the selector `nil`), `nil` for the
empty string. `parse` stands for `labels.Parse`. -/
def recoverySelector (parse : String → Selector) (labelSelector : String) :
    Selector :=
  if labelSelector ≠ "" then parse labelSelector else none

/-- The body of the recovery loops over Deployments, DeploymentConfigs and
StatefulSets: a name that is not a key yet is added with the kind of the
collection. -/
def recoverAny (kind : String) (selector : Selector) (controllers : Registry)
    (x : Controller) : Registry :=
  if (controllers.get x.Name).isNone && selectorCheck selector x.TemplateLabels then
    controllers.set x.Name kind
  else controllers

/-- The body of the recovery loops over ReplicaSets and
ReplicationControllers: as `recoverAny`, for objects without owner
references only. -/
def recoverOwnerless (kind : String) (selector : Selector)
    (controllers : Registry) (x : Controller) : Registry :=
  if (controllers.get x.Name).isNone && decide (x.OwnerReferences.length = 0)
      && selectorCheck selector x.TemplateLabels then
    controllers.set x.Name kind
  else controllers

/-- The collections of the batch path after the eight fetches. -/
structure Fetched where
  pods : List Pod
  repcon : List Controller
  dep : List Controller
  repset : List Controller
  depcon : List Controller
  fulset : List Controller
  jbs : List Controller
  conjbs : List Controller
  deriving Repr

/-- The collections of `Fetched` that the collapse pass reads. -/
def Fetched.collections (f : Fetched) : Collections :=
  { repset := f.repset, repcon := f.repcon, jbs := f.jbs, conjbs := f.conjbs }

/-- The recovery pass of `fetchWorkloads`: the five loops, in the order of the
source. -/
def recoveryPass (selector : Selector) (f : Fetched) (controllers : Registry) :
    Registry :=
  let c1 := f.dep.foldl (recoverAny "Deployment" selector) controllers
  let c2 := f.repset.foldl (recoverOwnerless "ReplicaSet" selector) c1
  let c3 := f.depcon.foldl (recoverAny "DeploymentConfig" selector) c2
  let c4 := f.repcon.foldl (recoverOwnerless "ReplicationController" selector) c3
  f.fulset.foldl (recoverAny "StatefulSet" selector) c4

/-- The three resolution passes of `fetchWorkloads` in sequence. -/
def resolve (selector : Selector) (order : List String) (f : Fetched) : Registry :=
  recoveryPass selector f (collapsePass f.collections order (seedPass f.pods))

/-! ## Building the workloads -/

/-- The part of `models.Workload` that the resolution decides: name, kind
(the field `Type`, a reserved word here) and pods. -/
structure Workload where
  Name : String
  Kind : String
  Pods : List Pod
  deriving DecidableEq, Repr

/-- Modelled from the spec: `labels.Set(l).AsSelector().Matches(podLabels)`
of the Kubernetes library, "label match": every label of the selector is a
label of the pod with the same value. -/
def labelsMatch (selector podLabels : LabelSet) : Bool :=
  selector.all (fun kv => decide (podLabels.lookup kv.1 = some kv.2))

/-- Modelled from the spec: `kubernetes.FilterPodsForSelector`, which is not
among the sources; it "filters the full pod collection by label match". -/
def FilterPodsForSelector (selector : LabelSet) (pods : List Pod) : List Pod :=
  pods.filter (fun pod => labelsMatch selector pod.Labels)

/-- Modelled from the spec: `kubernetes.FilterPodsForController`, which is not
among the sources; it "filters pods by exact ownership reference to the named
controller". -/
def FilterPodsForController (controllerName controllerType : String)
    (pods : List Pod) : List Pod :=
  pods.filter (fun pod =>
    pod.OwnerReferences.any (fun ref =>
      ref.isController && decide (ref.Name = controllerName)
        && decide (ref.Kind = controllerType)))

/-- Modelled from the spec: the methods `ParseDeployment`, `ParseReplicaSet`,
`ParseReplicationController`, `ParseDeploymentConfig`, `ParseStatefulSet`,
`ParseJob`, `ParseCronJob`, `ParsePod` and `ParsePods` of `models.Workload`,
which are not among the sources. A workload is "identity, resolved kind, the
pod set belonging to it": after `SetPods(pods)`, parsing the object named
`name` as a `kind` leaves that name, that kind and those pods. -/
def parsedWorkload (name kind : String) (pods : List Pod) : Workload :=
  { Name := name, Kind := kind, Pods := pods }

/-- A case of the build switch for a selector based kind: the object is looked
up by name in its collection; when found the workload is set to the pods that
match its template labels and parsed from the object, when not found `cnFound`
is false (`none`). -/
def buildFromCollection (kind : String) (xs : List Controller) (pods : List Pod)
    (cname : String) : Option Workload :=
  match findByName xs cname with
  | some x =>
    some (parsedWorkload x.Name kind (FilterPodsForSelector x.TemplateLabels pods))
  | none => none

/-- The case `"Pod"` of the build switch: the first pod with the name. -/
def buildFromPod (pods : List Pod) (cname : String) : Option Workload :=
  match pods.find? (fun pod => decide (pod.Name = cname)) with
  | some pod => some (parsedWorkload pod.Name "Pod" [pod])
  | none => none

/-- The switch of the build loop of `fetchWorkloads` for the entry
`(cname, ctype)`; `none` stands for `cnFound = false`. The proxy status that
is attached to the pods afterwards is not part of the embedding. -/
def buildWorkload (f : Fetched) (cname ctype : String) : Option Workload :=
  if ctype = "Deployment" then buildFromCollection "Deployment" f.dep f.pods cname
  else if ctype = "ReplicaSet" then buildFromCollection "ReplicaSet" f.repset f.pods cname
  else if ctype = "ReplicationController" then
    buildFromCollection "ReplicationController" f.repcon f.pods cname
  else if ctype = "DeploymentConfig" then
    buildFromCollection "DeploymentConfig" f.depcon f.pods cname
  else if ctype = "StatefulSet" then buildFromCollection "StatefulSet" f.fulset f.pods cname
  else if ctype = "Pod" then buildFromPod f.pods cname
  else if ctype = "Job" then buildFromCollection "Job" f.jbs f.pods cname
  else if ctype = "CronJob" then buildFromCollection "CronJob" f.conjbs f.pods cname
  else some (parsedWorkload cname ctype (FilterPodsForController cname ctype f.pods))

/-- The call `sort.Strings(cnames)`. Go compares strings byte by byte, which
on UTF-8 text is the lexicographic order of the lists of characters. -/
def sortStrings (cnames : List String) : List String :=
  cnames.insertionSort (fun a b => a.toList ≤ b.toList)

/-- The build loop of `fetchWorkloads`: the keys of the registry are sorted
and the workload of each entry is appended when `cnFound` holds. -/
def buildWorkloads (f : Fetched) (controllers : Registry) : List Workload :=
  (sortStrings controllers.keys).filterMap (fun cname =>
    match controllers.get cname with
    | some ctype => buildWorkload f cname ctype
    | none => none)

/-! ## The fetches and the two entry points -/

/-- Modelled from the spec: the constants `kubernetes.DeploymentType`,
`ReplicaSetType`, `ReplicationControllerType`, `DeploymentConfigType`,
`StatefulSetType`, `JobType`, `CronJobType` and `PodType`, whose declaration
is not among the sources. The kinds are named as the specification and the
string cases of `workloads.go` name them. -/
def DeploymentType : String := "Deployment"

/-- Modelled from the spec: see `DeploymentType`. -/
def ReplicaSetType : String := "ReplicaSet"

/-- Modelled from the spec: see `DeploymentType`. -/
def ReplicationControllerType : String := "ReplicationController"

/-- Modelled from the spec: see `DeploymentType`. -/
def DeploymentConfigType : String := "DeploymentConfig"

/-- Modelled from the spec: see `DeploymentType`. -/
def StatefulSetType : String := "StatefulSet"

/-- Modelled from the spec: see `DeploymentType`. -/
def JobType : String := "Job"

/-- Modelled from the spec: see `DeploymentType`. -/
def CronJobType : String := "CronJob"

/-- Modelled from the spec: see `DeploymentType`. -/
def PodType : String := "Pod"

/-- An error value of Go as far as the code looks at it: `notFound` is the
answer of `errors.IsNotFound`. -/
structure Err where
  message : String
  notFound : Bool
  deriving DecidableEq, Repr

/-- The function `kubernetes.NewNotFound(name, group, resource)`, a thin
wrapper of `errors.NewNotFound` of the Kubernetes library. -/
def NewNotFound (name group resource : String) : Err :=
  { message := resource ++ "." ++ group ++ " " ++ name.quote ++ " not found",
    notFound := true }

/-- The function `isWorkloadIncluded` over the global `excludedWorkloads`
(`none` is the `nil` map; a key that is not in the map reads `false`). -/
def isWorkloadIncluded (excludedWorkloads : Option (List (String × Bool)))
    (workload : String) : Bool :=
  match excludedWorkloads with
  | none => true
  | some m =>
    match m.lookup workload with
    | some excluded => !excluded
    | none => true

/-- The answers of the collaborators for one namespace: the access check
`layer.Namespace.GetNamespace`, `IsOpenShift`, and the reads of the gateway.
A read goes to the cache or to the cluster, by `IsNamespaceCached`; the
answer of the read that is made is what is kept here. -/
structure Cluster where
  namespaceError : Option Err
  isOpenShift : Bool
  getPods : String → Except Err (List Pod)
  getDeployments : Except Err (List Controller)
  getReplicaSets : Except Err (List Controller)
  getReplicationControllers : Except Err (List Controller)
  getDeploymentConfigs : Except Err (List Controller)
  getStatefulSets : Except Err (List Controller)
  getCronJobs : Except Err (List Controller)
  getJobs : Except Err (List Controller)
  getDeployment : String → Except Err Controller
  getDeploymentConfig : String → Except Err Controller
  getStatefulSet : String → Except Err Controller

/-- What one run leaves to the scheduler and to the runtime: the order of the
turns of the collapse loop, and which of the errors sent to `errChan` is the
one received by `err := <-errChan`. -/
structure Run where
  order : List String
  first : Nat
  deriving Repr

/-- A goroutine that fetches a collection when `issued` holds: the value of
its result variable and the errors it sends to `errChan`. -/
def listTask {α : Type} (issued : Bool) (answer : Except Err (List α)) :
    List α × List Err :=
  if issued then
    match answer with
    | .ok xs => (xs, [])
    | .error err => ([], [err])
  else ([], [])

/-- The statement `err := <-errChan` on a channel that holds `errs`. -/
def receiveFirst (run : Run) (errs : List Err) : Option Err :=
  errs.get? (run.first % errs.length)

/-- The eight goroutines of `fetchWorkloads`: the collections they leave and
the errors they send to `errChan`. -/
def fetchAll (cl : Cluster) (excludedWorkloads : Option (List (String × Bool)))
    (labelSelector : String) : Fetched × List Err :=
  let pods := listTask true (cl.getPods labelSelector)
  let dep := listTask true cl.getDeployments
  let repset := listTask true cl.getReplicaSets
  let repcon := listTask (isWorkloadIncluded excludedWorkloads ReplicationControllerType)
    cl.getReplicationControllers
  let depcon := listTask
    (cl.isOpenShift && isWorkloadIncluded excludedWorkloads DeploymentConfigType)
    cl.getDeploymentConfigs
  let fulset := listTask (isWorkloadIncluded excludedWorkloads StatefulSetType)
    cl.getStatefulSets
  let conjbs := listTask (isWorkloadIncluded excludedWorkloads CronJobType) cl.getCronJobs
  let jbs := listTask (isWorkloadIncluded excludedWorkloads JobType) cl.getJobs
  ({ pods := pods.1, repcon := repcon.1, dep := dep.1, repset := repset.1,
     depcon := depcon.1, fulset := fulset.1, jbs := jbs.1, conjbs := conjbs.1 },
   pods.2 ++ dep.2 ++ repset.2 ++ repcon.2 ++ depcon.2 ++ fulset.2 ++ conjbs.2 ++ jbs.2)

/-- The function `fetchWorkloads(layer, namespace, labelSelector)`; the result
is the pair `(models.Workloads, error)`, a `nil` slice being the empty list. -/
def fetchWorkloads (parse : String → Selector) (cl : Cluster)
    (excludedWorkloads : Option (List (String × Bool))) (run : Run)
    (labelSelector : String) : List Workload × Option Err :=
  match cl.namespaceError with
  | some err => ([], some err)
  | none =>
    let fetched := fetchAll cl excludedWorkloads labelSelector
    if fetched.2.length ≠ 0 then ([], receiveFirst run fetched.2)
    else
      let controllers := resolve (recoverySelector parse labelSelector) run.order fetched.1
      (buildWorkloads fetched.1 controllers, none)

/-- The guard `workloadType != "" && workloadType != kind` that makes a
goroutine of `fetchWorkload` return without fetching. -/
def typeSkipped (workloadType kind : String) : Bool :=
  decide (workloadType ≠ "") && decide (workloadType ≠ kind)

/-- The goroutine of `fetchWorkload` that reads the Deployment: a not-found
answer leaves `dep` nil, another error is sent to `errChan`. -/
def deploymentTask (cl : Cluster) (workloadName workloadType : String) :
    Option Controller × List Err :=
  if typeSkipped workloadType DeploymentType then (none, [])
  else
    match cl.getDeployment workloadName with
    | .ok d => (some d, [])
    | .error err => if err.notFound then (none, []) else (none, [err])

/-- The goroutines of `fetchWorkload` that read the DeploymentConfig and the
StatefulSet: any error leaves the variable nil and nothing is sent to
`errChan`. -/
def quietTask (issued : Bool) (answer : Except Err Controller) : Option Controller :=
  if issued then
    match answer with
    | .ok x => some x
    | .error _ => none
  else none

/-- The result of a call that may end in a run-time panic. -/
inductive Outcome where
  | returned (workload : Option Workload) (err : Option Err)
  | nilDereference
  deriving DecidableEq, Repr

/-- What the build switch of `fetchWorkload` leaves: a workload with
`cnFound`, `cnFound = false`, or the panic of reading `x.Name` through a nil
pointer. -/
inductive Built where
  | found (w : Workload)
  | missing
  | nilDereference
  deriving DecidableEq, Repr

/-- The cases `"Deployment"`, `"DeploymentConfig"` and `"StatefulSet"` of the
build switch of `fetchWorkload`: `if x.Name == workloadName` on the pointer
`x` that the fetch left, which is not tested for nil. -/
def buildFromPointer (kind : String) (x : Option Controller) (pods : List Pod)
    (workloadName : String) : Built :=
  match x with
  | none => .nilDereference
  | some obj =>
    if obj.Name = workloadName then
      .found (parsedWorkload obj.Name kind (FilterPodsForSelector obj.TemplateLabels pods))
    else .missing

/-- A case of the build switch of `fetchWorkload` that searches a collection
or the pods. -/
def builtOfOption (w : Option Workload) : Built :=
  match w with
  | some w => .found w
  | none => .missing

/-- The collections and pointers of `fetchWorkload` after its eight fetches. -/
structure FetchedOne where
  pods : List Pod
  repcon : List Controller
  dep : Option Controller
  repset : List Controller
  depcon : Option Controller
  fulset : Option Controller
  jbs : List Controller
  conjbs : List Controller
  deriving Repr

/-- The collections of `FetchedOne` that the collapse pass reads. -/
def FetchedOne.collections (f : FetchedOne) : Collections :=
  { repset := f.repset, repcon := f.repcon, jbs := f.jbs, conjbs := f.conjbs }

/-- A pointer seen as a collection of at most one object. -/
def pointerList (x : Option Controller) : List Controller :=
  match x with
  | some obj => [obj]
  | none => []

/-- The recovery steps of `fetchWorkload`: the three pointers when they are
not nil and the two loops over ReplicaSets and ReplicationControllers, in the
order of the source and without a selector. -/
def recoveryOne (f : FetchedOne) (controllers : Registry) : Registry :=
  let c1 := (pointerList f.dep).foldl (recoverAny "Deployment" none) controllers
  let c2 := f.repset.foldl (recoverOwnerless "ReplicaSet" none) c1
  let c3 := (pointerList f.depcon).foldl (recoverAny "DeploymentConfig" none) c2
  let c4 := f.repcon.foldl (recoverOwnerless "ReplicationController" none) c3
  (pointerList f.fulset).foldl (recoverAny "StatefulSet" none) c4

/-- The three resolution passes of `fetchWorkload` in sequence. -/
def resolveOne (order : List String) (f : FetchedOne) : Registry :=
  recoveryOne f (collapsePass f.collections order (seedPass f.pods))

/-- The build switch of `fetchWorkload` for the entry
`(workloadName, ctype)`. -/
def buildOne (f : FetchedOne) (workloadName ctype : String) : Built :=
  if ctype = "Deployment" then buildFromPointer "Deployment" f.dep f.pods workloadName
  else if ctype = "ReplicaSet" then
    builtOfOption (buildFromCollection "ReplicaSet" f.repset f.pods workloadName)
  else if ctype = "ReplicationController" then
    builtOfOption (buildFromCollection "ReplicationController" f.repcon f.pods workloadName)
  else if ctype = "DeploymentConfig" then
    buildFromPointer "DeploymentConfig" f.depcon f.pods workloadName
  else if ctype = "StatefulSet" then
    buildFromPointer "StatefulSet" f.fulset f.pods workloadName
  else if ctype = "Pod" then builtOfOption (buildFromPod f.pods workloadName)
  else if ctype = "Job" then
    builtOfOption (buildFromCollection "Job" f.jbs f.pods workloadName)
  else if ctype = "CronJob" then
    builtOfOption (buildFromCollection "CronJob" f.conjbs f.pods workloadName)
  else
    .found (parsedWorkload workloadName ctype
      (FilterPodsForController workloadName ctype f.pods))

/-- The empty workload `wl` that `fetchWorkload` returns next to an error. -/
def emptyWorkload : Workload := { Name := "", Kind := "", Pods := [] }

/-- The end of `fetchWorkload`, from "Build workload from controllers" on. -/
def finishOne (f : FetchedOne) (controllers : Registry) (workloadName : String) :
    Outcome :=
  match controllers.get workloadName with
  | some ctype =>
    match buildOne f workloadName ctype with
    | .found w => .returned (some w) none
    | .missing =>
      .returned (some emptyWorkload) (some (NewNotFound workloadName "Kiali" "Workload"))
    | .nilDereference => .nilDereference
  | none =>
    .returned (some emptyWorkload) (some (NewNotFound workloadName "Kiali" "Workload"))

/-- The eight goroutines of `fetchWorkload`: the collections and pointers
they leave and the errors they send to `errChan`. -/
def fetchOne (cl : Cluster) (excludedWorkloads : Option (List (String × Bool)))
    (workloadName workloadType : String) : FetchedOne × List Err :=
  let pods := listTask true (cl.getPods "")
  let dep := deploymentTask cl workloadName workloadType
  let repset := listTask (!typeSkipped workloadType ReplicaSetType) cl.getReplicaSets
  let repcon := listTask
    (!typeSkipped workloadType ReplicationControllerType
      && isWorkloadIncluded excludedWorkloads ReplicationControllerType)
    cl.getReplicationControllers
  let depcon := quietTask
    (!typeSkipped workloadType DeploymentConfigType
      && (cl.isOpenShift && isWorkloadIncluded excludedWorkloads DeploymentConfigType))
    (cl.getDeploymentConfig workloadName)
  let fulset := quietTask
    (!typeSkipped workloadType StatefulSetType
      && isWorkloadIncluded excludedWorkloads StatefulSetType)
    (cl.getStatefulSet workloadName)
  let conjbs := listTask
    (!typeSkipped workloadType CronJobType && isWorkloadIncluded excludedWorkloads CronJobType)
    cl.getCronJobs
  let jbs := listTask
    (!typeSkipped workloadType JobType && isWorkloadIncluded excludedWorkloads JobType)
    cl.getJobs
  ({ pods := pods.1, repcon := repcon.1, dep := dep.1, repset := repset.1,
     depcon := depcon, fulset := fulset, jbs := jbs.1, conjbs := conjbs.1 },
   pods.2 ++ dep.2 ++ repset.2 ++ repcon.2 ++ conjbs.2 ++ jbs.2)

/-- The function
`fetchWorkload(layer, namespace, workloadName, workloadType)`. -/
def fetchWorkload (cl : Cluster) (excludedWorkloads : Option (List (String × Bool)))
    (run : Run) (workloadName workloadType : String) : Outcome :=
  match cl.namespaceError with
  | some err => .returned none (some err)
  | none =>
    let fetched := fetchOne cl excludedWorkloads workloadName workloadType
    if fetched.2.length ≠ 0 then .returned (some emptyWorkload) (receiveFirst run fetched.2)
    else finishOne fetched.1 (resolveOne run.order fetched.1) workloadName

/-! ## Notions used to state the properties of the seeding pass -/

/-- What one pod asserts to the seeding pass, as pairs of a controller name
and a kind: its controller references when it has owner references, itself
as a "Pod" when it has none. -/
def assertions (pod : Pod) : List (String × String) :=
  if pod.OwnerReferences.length ≠ 0 then
    (pod.OwnerReferences.filter OwnerReference.isController).map
      (fun ref => (ref.Name, ref.Kind))
  else [(pod.Name, "Pod")]

/-- The kinds asserted for the name `k` in a list of assertions, in order. -/
def kindsFor (k : String) (l : List (String × String)) : List String :=
  (l.filter (fun p => decide (p.1 = k))).map Prod.snd

/-- The kind recorded for a name after one more kind is asserted for it. -/
def mergeKind (recorded : Option String) (kind : String) : Option String :=
  match recorded with
  | none => some kind
  | some e => some (controllerPriority e kind)

/-- The second list of pods is the first one with the pods in another order
and, in each pod, the owner references in another order. -/
def podsReordered (pods pods' : List Pod) : Prop :=
  ∃ mid : List Pod, pods.Perm mid ∧
    List.Forall₂ (fun p q : Pod => p.Name = q.Name ∧ p.Labels = q.Labels
      ∧ p.OwnerReferences.Perm q.OwnerReferences) mid pods'

/-- Every controller reference of every pod carries a kind that
`controllerOrder` knows. -/
def recognisedOwners (pods : List Pod) : Prop :=
  ∀ pod ∈ pods, ∀ ref ∈ pod.OwnerReferences,
    ref.isController = true → recognised ref.Kind = true

/-- A pod whose controller is named "x" with the kind given. -/
def podOwnedBy (name kind : String) : Pod :=
  { Name := name, Labels := [],
    OwnerReferences := [{ Name := "x", Kind := kind, Controller := some true }] }

/-! ## Notions used to state the properties of the build and of the recovery -/

/-- The eight kinds that the build switch has a case for. -/
def modelledKinds : List String :=
  ["Deployment", "ReplicaSet", "ReplicationController", "DeploymentConfig",
   "StatefulSet", "Pod", "Job", "CronJob"]

/-- Some object of the collection carries the name. -/
def hasName (xs : List Controller) (name : String) : Bool :=
  xs.any (fun x => decide (x.Name = name))

/-- An object named `name` is in the fetched collection of the modelled kind
`kind` (the pods for the kind "Pod"). -/
def objectPresent (f : Fetched) (kind name : String) : Bool :=
  if kind = "Deployment" then hasName f.dep name
  else if kind = "ReplicaSet" then hasName f.repset name
  else if kind = "ReplicationController" then hasName f.repcon name
  else if kind = "DeploymentConfig" then hasName f.depcon name
  else if kind = "StatefulSet" then hasName f.fulset name
  else if kind = "Pod" then f.pods.any (fun pod => decide (pod.Name = name))
  else if kind = "Job" then hasName f.jbs name
  else if kind = "CronJob" then hasName f.conjbs name
  else false

/-- A collection with one Deployment "web" that has no pods. -/
def scaledToZero : Fetched :=
  { pods := [], repcon := [], repset := [], depcon := [], fulset := [], jbs := [],
    conjbs := [],
    dep := [{ Name := "web", OwnerReferences := [], TemplateLabels := [("app", "web")] }] }

/-- The not-found answer of the gateway. -/
def notFoundAnswer : Err := { message := "not found", notFound := true }

/-- A namespace with the StatefulSet "web" and its pod "web-0", and nothing
else. -/
def statefulCluster : Cluster :=
  { namespaceError := none
    isOpenShift := false
    getPods := fun _ =>
      .ok [{ Name := "web-0", Labels := [("app", "web")],
             OwnerReferences :=
               [{ Name := "web", Kind := "StatefulSet", Controller := some true }] }]
    getDeployments := .ok []
    getReplicaSets := .ok []
    getReplicationControllers := .ok []
    getDeploymentConfigs := .ok []
    getStatefulSets :=
      .ok [{ Name := "web", OwnerReferences := [], TemplateLabels := [("app", "web")] }]
    getCronJobs := .ok []
    getJobs := .ok []
    getDeployment := fun _ => .error notFoundAnswer
    getDeploymentConfig := fun _ => .error notFoundAnswer
    getStatefulSet := fun name =>
      if name = "web" then
        .ok { Name := "web", OwnerReferences := [], TemplateLabels := [("app", "web")] }
      else .error notFoundAnswer }

/-! ## Notions used to state the properties of the collapse pass -/

/-- The owner references that the turn of the entry `(cname, ctype)` walks:
those of the object found by name in the collection of a child kind, none for
another kind or when no object is found. -/
def ownersOf (cs : Collections) (cname ctype : String) : List OwnerReference :=
  if ctype = "ReplicaSet" then
    match findByName cs.repset cname with
    | some x => x.OwnerReferences
    | none => []
  else if ctype = "ReplicationController" then
    match findByName cs.repcon cname with
    | some x => x.OwnerReferences
    | none => []
  else if ctype = "Job" then
    match findByName cs.jbs cname with
    | some x => x.OwnerReferences
    | none => []
  else []

/-- Whether the owner loop of a turn deletes the child entry at a controller
reference: always for a ReplicaSet or ReplicationController, for a Job when
the CronJob named by the reference was fetched. -/
def deletes (cs : Collections) (ctype : String) (ref : OwnerReference) : Bool :=
  if ctype = "Job" then cronJobExists cs.conjbs ref.Name else true

/-- One step of the owner loop of a turn, for either of its two forms. -/
def collapseStep (del : OwnerReference → Bool) (cname : String) (c : Registry)
    (ref : OwnerReference) : Registry :=
  if ref.isController then
    if del ref then (recordOwner c ref).delete cname else recordOwner c ref
  else c

/-- The fetched objects of the three child kinds. -/
def children (cs : Collections) : List Controller :=
  cs.repset ++ cs.repcon ++ cs.jbs

/-- Ownership among the fetched objects has two levels: no controller
reference of a fetched ReplicaSet, ReplicationController or Job carries the
name of a fetched ReplicaSet, ReplicationController or Job. -/
def flatOwnership (cs : Collections) : Prop :=
  ∀ x ∈ children cs, ∀ ref ∈ x.OwnerReferences, ref.isController = true →
    ∀ y ∈ children cs, y.Name ≠ ref.Name

/-- The turn of the entry `(cname, ctype)` deletes it: the object found for it
has a controller reference at which the owner loop deletes the child. -/
def collapsible (cs : Collections) (cname ctype : String) : Prop :=
  ∃ ref ∈ ownersOf cs cname ctype, ref.isController = true ∧ deletes cs ctype ref = true

/-- The registry records for the name of the reference a kind that the kind
of the reference does not beat. -/
def dominated (r : Registry) (ref : OwnerReference) : Prop :=
  ∃ e, r.get ref.Name = some e ∧ weight ref.Kind ≤ weight e

/-- The entry `(name, kind)` is a child with a parent that can be found: the
kind is ReplicaSet, ReplicationController or Job, an object of that kind and
name was fetched, it has a controller reference, and for a Job the CronJob
that the reference names was fetched. -/
def hasLiveParent (cs : Collections) (name kind : String) : Prop :=
  (kind = "ReplicaSet" ∧ ∃ x ∈ cs.repset, x.Name = name ∧
      ∃ ref ∈ x.OwnerReferences, ref.isController = true)
  ∨ (kind = "ReplicationController" ∧ ∃ x ∈ cs.repcon, x.Name = name ∧
      ∃ ref ∈ x.OwnerReferences, ref.isController = true)
  ∨ (kind = "Job" ∧ ∃ x ∈ cs.jbs, x.Name = name ∧
      ∃ ref ∈ x.OwnerReferences, ref.isController = true
        ∧ cronJobExists cs.conjbs ref.Name = true)

/-- The names of the objects of each child collection are distinct, as they
are in a namespace. -/
def distinctNames (cs : Collections) : Prop :=
  (cs.repset.map Controller.Name).Nodup ∧ (cs.repcon.map Controller.Name).Nodup
    ∧ (cs.jbs.map Controller.Name).Nodup

/-- The name is that of a fetched ReplicaSet, ReplicationController or Job. -/
def isChildName (cs : Collections) (n : String) : Prop :=
  ∃ y ∈ children cs, y.Name = n

/-- What holds of an entry `(n, kind)` once its turn has passed: the turn
would not delete it, and the parents that the turn records are recorded with
a kind that theirs does not beat. -/
def settled (cs : Collections) (r : Registry) (n kind : String) : Prop :=
  ¬ collapsible cs n kind
    ∧ ∀ ref ∈ ownersOf cs n kind, ref.isController = true → dominated r ref

/-- Every entry of the registry is settled: a further turn of the collapse
loop changes nothing. -/
def stable (cs : Collections) (r : Registry) : Prop :=
  ∀ n kind, r.get n = some kind → settled cs r n kind

/-- The invariant of the collapse loop started from `r0`, where `visited`
tells the keys that had their turn: an entry under the name of a fetched
child is either gone or as it was in `r0`, and settled once visited. -/
def passInvariant (cs : Collections) (r0 : Registry) (visited : String → Prop)
    (r : Registry) : Prop :=
  ∀ n, isChildName cs n →
    r.get n = none
    ∨ (r.get n = r0.get n ∧ (visited n → ∀ kind, r.get n = some kind → settled cs r n kind))

/-- A controller reference. -/
def controlledBy (name kind : String) : OwnerReference :=
  { Name := name, Kind := kind, Controller := some true }

/-- A namespace in which ownership is nested: the pod "p1" is controlled by the
ReplicaSet "a", whose controller reference names the ReplicaSet "b", whose
controller is the Deployment "d"; a bare pod is also named "b". -/
def nestedSets : Fetched :=
  { pods := [{ Name := "p1", Labels := [], OwnerReferences := [controlledBy "a" "ReplicaSet"] },
             { Name := "b", Labels := [], OwnerReferences := [] }]
    repset := [{ Name := "a", OwnerReferences := [controlledBy "b" "ReplicaSet"],
                 TemplateLabels := [] },
               { Name := "b", OwnerReferences := [controlledBy "d" "Deployment"],
                 TemplateLabels := [] }]
    dep := [{ Name := "d", OwnerReferences := [], TemplateLabels := [] }]
    repcon := [], depcon := [], fulset := [], jbs := [], conjbs := [] }

/-- A namespace with two-level ownership: the Deployment "web" with its
ReplicaSet "web-1" and a pod, and the Job "etl-1" with a pod, whose CronJob
"etl" is gone. -/
def twoLevel : Fetched :=
  { pods := [{ Name := "web-1-x", Labels := [("app", "web")],
               OwnerReferences := [controlledBy "web-1" "ReplicaSet"] },
             { Name := "etl-1-x", Labels := [("job", "etl-1")],
               OwnerReferences := [controlledBy "etl-1" "Job"] }]
    repset := [{ Name := "web-1", OwnerReferences := [controlledBy "web" "Deployment"],
                 TemplateLabels := [("app", "web")] }]
    dep := [{ Name := "web", OwnerReferences := [], TemplateLabels := [("app", "web")] }]
    jbs := [{ Name := "etl-1", OwnerReferences := [controlledBy "etl" "CronJob"],
              TemplateLabels := [("job", "etl-1")] }]
    repcon := [], depcon := [], fulset := [], conjbs := [] }

/-- The collections of a namespace in which the Job "j" carries two controller
references, to the CronJob "c1" that is gone and to the CronJob "c2" that was
fetched. -/
def twoOwners : Collections :=
  { repset := [], repcon := []
    jbs := [{ Name := "j",
              OwnerReferences := [controlledBy "c1" "CronJob", controlledBy "c2" "CronJob"],
              TemplateLabels := [] }]
    conjbs := [{ Name := "c2", OwnerReferences := [], TemplateLabels := [] }] }

/-- A namespace in which a Job and a Deployment share the name "etl": the Job
"etl" was created by the CronJob "nightly" that is gone, and the Deployment
"etl" owns the ReplicaSet "etl-5d"; each has one pod. -/
def sharedName : Cluster :=
  { namespaceError := none
    isOpenShift := false
    getPods := fun _ =>
      .ok [{ Name := "etl-x", Labels := [("job", "etl")],
             OwnerReferences := [controlledBy "etl" "Job"] },
           { Name := "etl-5d-y", Labels := [("app", "etl")],
             OwnerReferences := [controlledBy "etl-5d" "ReplicaSet"] }]
    getDeployments :=
      .ok [{ Name := "etl", OwnerReferences := [], TemplateLabels := [("app", "etl")] }]
    getReplicaSets :=
      .ok [{ Name := "etl-5d", OwnerReferences := [controlledBy "etl" "Deployment"],
             TemplateLabels := [("app", "etl")] }]
    getReplicationControllers := .ok []
    getDeploymentConfigs := .ok []
    getStatefulSets := .ok []
    getCronJobs := .ok []
    getJobs :=
      .ok [{ Name := "etl", OwnerReferences := [controlledBy "nightly" "CronJob"],
             TemplateLabels := [("job", "etl")] }]
    getDeployment := fun _ => .error notFoundAnswer
    getDeploymentConfig := fun _ => .error notFoundAnswer
    getStatefulSet := fun _ => .error notFoundAnswer }

/-- The cluster whose list reads answer the collections of `twoLevel`. -/
def twoLevelCluster : Cluster :=
  { namespaceError := none
    isOpenShift := false
    getPods := fun _ => .ok twoLevel.pods
    getDeployments := .ok twoLevel.dep
    getReplicaSets := .ok twoLevel.repset
    getReplicationControllers := .ok twoLevel.repcon
    getDeploymentConfigs := .ok twoLevel.depcon
    getStatefulSets := .ok twoLevel.fulset
    getCronJobs := .ok twoLevel.conjbs
    getJobs := .ok twoLevel.jbs
    getDeployment := fun _ => .error notFoundAnswer
    getDeploymentConfig := fun _ => .error notFoundAnswer
    getStatefulSet := fun _ => .error notFoundAnswer }

/-! ## The update entry point and the calls to the gateway -/

/-- The slice `workloadTypes` of `updateWorkload`. -/
def workloadTypes : List String :=
  [DeploymentType, ReplicaSetType, ReplicationControllerType, DeploymentConfigType,
   StatefulSetType, JobType, CronJobType, PodType]

/-- The kinds that `updateWorkload` patches: all of `workloadTypes`, or the
target kind alone when it is given and is one of them. -/
def updateTargets (workloadType : String) : List String :=
  if workloadType ≠ "" then
    if workloadTypes.any (fun wt => decide (workloadType = wt)) then [workloadType]
    else workloadTypes
  else workloadTypes

/-- A goroutine of `updateWorkload` for the kind `wkType`: the errors it sends
to `errChan`. `patch` gives the answer of `layer.k8s.UpdateWorkload` for a
kind, `none` being `nil`. -/
def updateTask (excludedWorkloads : Option (List (String × Bool)))
    (patch : String → Option Err) (wkType : String) : List Err :=
  if isWorkloadIncluded excludedWorkloads wkType then
    match patch wkType with
    | some err => if !err.notFound then [err] else []
    | none => []
  else []

/-- The function
`updateWorkload(layer, namespace, workloadName, workloadType, jsonPatch)`. -/
def updateWorkload (cl : Cluster) (excludedWorkloads : Option (List (String × Bool)))
    (patch : String → Option Err) (run : Run) (workloadType : String) : Option Err :=
  match cl.namespaceError with
  | some err => some err
  | none =>
    let errChan := (updateTargets workloadType).flatMap (updateTask excludedWorkloads patch)
    if errChan.length ≠ 0 then receiveFirst run errChan else none

/-- A call to the gateway (the cluster client or the cache) as the three entry
points issue them. -/
inductive GatewayCall where
  | GetPods (labelSelector : String)
  | GetDeployments
  | GetReplicaSets
  | GetReplicationControllers
  | GetDeploymentConfigs
  | GetStatefulSets
  | GetCronJobs
  | GetJobs
  | GetDeployment (name : String)
  | GetDeploymentConfig (name : String)
  | GetStatefulSet (name : String)
  | UpdateWorkload (kind : String)
  deriving DecidableEq, Repr

/-- The call of a goroutine that fetches when `issued` holds. -/
def callIf (issued : Bool) (call : GatewayCall) : List GatewayCall :=
  if issued then [call] else []

/-- The calls that `fetchWorkloads` issues, under the conditions of
`fetchAll`: none when the access check fails. -/
def fetchWorkloadsCalls (cl : Cluster) (excludedWorkloads : Option (List (String × Bool)))
    (labelSelector : String) : List GatewayCall :=
  match cl.namespaceError with
  | some _ => []
  | none =>
    callIf true (.GetPods labelSelector)
    ++ callIf true .GetDeployments
    ++ callIf true .GetReplicaSets
    ++ callIf (isWorkloadIncluded excludedWorkloads ReplicationControllerType)
        .GetReplicationControllers
    ++ callIf (cl.isOpenShift && isWorkloadIncluded excludedWorkloads DeploymentConfigType)
        .GetDeploymentConfigs
    ++ callIf (isWorkloadIncluded excludedWorkloads StatefulSetType) .GetStatefulSets
    ++ callIf (isWorkloadIncluded excludedWorkloads CronJobType) .GetCronJobs
    ++ callIf (isWorkloadIncluded excludedWorkloads JobType) .GetJobs

/-- The calls that `fetchWorkload` issues, under the conditions of `fetchOne`:
none when the access check fails. -/
def fetchWorkloadCalls (cl : Cluster) (excludedWorkloads : Option (List (String × Bool)))
    (workloadName workloadType : String) : List GatewayCall :=
  match cl.namespaceError with
  | some _ => []
  | none =>
    callIf true (.GetPods "")
    ++ callIf (!typeSkipped workloadType DeploymentType) (.GetDeployment workloadName)
    ++ callIf (!typeSkipped workloadType ReplicaSetType) .GetReplicaSets
    ++ callIf
        (!typeSkipped workloadType ReplicationControllerType
          && isWorkloadIncluded excludedWorkloads ReplicationControllerType)
        .GetReplicationControllers
    ++ callIf
        (!typeSkipped workloadType DeploymentConfigType
          && (cl.isOpenShift && isWorkloadIncluded excludedWorkloads DeploymentConfigType))
        (.GetDeploymentConfig workloadName)
    ++ callIf
        (!typeSkipped workloadType StatefulSetType
          && isWorkloadIncluded excludedWorkloads StatefulSetType)
        (.GetStatefulSet workloadName)
    ++ callIf
        (!typeSkipped workloadType CronJobType
          && isWorkloadIncluded excludedWorkloads CronJobType)
        .GetCronJobs
    ++ callIf
        (!typeSkipped workloadType JobType && isWorkloadIncluded excludedWorkloads JobType)
        .GetJobs

/-- The calls that `updateWorkload` issues: none when the access check fails,
one patch for each target kind that is not excluded otherwise. -/
def updateWorkloadCalls (cl : Cluster) (excludedWorkloads : Option (List (String × Bool)))
    (workloadType : String) : List GatewayCall :=
  match cl.namespaceError with
  | some _ => []
  | none =>
    (updateTargets workloadType).flatMap (fun wkType =>
      callIf (isWorkloadIncluded excludedWorkloads wkType) (.UpdateWorkload wkType))

/-- A fetch that `fetchWorkloads` issues answers the error `e`. -/
def issuedFetchError (cl : Cluster) (excludedWorkloads : Option (List (String × Bool)))
    (labelSelector : String) (e : Err) : Prop :=
  cl.getPods labelSelector = .error e
  ∨ cl.getDeployments = .error e
  ∨ cl.getReplicaSets = .error e
  ∨ (isWorkloadIncluded excludedWorkloads ReplicationControllerType = true
      ∧ cl.getReplicationControllers = .error e)
  ∨ (cl.isOpenShift = true ∧ isWorkloadIncluded excludedWorkloads DeploymentConfigType = true
      ∧ cl.getDeploymentConfigs = .error e)
  ∨ (isWorkloadIncluded excludedWorkloads StatefulSetType = true
      ∧ cl.getStatefulSets = .error e)
  ∨ (isWorkloadIncluded excludedWorkloads CronJobType = true ∧ cl.getCronJobs = .error e)
  ∨ (isWorkloadIncluded excludedWorkloads JobType = true ∧ cl.getJobs = .error e)

/-- An error of the gateway that is not a not-found answer. -/
def timeoutAnswer : Err := { message := "context deadline exceeded", notFound := false }

/-- An error of the access check. -/
def forbiddenAnswer : Err := { message := "forbidden", notFound := false }

/-- An empty namespace in which the read of a StatefulSet by name times out
and the read of a Deployment by name answers not-found. -/
def statefulTimeout : Cluster :=
  { namespaceError := none
    isOpenShift := false
    getPods := fun _ => .ok []
    getDeployments := .ok []
    getReplicaSets := .ok []
    getReplicationControllers := .ok []
    getDeploymentConfigs := .ok []
    getStatefulSets := .ok []
    getCronJobs := .ok []
    getJobs := .ok []
    getDeployment := fun _ => .error notFoundAnswer
    getDeploymentConfig := fun _ => .error notFoundAnswer
    getStatefulSet := fun _ => .error timeoutAnswer }

/-- An empty namespace in which the read of a Deployment by name times out. -/
def deploymentTimeout : Cluster :=
  { namespaceError := none
    isOpenShift := false
    getPods := fun _ => .ok []
    getDeployments := .ok []
    getReplicaSets := .ok []
    getReplicationControllers := .ok []
    getDeploymentConfigs := .ok []
    getStatefulSets := .ok []
    getCronJobs := .ok []
    getJobs := .ok []
    getDeployment := fun _ => .error timeoutAnswer
    getDeploymentConfig := fun _ => .error notFoundAnswer
    getStatefulSet := fun _ => .error notFoundAnswer }

/-- The namespace of `statefulCluster` when the access check is refused. -/
def forbiddenCluster : Cluster :=
  { statefulCluster with namespaceError := some forbiddenAnswer }

/-- The namespace of `statefulCluster` when the list of Jobs times out. -/
def jobsTimeout : Cluster :=
  { statefulCluster with getJobs := .error timeoutAnswer }

/-- A namespace with the CronJob "etl", the Job "etl-1" that it created and
the pod of that Job. -/
def cronCluster : Cluster :=
  { namespaceError := none
    isOpenShift := false
    getPods := fun _ =>
      .ok [{ Name := "etl-1-x", Labels := [("job", "etl")],
             OwnerReferences := [controlledBy "etl-1" "Job"] }]
    getDeployments := .ok []
    getReplicaSets := .ok []
    getReplicationControllers := .ok []
    getDeploymentConfigs := .ok []
    getStatefulSets := .ok []
    getCronJobs :=
      .ok [{ Name := "etl", OwnerReferences := [], TemplateLabels := [("job", "etl")] }]
    getJobs :=
      .ok [{ Name := "etl-1", OwnerReferences := [controlledBy "etl" "CronJob"],
             TemplateLabels := [("job", "etl")] }]
    getDeployment := fun _ => .error notFoundAnswer
    getDeploymentConfig := fun _ => .error notFoundAnswer
    getStatefulSet := fun _ => .error notFoundAnswer }

/-- The read of an object by name agrees with the list of the collection: it
answers the object that the search by name finds in the list, and a
not-found error when the list has no object of that name. -/
def getAgrees (list : Except Err (List Controller))
    (get : String → Except Err Controller) : Prop :=
  ∀ xs, list = .ok xs → ∀ n,
    (∀ x, findByName xs n = some x → get n = .ok x)
    ∧ (findByName xs n = none → ∃ e, get n = .error e ∧ e.notFound = true)

/-- The cluster whose list reads answer the collections of `nestedSets` and
whose reads by name agree with them. -/
def nestedCluster : Cluster :=
  { namespaceError := none
    isOpenShift := false
    getPods := fun _ => .ok nestedSets.pods
    getDeployments := .ok nestedSets.dep
    getReplicaSets := .ok nestedSets.repset
    getReplicationControllers := .ok []
    getDeploymentConfigs := .ok []
    getStatefulSets := .ok []
    getCronJobs := .ok []
    getJobs := .ok []
    getDeployment := fun name =>
      if name = "d" then .ok { Name := "d", OwnerReferences := [], TemplateLabels := [] }
      else .error notFoundAnswer
    getDeploymentConfig := fun _ => .error notFoundAnswer
    getStatefulSet := fun _ => .error notFoundAnswer }

/-- What the fetches of `fetchWorkload` for the name `n` without target kind
leave when the reads by name agree with the collections `f` of the batch
path: the same lists, and for each pointer the object of the list with
the name `n`, if any. -/
def Fetched.single (f : Fetched) (n : String) : FetchedOne :=
  { pods := f.pods, repcon := f.repcon, dep := findByName f.dep n, repset := f.repset,
    depcon := findByName f.depcon n, fulset := findByName f.fulset n, jbs := f.jbs,
    conjbs := f.conjbs }

/-- Some object of the collection carries the name and has no owner
references. -/
def hasOwnerless (xs : List Controller) (name : String) : Bool :=
  xs.any (fun x => decide (x.Name = name) && decide (x.OwnerReferences.length = 0))

/-! ## Pod logs -/

/-- The struct `LogEntry`. -/
structure LogEntry where
  Message : String
  Severity : String
  Timestamp : String
  TimestampUnix : Int
  deriving DecidableEq, Repr

/-- The struct `PodLog`. -/
structure PodLog where
  Entries : List LogEntry
  deriving DecidableEq, Repr

/-- The fields of `core_v1.PodLogOptions` that the code sets. A `time.Time` is
kept as its number of nanoseconds since the Unix epoch; `SinceTime` and
`TailLines` are pointers in Go. -/
structure PodLogOptions where
  Container : String
  SinceTime : Option Int
  TailLines : Option Int
  Timestamps : Bool
  deriving DecidableEq, Repr

/-- The struct `LogOptions`; a `time.Duration` is a number of nanoseconds. -/
structure LogOptions where
  Duration : Option Int
  PodLogOptions : PodLogOptions
  deriving DecidableEq, Repr

/-- The pieces of a text between the occurrences of the character `c`, as
`strings.Split` with a separator of one character returns them. -/
def splitOnChar (c : Char) : List Char → List (List Char)
  | [] => [[]]
  | x :: xs =>
    if x = c then [] :: splitOnChar c xs
    else
      match splitOnChar c xs with
      | [] => [[x]]
      | piece :: pieces => (x :: piece) :: pieces

/-- The call `strings.Split(podLog.Logs, "\n")`. -/
def splitLines (logs : String) : List String :=
  (splitOnChar '\n' logs.toList).map String.mk

/-- The text before and the text after the first occurrence of the character
`c`, `none` when it does not occur: the two pieces of
`strings.SplitN(s, c, 2)`, and the first piece of `strings.Split(s, c)`. -/
def splitFirst (c : Char) : List Char → Option (List Char × List Char)
  | [] => none
  | x :: xs =>
    if x = c then some ([], xs)
    else
      match splitFirst c xs with
      | some (before, after) => some (x :: before, after)
      | none => none

/-- The step "ensure RFC3339": a timestamp without a dot is kept, a timestamp
with a dot is cut at the first dot and gets the suffix "Z". -/
def ensureRFC3339 (timestamp : List Char) : List Char :=
  match splitFirst '.' timestamp with
  | none => timestamp
  | some (before, _) => before ++ ['Z']

/-- The white space of `unicode.IsSpace`, by code point. -/
def isSpace (c : Char) : Bool :=
  [0x09, 0x0A, 0x0B, 0x0C, 0x0D, 0x20, 0x85, 0xA0, 0x1680, 0x2000, 0x2001, 0x2002,
   0x2003, 0x2004, 0x2005, 0x2006, 0x2007, 0x2008, 0x2009, 0x200A, 0x2028, 0x2029,
   0x202F, 0x205F, 0x3000].contains c.toNat

/-- The function `strings.TrimSpace`. -/
def trimSpace (s : List Char) : List Char :=
  ((s.dropWhile isSpace).reverse.dropWhile isSpace).reverse

/-- The four words of `severityRegexp`, in the order of the alternation. -/
def severityWords : List (List Char) :=
  ["ERROR".toList, "WARN".toList, "DEBUG".toList, "TRACE".toList]

/-- The word (in capitals) matches at the start of the text without regard to
the case of the letters, as under the flag `(?i)`. None of the letters of the
four words has a case variant outside ASCII. -/
def matchesAt : List Char → List Char → Bool
  | [], _ => true
  | _ :: _, [] => false
  | w :: ws, c :: cs => decide (c.toUpper = w) && matchesAt ws cs

/-- The match of `ERROR|WARN|DEBUG|TRACE` at the start of the text: the text
of the first alternative that matches there. -/
def matchHere (s : List Char) : Option (List Char) :=
  match severityWords.find? (fun w => matchesAt w s) with
  | some w => some (s.take w.length)
  | none => none

/-- The call `severityRegexp.FindString(line)`: the leftmost match, `none`
for the empty string that stands for no match. -/
def findSeverity : List Char → Option (List Char)
  | [] => none
  | c :: cs =>
    match matchHere (c :: cs) with
    | some m => some m
    | none => findSeverity cs

/-- The call `strings.ToUpper` on a match of `severityRegexp`, which is made
of ASCII letters. -/
def toUpper (s : List Char) : List Char := s.map Char.toUpper

/-- The severity of an entry: "INFO" unless `severityRegexp` matches in the
line. -/
def severityOf (line : List Char) : String :=
  match findSeverity line with
  | some m => String.mk (toUpper m)
  | none => "INFO"

/-- The method `Unix` of `time.Time`: whole seconds since the epoch. -/
def unixSeconds (t : Int) : Int := t / 1000000000

/-- The body of the loop of `getParsedLogs` for one line, up to the test of
the time window: `none` for a line that the loop skips with `continue`, the
entry and its parsed time for the others. `parse` stands for
`time.Parse(time.RFC3339, s)`, `none` being an error. -/
def parseLine (parse : String → Option Int) (line : String) : Option (LogEntry × Int) :=
  match splitFirst ' ' line.toList with
  | none => none
  | some (stamp, rest) =>
    let timestamp := String.mk (ensureRFC3339 stamp)
    let message := String.mk (trimSpace rest)
    if message = "" then none
    else
      match parse timestamp with
      | some parsed =>
        some ({ Message := message, Severity := severityOf line.toList,
                Timestamp := timestamp, TimestampUnix := unixSeconds parsed }, parsed)
      | none => none

/-- The loop of `getParsedLogs` over the lines, with the variables `startTime`
and `endTime`: the entries appended until the lines end or the loop breaks at
a line stamped after the end of the window. -/
def scanLines (parse : String → Option Int) (duration : Option Int) :
    Option Int → Option Int → List String → List LogEntry
  | _, _, [] => []
  | startTime, endTime, line :: rest =>
    match parseLine parse line with
    | none => scanLines parse duration startTime endTime rest
    | some (entry, parsed) =>
      let startTime1 := match startTime with
        | none => some parsed
        | some s => some s
      match duration with
      | some d =>
        let end1 := match endTime with
          | none => parsed + d
          | some e => e
        if parsed > end1 then []
        else entry :: scanLines parse duration startTime1 (some end1) rest
      | none => entry :: scanLines parse duration startTime1 endTime rest

/-- The options `k8sOpts` that `getParsedLogs` passes to `GetPodLogs`: those of
the request, without the tail-line count when a duration is given. -/
def gatewayOptions (opts : LogOptions) : PodLogOptions :=
  if opts.Duration.isSome then { opts.PodLogOptions with TailLines := none }
  else opts.PodLogOptions

/-- The entries that the loop of `getParsedLogs` leaves for the text `logs`,
before the tail-line count is applied. -/
def windowEntries (parse : String → Option Int) (opts : LogOptions) (logs : String) :
    List LogEntry :=
  scanLines parse opts.Duration (gatewayOptions opts).SinceTime none (splitLines logs)

/-- The statement after the loop: with a duration and a tail-line count `n`,
and more than `n` entries, the slice `entries[len(entries)-n:]`, which is out
of range (`none`) for a negative `n`. The conversion `int(*tailLines)` is the
identity on a 64-bit platform. -/
def tailCut (opts : LogOptions) (entries : List LogEntry) : Option (List LogEntry) :=
  match opts.Duration, opts.PodLogOptions.TailLines with
  | some _, some n =>
    if (entries.length : Int) > n then
      if n < 0 then none else some (entries.drop (entries.length - n.toNat))
    else some entries
  | _, _ => some entries

/-- The result of `getParsedLogs`: the pair `(*PodLog, error)` or the run-time
panic of a slice out of range. -/
inductive LogOutcome where
  | returned (log : Option PodLog) (err : Option Err)
  | sliceOutOfRange
  deriving DecidableEq, Repr

/-- The method `getParsedLogs(namespace, name, opts)`; `getPodLogs` gives the
answer of `in.k8s.GetPodLogs` for the pod and the options it is called with. -/
def getParsedLogs (parse : String → Option Int)
    (getPodLogs : PodLogOptions → Except Err String) (opts : LogOptions) : LogOutcome :=
  match getPodLogs (gatewayOptions opts) with
  | .error err => .returned none (some err)
  | .ok logs =>
    match tailCut opts (windowEntries parse opts logs) with
    | some entries => .returned (some { Entries := entries }) none
    | none => .sliceOutOfRange

/-- The values of `time.Parse(time.RFC3339, s)` on six timestamps one second
apart, from 2020-01-01T10:00:00Z on; an error on every other text. -/
def sixSeconds (s : String) : Option Int :=
  match [("2020-01-01T10:00:00Z", 0), ("2020-01-01T10:00:01Z", 1),
         ("2020-01-01T10:00:02Z", 2), ("2020-01-01T10:00:03Z", 3),
         ("2020-01-01T10:00:04Z", 4), ("2020-01-01T10:00:05Z", 5)].lookup s with
  | some (k : Int) => some ((1577872800 + k) * 1000000000)
  | none => none

/-- A log text of six lines stamped one second apart. -/
def sixLines : String :=
  "2020-01-01T10:00:00.000000001Z starting\n2020-01-01T10:00:01Z warn: slow\n2020-01-01T10:00:02Z ready\n2020-01-01T10:00:03Z Error reading\n2020-01-01T10:00:04Z done\n2020-01-01T10:00:05Z bye"

/-- The well-formed lines of a log, in order, each with its entry and its
parsed time: the lines with two parts around the first space, a message that
is not empty once trimmed, and a timestamp that parses. -/
def wellFormed (parse : String → Option Int) (lines : List String) :
    List (LogEntry × Int) :=
  lines.filterMap (parseLine parse)

/-- The window of a bounded request as the specification words it: with `t0`
the time of the first well-formed line, the well-formed lines that precede the
first one stamped strictly after `t0 + d`. -/
def windowBySpec (parse : String → Option Int) (d : Int) (lines : List String) :
    List LogEntry :=
  match wellFormed parse lines with
  | [] => []
  | (e0, t0) :: rest =>
    (((e0, t0) :: rest).takeWhile (fun p => !decide (p.2 > t0 + d))).map Prod.fst

/-- The last `min n m` of the `m` entries of a list, in order. -/
def lastEntries (n : Nat) (entries : List LogEntry) : List LogEntry :=
  entries.drop (entries.length - min n entries.length)

/-- A request for a window of two seconds. -/
def twoSeconds : LogOptions :=
  { Duration := some 2000000000,
    PodLogOptions := { Container := "", SinceTime := none, TailLines := none,
                       Timestamps := true } }

/-- A request for a window of two seconds from 2020-01-01T09:00:00Z on, one
hour before the first line of `sixLines`. -/
def twoSecondsSince : LogOptions :=
  { Duration := some 2000000000,
    PodLogOptions := { Container := "", SinceTime := some (1577869200 * 1000000000),
                       TailLines := none, Timestamps := true } }

/-- A request for the last line of a window of two seconds. -/
def twoSecondsTail : LogOptions :=
  { Duration := some 2000000000,
    PodLogOptions := { Container := "", SinceTime := none, TailLines := some 1,
                       Timestamps := true } }

/-- A request with a window and a negative tail-line count. -/
def negativeTail : LogOptions :=
  { Duration := some 2000000000,
    PodLogOptions := { Container := "", SinceTime := none, TailLines := some (-1),
                       Timestamps := true } }

/-- The word `w`, in capitals, occurs in the line at the position `i` in some
letter case. -/
def occursAt (w line : List Char) (i : Nat) : Prop :=
  i + w.length ≤ line.length ∧ ((line.drop i).take w.length).map Char.toUpper = w

/-- The tail-line count of the request, when there is one, is not negative. -/
def nonNegativeTail (opts : LogOptions) : Prop :=
  ∀ n, opts.PodLogOptions.TailLines = some n → 0 ≤ n

/-! ## Notions used to state the order of the recovery pass -/

/-- Some object of the collection carries the name and passes the tests of a
recovery loop: no owner references when the loop asks for it (`ownerless`),
and the check of the selector on its template labels. -/
def eligibleIn (selector : Selector) (ownerless : Bool) (xs : List Controller)
    (name : String) : Bool :=
  xs.any (fun x => decide (x.Name = name)
    && (!ownerless || decide (x.OwnerReferences.length = 0))
    && selectorCheck selector x.TemplateLabels)

/-- The kind of the first collection, in the order Deployment, ReplicaSet,
DeploymentConfig, ReplicationController, StatefulSet, that holds an eligible
object of the name; `none` when no collection holds one. -/
def firstEligible (selector : Selector) (f : Fetched) (name : String) : Option String :=
  if eligibleIn selector false f.dep name then some "Deployment"
  else if eligibleIn selector true f.repset name then some "ReplicaSet"
  else if eligibleIn selector false f.depcon name then some "DeploymentConfig"
  else if eligibleIn selector true f.repcon name then some "ReplicationController"
  else if eligibleIn selector false f.fulset name then some "StatefulSet"
  else none

/-- A namespace without pods in which a ReplicaSet without owner and a
DeploymentConfig are both named "x". -/
def equallyNamed : Fetched :=
  { pods := [], repcon := [], dep := [], fulset := [], jbs := [], conjbs := []
    repset := [{ Name := "x", OwnerReferences := [], TemplateLabels := [("app", "x")] }]
    depcon := [{ Name := "x", OwnerReferences := [], TemplateLabels := [("app", "x")] }] }

/-! ## Notions used to state the properties of the update -/

/-- The patch of a kind that `updateWorkload` attempts answers the error `e`,
which is not a not-found error. -/
def patchError (excludedWorkloads : Option (List (String × Bool)))
    (patch : String → Option Err) (workloadType : String) (e : Err) : Prop :=
  ∃ k ∈ updateTargets workloadType,
    isWorkloadIncluded excludedWorkloads k = true ∧ patch k = some e ∧ e.notFound = false

/-- A gateway that knows no object of the name under any kind but "Job", whose
patch times out. -/
def jobPatchTimeout (kind : String) : Option Err :=
  if kind = "Job" then some timeoutAnswer else some notFoundAnswer

/-! ## The criteria of a log request -/

/-- The error `fmt.Errorf("Invalid <field> [%s]: %v", shown, err)`. -/
def invalidInput (field shown cause : String) : Err :=
  { message := "Invalid " ++ field ++ " [" ++ shown ++ "]: " ++ cause, notFound := false }

/-- The method `BuildLogOptionsCriteria(container, duration, sinceTime,
tailLines)`; the result is the pair `(*LogOptions, error)`. `parseDuration`
stands for `time.ParseDuration` and `parseInt` for
`strconv.ParseInt(s, 10, 64)`: the value, or the text of the error.
`time.Unix(numTime, 0)` is `numTime` seconds after the epoch. In the first
error `%s` formats the variable `duration` of the inner block, which is the
zero `time.Duration` that came with the error and prints as "0s". -/
def BuildLogOptionsCriteria (parseDuration parseInt : String → Except String Int)
    (container duration sinceTime tailLines : String) : Except Err LogOptions :=
  let opts0 : LogOptions :=
    { Duration := none,
      PodLogOptions := { Container := "", SinceTime := none, TailLines := none,
                         Timestamps := true } }
  let opts1 : LogOptions :=
    if container ≠ "" then
      { opts0 with PodLogOptions := { opts0.PodLogOptions with Container := container } }
    else opts0
  let afterDuration : Except Err LogOptions :=
    if duration ≠ "" then
      match parseDuration duration with
      | .error cause => .error (invalidInput "duration" "0s" cause)
      | .ok d => .ok { opts1 with Duration := some d }
    else .ok opts1
  match afterDuration with
  | .error err => .error err
  | .ok opts2 =>
    let afterSinceTime : Except Err LogOptions :=
      if sinceTime ≠ "" then
        match parseInt sinceTime with
        | .error cause => .error (invalidInput "sinceTime" sinceTime cause)
        | .ok numTime =>
          .ok { opts2 with
                PodLogOptions :=
                  { opts2.PodLogOptions with SinceTime := some (numTime * 1000000000) } }
      else .ok opts2
    match afterSinceTime with
    | .error err => .error err
    | .ok opts3 =>
      if tailLines ≠ "" then
        match parseInt tailLines with
        | .ok numLines =>
          if numLines > 0 then
            .ok { opts3 with
                  PodLogOptions := { opts3.PodLogOptions with TailLines := some numLines } }
          else .ok opts3
        | .error cause => .error (invalidInput "tailLines" tailLines cause)
      else .ok opts3

/-- The request is malformed as the code tests it: a duration that is given
does not parse as a duration, or a start time or a tail-line count that is
given does not parse as an integer. -/
def malformedInput (parseDuration parseInt : String → Except String Int)
    (duration sinceTime tailLines : String) : Prop :=
  (duration ≠ "" ∧ ∃ cause, parseDuration duration = .error cause)
  ∨ (sinceTime ≠ "" ∧ ∃ cause, parseInt sinceTime = .error cause)
  ∨ (tailLines ≠ "" ∧ ∃ cause, parseInt tailLines = .error cause)

/-- The value of a parameter that may be left out: nothing for the empty text
or a text that does not parse, the parsed value otherwise. -/
def parsedValue (parse : String → Except String Int) (s : String) : Option Int :=
  if s = "" then none
  else
    match parse s with
    | .ok v => some v
    | .error _ => none

/-- The options of a well-formed request as the amended claim words them:
timestamps enabled, the container, the parsed duration, the start time at the
parsed number of seconds, and the parsed tail-line count when it is
positive. -/
def criteriaBySpec (parseDuration parseInt : String → Except String Int)
    (container duration sinceTime tailLines : String) : LogOptions :=
  { Duration := parsedValue parseDuration duration,
    PodLogOptions :=
      { Container := container,
        SinceTime := (parsedValue parseInt sinceTime).map (fun numTime => numTime * 1000000000),
        TailLines := (parsedValue parseInt tailLines).filter (fun numLines => decide (numLines > 0)),
        Timestamps := true } }

/-- The answers of `time.ParseDuration` on three texts; every other text is
answered as not a duration. -/
def sampleDurations (s : String) : Except String Int :=
  match [("2s", 2000000000), ("5m", 300000000000), ("1h", 3600000000000)].lookup s with
  | some (d : Int) => .ok d
  | none => .error "time: invalid duration"

/-- The answers of `strconv.ParseInt(s, 10, 64)` on four texts; every other
text is answered as not an integer. -/
def sampleInts (s : String) : Except String Int :=
  match [("0", 0), ("-5", -5), ("10", 10), ("1577869200", 1577869200)].lookup s with
  | some (n : Int) => .ok n
  | none => .error "invalid syntax"

/-! ## Notions used to state the pod set of a Deployment -/

/-- The fetched collections with the list of pods replaced. -/
def Fetched.withPods (f : Fetched) (pods : List Pod) : Fetched :=
  { f with pods := pods }

/-- The pods of `FakePodList` of `kubetest/mock.go`, with the fields that the
resolution reads. -/
def FakePodList : List Pod :=
  [{ Name := "reviews-v1", Labels := [("app", "reviews"), ("version", "v1")],
     OwnerReferences := [] },
   { Name := "reviews-v2", Labels := [("app", "reviews"), ("version", "v2")],
     OwnerReferences := [] },
   { Name := "httpbin-v1", Labels := [("app", "httpbin"), ("version", "v1")],
     OwnerReferences := [] }]

/-- A second pod with the labels of "reviews-v1". -/
def reviewsReplica : Pod :=
  { Name := "reviews-v1-b", Labels := [("version", "v1"), ("app", "reviews")],
    OwnerReferences := [] }

/-- A namespace with the Deployment "reviews-v1", whose pod template carries
the labels app=reviews and version=v1, and the pods of `FakePodList` followed
by `reviewsReplica`: two of the four pods carry both labels. -/
def reviewsFetched : Fetched :=
  { pods := FakePodList ++ [reviewsReplica]
    dep := [{ Name := "reviews-v1", OwnerReferences := [],
              TemplateLabels := [("app", "reviews"), ("version", "v1")] }]
    repcon := [], repset := [], depcon := [], fulset := [], jbs := [], conjbs := [] }

/-! ## Notions used to state what the seeding pass records -/

/-- A controller-flagged owner reference of some pod asserts the kind for the
name. -/
def controllerAsserts (pods : List Pod) (name kind : String) : Prop :=
  ∃ pod ∈ pods, ∃ ref ∈ pod.OwnerReferences,
    ref.isController = true ∧ ref.Name = name ∧ ref.Kind = kind

/-- A pod whose only owner reference is not flagged as controller. -/
def looselyOwned : Pod :=
  { Name := "p", Labels := [("app", "p")],
    OwnerReferences := [{ Name := "cfg", Kind := "ConfigMap", Controller := none }] }

/-- A namespace whose only object is the pod `looselyOwned`. -/
def looseCluster : Cluster :=
  { namespaceError := none
    isOpenShift := false
    getPods := fun _ => .ok [looselyOwned]
    getDeployments := .ok []
    getReplicaSets := .ok []
    getReplicationControllers := .ok []
    getDeploymentConfigs := .ok []
    getStatefulSets := .ok []
    getCronJobs := .ok []
    getJobs := .ok []
    getDeployment := fun _ => .error notFoundAnswer
    getDeploymentConfig := fun _ => .error notFoundAnswer
    getStatefulSet := fun _ => .error notFoundAnswer }

/-! ## A ReplicaSet whose Deployment is gone -/

/-- The pod "web-1-x", controlled by the ReplicaSet "web-1". -/
def orphanedPod : Pod :=
  { Name := "web-1-x", Labels := [("app", "web")],
    OwnerReferences := [controlledBy "web-1" "ReplicaSet"] }

/-- A namespace with the pod `orphanedPod`, controlled by the ReplicaSet
"web-1", whose controller reference names the Deployment "web"; the fetched
Deployments are `deps`. -/
def orphanedSet (deps : List Controller) : Cluster :=
  { namespaceError := none
    isOpenShift := false
    getPods := fun _ =>
      .ok [orphanedPod]
    getDeployments := .ok deps
    getReplicaSets :=
      .ok [{ Name := "web-1", OwnerReferences := [controlledBy "web" "Deployment"],
             TemplateLabels := [("app", "web")] }]
    getReplicationControllers := .ok []
    getDeploymentConfigs := .ok []
    getStatefulSets := .ok []
    getCronJobs := .ok []
    getJobs := .ok []
    getDeployment := fun _ => .error notFoundAnswer
    getDeploymentConfig := fun _ => .error notFoundAnswer
    getStatefulSet := fun _ => .error notFoundAnswer }

/-- A Deployment with the pod-template label app=web. -/
def webDeployment (name : String) : Controller :=
  { Name := name, OwnerReferences := [], TemplateLabels := [("app", "web")] }

/-! ## A ReplicaSet of a Rollout next to a Job of the same name -/

/-- A namespace in which the ReplicaSet "a" is controlled by the Rollout "b",
a kind that is not fetched, and the Job "b" was created by the CronJob "c";
each of the two has one pod. -/
def rolloutCluster : Cluster :=
  { namespaceError := none
    isOpenShift := false
    getPods := fun _ =>
      .ok [{ Name := "a-x", Labels := [("app", "a")],
             OwnerReferences := [controlledBy "a" "ReplicaSet"] },
           { Name := "b-x", Labels := [("job", "b")],
             OwnerReferences := [controlledBy "b" "Job"] }]
    getDeployments := .ok []
    getReplicaSets :=
      .ok [{ Name := "a", OwnerReferences := [controlledBy "b" "Rollout"],
             TemplateLabels := [("app", "a")] }]
    getReplicationControllers := .ok []
    getDeploymentConfigs := .ok []
    getStatefulSets := .ok []
    getCronJobs :=
      .ok [{ Name := "c", OwnerReferences := [], TemplateLabels := [("job", "b")] }]
    getJobs :=
      .ok [{ Name := "b", OwnerReferences := [controlledBy "c" "CronJob"],
             TemplateLabels := [("job", "b")] }]
    getDeployment := fun _ => .error notFoundAnswer
    getDeploymentConfig := fun _ => .error notFoundAnswer
    getStatefulSet := fun _ => .error notFoundAnswer }

end Kiali

namespace Kiali

/-! ## The registry as a map -/

namespace Registry

theorem get_delete (r : Registry) (k m : String) :
    (r.delete k).get m = if m = k then none else r.get m := by
  induction r with
  | nil => simp [delete, get]
  | cons p rest ih =>
    obtain ⟨k', v⟩ := p
    unfold delete at ih ⊢
    by_cases hk : k' = k
    · subst hk
      simp only [List.filter, decide_True, Bool.not_true, ih]
      by_cases hm : m = k'
      · simp [hm]
      · have : ¬ k' = m := fun h => hm h.symm
        simp [get, hm, this]
    · simp only [List.filter, hk, decide_False, Bool.not_false, get, ih]
      by_cases hm : m = k
      · subst hm; simp [hk]
      · simp [hm]

theorem get_set (r : Registry) (k v m : String) :
    (r.set k v).get m = if m = k then some v else r.get m := by
  unfold set
  by_cases hm : m = k
  · subst hm; simp [get]
  · have : ¬ k = m := fun h => hm h.symm
    simp [get, this, get_delete, hm]

theorem get_eq_none_iff (r : Registry) (k : String) :
    r.get k = none ↔ k ∉ r.keys := by
  induction r with
  | nil => simp [get, keys]
  | cons p rest ih =>
    obtain ⟨k', v⟩ := p
    by_cases hk : k' = k
    · simp [get, keys, hk]
    · have hk2 : ¬ k = k' := fun h => hk h.symm
      simp only [get, hk, if_false, ih]
      simp [keys, hk2]

theorem mem_keys_iff (r : Registry) (k : String) :
    k ∈ r.keys ↔ ∃ v, r.get k = some v := by
  by_cases h : k ∈ r.keys
  · have : r.get k ≠ none := fun hn => ((get_eq_none_iff r k).1 hn) h
    obtain ⟨v, hv⟩ := Option.ne_none_iff_exists'.1 this
    exact ⟨fun _ => ⟨v, hv⟩, fun _ => h⟩
  · have hn := (get_eq_none_iff r k).2 h
    simp [h, hn]

theorem keys_delete_nodup {r : Registry} (h : r.keys.Nodup) (k : String) :
    (r.delete k).keys.Nodup := by
  unfold keys delete at *
  exact (List.Nodup.sublist (List.Sublist.map _ (List.filter_sublist r)) h)

theorem keys_set_nodup {r : Registry} (h : r.keys.Nodup) (k v : String) :
    (r.set k v).keys.Nodup := by
  have hd := keys_delete_nodup h k
  have hk : k ∉ (r.delete k).keys := by
    rw [← get_eq_none_iff, get_delete]; simp
  unfold set keys at *
  simpa using ⟨by simpa using hk, hd⟩

end Registry

/-! ## Keys stay unique through the passes -/

theorem foldl_preserves {α β : Type} (P : β → Prop) (f : β → α → β)
    (h : ∀ b a, P b → P (f b a)) (l : List α) (b : β) (hb : P b) :
    P (l.foldl f b) := by
  induction l generalizing b with
  | nil => exact hb
  | cons a rest ih => exact ih (f b a) (h b a hb)

theorem recordOwner_nodup {r : Registry} (h : r.keys.Nodup) (ref : OwnerReference) :
    (recordOwner r ref).keys.Nodup := by
  unfold recordOwner
  split
  · exact Registry.keys_set_nodup h _ _
  · split
    · exact Registry.keys_set_nodup h _ _
    · exact h

theorem seedPod_nodup {r : Registry} (h : r.keys.Nodup) (pod : Pod) :
    (seedPod r pod).keys.Nodup := by
  unfold seedPod
  split
  · refine foldl_preserves (fun c : Registry => c.keys.Nodup) _ ?_ _ _ h
    intro b a hb
    split
    · exact recordOwner_nodup hb a
    · exact hb
  · split
    · exact Registry.keys_set_nodup h _ _
    · exact h

theorem seedPass_nodup (pods : List Pod) : (seedPass pods).keys.Nodup :=
  foldl_preserves (fun c : Registry => c.keys.Nodup) _
    (fun _ a hb => seedPod_nodup hb a) pods [] List.nodup_nil

theorem collapseOwners_nodup {r : Registry} (h : r.keys.Nodup) (cname : String)
    (refs : List OwnerReference) : (collapseOwners cname refs r).keys.Nodup := by
  refine foldl_preserves (fun c : Registry => c.keys.Nodup) _ ?_ _ _ h
  intro b a hb
  split
  · exact Registry.keys_delete_nodup (recordOwner_nodup hb a) _
  · exact hb

theorem collapseJobOwners_nodup {r : Registry} (h : r.keys.Nodup)
    (conjbs : List Controller) (cname : String) (refs : List OwnerReference) :
    (collapseJobOwners conjbs cname refs r).keys.Nodup := by
  refine foldl_preserves (fun c : Registry => c.keys.Nodup) _ ?_ _ _ h
  intro b a hb
  dsimp only
  split
  · split
    · exact Registry.keys_delete_nodup (recordOwner_nodup hb a) _
    · exact recordOwner_nodup hb a
  · exact hb

theorem collapseChild_nodup {r : Registry} (h : r.keys.Nodup) (xs : List Controller)
    (cname : String) : (collapseChild xs cname r).keys.Nodup := by
  unfold collapseChild
  split
  · split
    · exact collapseOwners_nodup h _ _
    · exact h
  · exact h

theorem collapseEntry_nodup {r : Registry} (h : r.keys.Nodup) (cs : Collections)
    (cname ctype : String) : (collapseEntry cs cname ctype r).keys.Nodup := by
  unfold collapseEntry
  have h1 : (if ctype = "ReplicaSet" then collapseChild cs.repset cname r else r).keys.Nodup := by
    split
    · exact collapseChild_nodup h _ _
    · exact h
  have h2 : (if ctype = "ReplicationController" then
      collapseChild cs.repcon cname
        (if ctype = "ReplicaSet" then collapseChild cs.repset cname r else r)
      else (if ctype = "ReplicaSet" then collapseChild cs.repset cname r else r)).keys.Nodup := by
    split
    · exact collapseChild_nodup h1 _ _
    · exact h1
  dsimp only
  split
  · split
    · split
      · exact collapseJobOwners_nodup h2 _ _ _
      · exact h2
    · exact h2
  · exact h2

theorem collapseVisit_nodup {r : Registry} (h : r.keys.Nodup) (cs : Collections)
    (cname : String) : (collapseVisit cs r cname).keys.Nodup := by
  unfold collapseVisit
  split
  · exact collapseEntry_nodup h _ _ _
  · exact h

theorem collapsePass_nodup {r : Registry} (h : r.keys.Nodup) (cs : Collections)
    (order : List String) : (collapsePass cs order r).keys.Nodup :=
  foldl_preserves (fun c : Registry => c.keys.Nodup) _
    (fun _ a hb => collapseVisit_nodup hb cs a) order r h

theorem recoverAny_nodup {r : Registry} (h : r.keys.Nodup) (kind : String)
    (selector : Selector) (x : Controller) : (recoverAny kind selector r x).keys.Nodup := by
  unfold recoverAny
  split
  · exact Registry.keys_set_nodup h _ _
  · exact h

theorem recoverOwnerless_nodup {r : Registry} (h : r.keys.Nodup) (kind : String)
    (selector : Selector) (x : Controller) :
    (recoverOwnerless kind selector r x).keys.Nodup := by
  unfold recoverOwnerless
  split
  · exact Registry.keys_set_nodup h _ _
  · exact h

theorem recoveryPass_nodup {r : Registry} (h : r.keys.Nodup) (selector : Selector)
    (f : Fetched) : (recoveryPass selector f r).keys.Nodup := by
  unfold recoveryPass
  have step1 := foldl_preserves (fun c : Registry => c.keys.Nodup) _
    (fun _ a hb => recoverAny_nodup hb "Deployment" selector a) f.dep r h
  have step2 := foldl_preserves (fun c : Registry => c.keys.Nodup) _
    (fun _ a hb => recoverOwnerless_nodup hb "ReplicaSet" selector a) f.repset _ step1
  have step3 := foldl_preserves (fun c : Registry => c.keys.Nodup) _
    (fun _ a hb => recoverAny_nodup hb "DeploymentConfig" selector a) f.depcon _ step2
  have step4 := foldl_preserves (fun c : Registry => c.keys.Nodup) _
    (fun _ a hb => recoverOwnerless_nodup hb "ReplicationController" selector a)
    f.repcon _ step3
  exact foldl_preserves (fun c : Registry => c.keys.Nodup) _
    (fun _ a hb => recoverAny_nodup hb "StatefulSet" selector a) f.fulset _ step4

theorem resolve_nodup (selector : Selector) (order : List String) (f : Fetched) :
    (resolve selector order f).keys.Nodup :=
  recoveryPass_nodup (collapsePass_nodup (seedPass_nodup f.pods) _ _) _ _

/-! ## The build loop -/

theorem findByName_name {xs : List Controller} {cname : String} {x : Controller}
    (h : findByName xs cname = some x) : x.Name = cname := by
  unfold findByName at h
  simpa using List.find?_some h

theorem findByName_mem {xs : List Controller} {cname : String} {x : Controller}
    (h : findByName xs cname = some x) : x ∈ xs := by
  unfold findByName at h
  exact List.mem_of_find?_eq_some h

theorem findByName_isSome_iff (xs : List Controller) (cname : String) :
    (findByName xs cname).isSome ↔ ∃ x ∈ xs, x.Name = cname := by
  unfold findByName
  simp [List.find?_isSome]

theorem buildFromCollection_name {kind : String} {xs : List Controller}
    {pods : List Pod} {cname : String} {w : Workload}
    (h : buildFromCollection kind xs pods cname = some w) :
    w.Name = cname ∧ w.Kind = kind := by
  unfold buildFromCollection at h
  split at h
  · rename_i x hx
    have := findByName_name hx
    cases h
    exact ⟨this, rfl⟩
  · cases h

theorem buildFromPod_name {pods : List Pod} {cname : String} {w : Workload}
    (h : buildFromPod pods cname = some w) : w.Name = cname ∧ w.Kind = "Pod" := by
  unfold buildFromPod at h
  split at h
  · rename_i pod hp
    have : pod.Name = cname := by simpa using List.find?_some hp
    cases h
    exact ⟨this, rfl⟩
  · cases h

theorem buildWorkload_name {f : Fetched} {cname ctype : String} {w : Workload}
    (h : buildWorkload f cname ctype = some w) : w.Name = cname ∧ w.Kind = ctype := by
  unfold buildWorkload at h
  split_ifs at h with h1 h2 h3 h4 h5 h6 h7 h8
  · subst h1; exact buildFromCollection_name h
  · subst h2; exact buildFromCollection_name h
  · subst h3; exact buildFromCollection_name h
  · subst h4; exact buildFromCollection_name h
  · subst h5; exact buildFromCollection_name h
  · subst h6; exact buildFromPod_name h
  · subst h7; exact buildFromCollection_name h
  · subst h8; exact buildFromCollection_name h
  · cases h; exact ⟨rfl, rfl⟩

theorem filterMap_names_sublist (g : String → Option Workload)
    (hg : ∀ c w, g c = some w → w.Name = c) (l : List String) :
    ((l.filterMap g).map Workload.Name).Sublist l := by
  induction l with
  | nil => simp
  | cons c rest ih =>
    cases hc : g c with
    | none => simpa [List.filterMap_cons, hc] using ih.cons c
    | some w =>
      have hn := hg c w hc
      simpa [List.filterMap_cons, hc, hn] using ih

theorem sortStrings_sorted {l : List String} (h : l.Nodup) :
    (sortStrings l).Sorted (fun a b => a < b) := by
  have htotal : IsTotal String (fun a b => a.toList ≤ b.toList) :=
    ⟨fun a b => le_total a.toList b.toList⟩
  have htrans : IsTrans String (fun a b => a.toList ≤ b.toList) :=
    ⟨fun _ _ _ hab hbc => le_trans hab hbc⟩
  have h0 : (sortStrings l).Sorted (fun a b => a.toList ≤ b.toList) :=
    List.sorted_insertionSort (fun a b : String => a.toList ≤ b.toList) l
  have h1 : (sortStrings l).Sorted (fun a b => a ≤ b) :=
    h0.imp (fun hab => String.le_iff_toList_le.2 hab)
  have h2 : (sortStrings l).Nodup :=
    (List.perm_insertionSort (fun a b : String => a.toList ≤ b.toList) l).nodup_iff.2 h
  exact h1.lt_of_le h2

theorem mem_sortStrings (l : List String) (k : String) : k ∈ sortStrings l ↔ k ∈ l :=
  (List.perm_insertionSort (fun a b : String => a.toList ≤ b.toList) l).mem_iff

theorem buildWorkloads_names_sorted (f : Fetched) {r : Registry} (h : r.keys.Nodup) :
    ((buildWorkloads f r).map Workload.Name).Sorted (fun a b => a < b) := by
  unfold buildWorkloads
  refine List.Pairwise.sublist (filterMap_names_sublist _ ?_ _) (sortStrings_sorted h)
  intro c w hw
  split at hw
  · exact (buildWorkload_name hw).1
  · cases hw

/-- C4: whatever the access check and the eight fetches answer, the names of
the workloads that `fetchWorkloads` returns are in strictly increasing
lexicographic order, hence without repetition. -/
theorem fetchWorkloads_names_increasing (parse : String → Selector) (cl : Cluster)
    (excludedWorkloads : Option (List (String × Bool))) (run : Run)
    (labelSelector : String) :
    ((fetchWorkloads parse cl excludedWorkloads run labelSelector).1.map
        Workload.Name).Sorted (fun a b => a < b)
    ∧ ((fetchWorkloads parse cl excludedWorkloads run labelSelector).1.map
        Workload.Name).Nodup := by
  have key : ((fetchWorkloads parse cl excludedWorkloads run labelSelector).1.map
      Workload.Name).Sorted (fun a b => a < b) := by
    unfold fetchWorkloads
    split
    · simp
    · dsimp only
      split
      · simp
      · exact buildWorkloads_names_sorted _ (resolve_nodup _ _ _)
  exact ⟨key, key.imp (fun h => ne_of_lt h)⟩

/-! ## Properties of the tie-break -/

theorem controllerPriority_eq (a b : String) :
    controllerPriority a b = if weight a ≥ weight b then a else b := rfl

theorem weight_of_not_recognised {k : String} (h : recognised k = false) :
    weight k = 0 := by
  unfold recognised controllerOrderGet at h
  unfold weight controllerOrderGet
  cases hl : controllerOrder.lookup k with
  | none => rfl
  | some w => rw [hl] at h; simp at h

theorem precedence_pairs : ∀ i : Fin 8, ∀ j : Fin 8, i < j →
    controllerPriority (precedence.getD i "") (precedence.getD j "") = precedence.getD i ""
    ∧ controllerPriority (precedence.getD j "") (precedence.getD i "") = precedence.getD i "" := by
  decide

/-- C1: for two distinct recognised kinds, taken as the positions `i < j` of
the fixed order Deployment > DeploymentConfig > ReplicaSet >
ReplicationController > StatefulSet > Job > DaemonSet > Pod,
`controllerPriority` returns the earlier one whichever argument it is; in
particular Deployment wins over Job and DaemonSet over Pod. -/
theorem controllerPriority_precedence (i j : Nat) (hij : i < j) (hj : j < 8) :
    controllerPriority (precedence.getD i "") (precedence.getD j "") = precedence.getD i ""
    ∧ controllerPriority (precedence.getD j "") (precedence.getD i "") = precedence.getD i ""
    ∧ controllerPriority "Deployment" "Job" = "Deployment"
    ∧ controllerPriority "DaemonSet" "Pod" = "DaemonSet" := by
  have h := precedence_pairs ⟨i, by omega⟩ ⟨j, hj⟩ (by simpa using hij)
  exact ⟨h.1, h.2, by decide, by decide⟩

theorem controllerPriority_precedence_witness :
    controllerPriority (precedence.getD 2 "") (precedence.getD 5 "") = precedence.getD 2 ""
    ∧ controllerPriority (precedence.getD 5 "") (precedence.getD 2 "") = precedence.getD 2 ""
    ∧ controllerPriority "Deployment" "Job" = "Deployment"
    ∧ controllerPriority "DaemonSet" "Pod" = "DaemonSet" :=
  controllerPriority_precedence 2 5 (by decide) (by decide)

/-- C2, counterexample: the kind "CronJob" has no weight in `controllerOrder`,
yet it wins the tie-break against the recognised kind "Pod" in both argument
positions, and against "DaemonSet" as first argument. -/
theorem unrecognised_beats_pod :
    recognised "CronJob" = false ∧ recognised "Pod" = true
    ∧ recognised "DaemonSet" = true
    ∧ controllerPriority "CronJob" "Pod" = "CronJob"
    ∧ controllerPriority "Pod" "CronJob" = "CronJob"
    ∧ controllerPriority "CronJob" "DaemonSet" = "CronJob" := by
  decide

/-- C2, amended: a kind `u` without a weight in `controllerOrder` reads as
weight 0. It loses in both argument positions against Deployment,
DeploymentConfig, ReplicaSet, ReplicationController, StatefulSet and Job;
against DaemonSet (weight 0) the first argument wins; against Pod (weight -1)
the unrecognised kind wins in both positions. -/
theorem controllerPriority_unrecognised (u : String) (hu : recognised u = false) :
    (∀ k ∈ ["Deployment", "DeploymentConfig", "ReplicaSet", "ReplicationController",
        "StatefulSet", "Job"],
      controllerPriority u k = k ∧ controllerPriority k u = k)
    ∧ controllerPriority u "DaemonSet" = u
    ∧ controllerPriority "DaemonSet" u = "DaemonSet"
    ∧ controllerPriority u "Pod" = u
    ∧ controllerPriority "Pod" u = u := by
  have hw := weight_of_not_recognised hu
  have w1 : weight "Deployment" = 6 := by decide
  have w2 : weight "DeploymentConfig" = 5 := by decide
  have w3 : weight "ReplicaSet" = 4 := by decide
  have w4 : weight "ReplicationController" = 3 := by decide
  have w5 : weight "StatefulSet" = 2 := by decide
  have w6 : weight "Job" = 1 := by decide
  have w7 : weight "DaemonSet" = 0 := by decide
  have w8 : weight "Pod" = -1 := by decide
  refine ⟨?_, ?_, ?_, ?_, ?_⟩
  · intro k hk
    simp only [List.mem_cons, List.mem_singleton, List.not_mem_nil, or_false] at hk
    rcases hk with rfl | rfl | rfl | rfl | rfl | rfl <;>
      simp [controllerPriority_eq, hw, w1, w2, w3, w4, w5, w6]
  · simp [controllerPriority_eq, hw, w7]
  · simp [controllerPriority_eq, hw, w7]
  · simp [controllerPriority_eq, hw, w8]
  · simp [controllerPriority_eq, hw, w8]

theorem controllerPriority_unrecognised_witness :
    (∀ k ∈ ["Deployment", "DeploymentConfig", "ReplicaSet", "ReplicationController",
        "StatefulSet", "Job"],
      controllerPriority "CronJob" k = k ∧ controllerPriority k "CronJob" = k)
    ∧ controllerPriority "CronJob" "DaemonSet" = "CronJob"
    ∧ controllerPriority "DaemonSet" "CronJob" = "DaemonSet"
    ∧ controllerPriority "CronJob" "Pod" = "CronJob"
    ∧ controllerPriority "Pod" "CronJob" = "CronJob" :=
  controllerPriority_unrecognised "CronJob" (by decide)

/-! ## The seeding pass -/

theorem controllerOrderGet_eq (k : String) :
    controllerOrderGet k =
      if k = "Deployment" then (6, true)
      else if k = "DeploymentConfig" then (5, true)
      else if k = "ReplicaSet" then (4, true)
      else if k = "ReplicationController" then (3, true)
      else if k = "StatefulSet" then (2, true)
      else if k = "Job" then (1, true)
      else if k = "DaemonSet" then (0, true)
      else if k = "Pod" then (-1, true)
      else (0, false) := by
  unfold controllerOrderGet controllerOrder
  split_ifs with h1 h2 h3 h4 h5 h6 h7 h8
  · subst h1; rfl
  · subst h2; rfl
  · subst h3; rfl
  · subst h4; rfl
  · subst h5; rfl
  · subst h6; rfl
  · subst h7; rfl
  · subst h8; rfl
  · have e1 : (k == "Deployment") = false := by simpa using h1
    have e2 : (k == "DeploymentConfig") = false := by simpa using h2
    have e3 : (k == "ReplicaSet") = false := by simpa using h3
    have e4 : (k == "ReplicationController") = false := by simpa using h4
    have e5 : (k == "StatefulSet") = false := by simpa using h5
    have e6 : (k == "Job") = false := by simpa using h6
    have e7 : (k == "DaemonSet") = false := by simpa using h7
    have e8 : (k == "Pod") = false := by simpa using h8
    simp only [List.lookup, e1, e2, e3, e4, e5, e6, e7, e8]

theorem weight_ge (e : String) : -1 ≤ weight e := by
  unfold weight
  rw [controllerOrderGet_eq]
  split_ifs <;> simp

theorem recognised_iff (k : String) : recognised k = true ↔ k ∈ precedence := by
  unfold recognised precedence
  rw [controllerOrderGet_eq]
  simp only [List.mem_cons, List.mem_singleton, List.not_mem_nil, or_false]
  split_ifs <;> simp_all

theorem weight_injective {x y : String} (hx : recognised x = true)
    (hy : recognised y = true) (h : weight x = weight y) : x = y := by
  rw [recognised_iff] at hx hy
  simp only [precedence, List.mem_cons, List.mem_singleton, List.not_mem_nil, or_false] at hx hy
  rcases hx with rfl | rfl | rfl | rfl | rfl | rfl | rfl | rfl <;>
    rcases hy with rfl | rfl | rfl | rfl | rfl | rfl | rfl | rfl <;>
    first
    | rfl
    | (exfalso; revert h; decide)

theorem controllerPriority_self (e : String) : controllerPriority e e = e := by
  simp [controllerPriority_eq]

theorem controllerPriority_pod (e : String) : controllerPriority e "Pod" = e := by
  have h := weight_ge e
  have hp : weight "Pod" = -1 := by decide
  simp [controllerPriority_eq, hp, h]

theorem controllerPriority_comm {x y : String} (hx : recognised x = true)
    (hy : recognised y = true) : controllerPriority x y = controllerPriority y x := by
  simp only [controllerPriority_eq]
  split_ifs with h1 h2 h2
  · exact weight_injective hx hy (le_antisymm h2 h1)
  · rfl
  · rfl
  · omega

theorem controllerPriority_right_comm {x y : String} (hx : recognised x = true)
    (hy : recognised y = true) (z : String) :
    controllerPriority (controllerPriority z x) y
      = controllerPriority (controllerPriority z y) x := by
  simp only [controllerPriority_eq]
  split_ifs <;> first
    | rfl
    | omega
    | (apply weight_injective hx hy; omega)

theorem mergeKind_right_comm {x y : String} (hx : recognised x = true)
    (hy : recognised y = true) (z : Option String) :
    mergeKind (mergeKind z x) y = mergeKind (mergeKind z y) x := by
  cases z with
  | none => simp [mergeKind, controllerPriority_comm hx hy]
  | some e => simp [mergeKind, controllerPriority_right_comm hx hy e]

theorem get_recordOwner (r : Registry) (ref : OwnerReference) (k : String) :
    (recordOwner r ref).get k
      = if k = ref.Name then mergeKind (r.get ref.Name) ref.Kind else r.get k := by
  unfold recordOwner
  cases h : r.get ref.Name with
  | none => simp [Registry.get_set, mergeKind]
  | some e =>
    by_cases he : e = ref.Kind
    · subst he
      by_cases hk : k = ref.Name
      · subst hk; simp [mergeKind, controllerPriority_self, h]
      · simp [hk]
    · simp [he, Registry.get_set, mergeKind]

theorem kindsFor_append (k : String) (l₁ l₂ : List (String × String)) :
    kindsFor k (l₁ ++ l₂) = kindsFor k l₁ ++ kindsFor k l₂ := by
  simp [kindsFor]

theorem kindsFor_cons (k : String) (p : String × String) (l : List (String × String)) :
    kindsFor k (p :: l) = if p.1 = k then p.2 :: kindsFor k l else kindsFor k l := by
  by_cases h : p.1 = k <;> simp [kindsFor, List.filter_cons, h]

theorem get_recordAll (refs : List OwnerReference) (r : Registry) (k : String) :
    (refs.foldl (fun c ref => if ref.isController then recordOwner c ref else c) r).get k
      = (kindsFor k ((refs.filter OwnerReference.isController).map
          (fun ref => (ref.Name, ref.Kind)))).foldl mergeKind (r.get k) := by
  induction refs generalizing r with
  | nil => simp [kindsFor]
  | cons ref rest ih =>
    rw [List.foldl_cons, ih]
    by_cases hc : ref.isController = true
    · simp only [hc, if_true, List.filter_cons, List.map_cons, kindsFor_cons]
      by_cases hk : ref.Name = k
      · subst hk
        simp [get_recordOwner]
      · have hk2 : ¬ k = ref.Name := fun h => hk h.symm
        simp [get_recordOwner, hk, hk2]
    · simp [hc, List.filter_cons]

theorem get_seedPod (r : Registry) (pod : Pod) (k : String) :
    (seedPod r pod).get k = (kindsFor k (assertions pod)).foldl mergeKind (r.get k) := by
  unfold seedPod assertions
  by_cases hl : pod.OwnerReferences.length ≠ 0
  · simp only [hl, if_true, ne_eq, not_false_eq_true]
    exact get_recordAll _ _ _
  · simp only [hl, if_false, kindsFor_cons]
    by_cases hk : pod.Name = k
    · subst hk
      cases hg : r.get pod.Name with
      | none => simp [Registry.get_set, kindsFor, mergeKind]
      | some e => simp [hg, kindsFor, mergeKind, controllerPriority_pod]
    · have hk2 : ¬ k = pod.Name := fun h => hk h.symm
      cases hg : r.get pod.Name with
      | none => simp [Registry.get_set, kindsFor, hk, hk2]
      | some e => simp [kindsFor, hk]

theorem get_seedFold (pods : List Pod) (r : Registry) (k : String) :
    (pods.foldl seedPod r).get k
      = (kindsFor k (pods.flatMap assertions)).foldl mergeKind (r.get k) := by
  induction pods generalizing r with
  | nil => simp [kindsFor]
  | cons pod rest ih =>
    rw [List.foldl_cons, ih, get_seedPod, List.flatMap_cons, kindsFor_append,
      List.foldl_append]

theorem get_seedPass (pods : List Pod) (k : String) :
    (seedPass pods).get k
      = (kindsFor k (pods.flatMap assertions)).foldl mergeKind none := by
  unfold seedPass
  rw [get_seedFold]
  rfl

theorem assertions_perm {p q : Pod} (hn : p.Name = q.Name)
    (hr : p.OwnerReferences.Perm q.OwnerReferences) :
    (assertions p).Perm (assertions q) := by
  unfold assertions
  rw [hr.length_eq, hn]
  split
  · exact (hr.filter _).map _
  · exact List.Perm.refl _

theorem flatMap_assertions_perm {pods pods' : List Pod} (h : podsReordered pods pods') :
    (pods.flatMap assertions).Perm (pods'.flatMap assertions) := by
  obtain ⟨mid, hp, hf⟩ := h
  refine (hp.flatMap_right assertions).trans ?_
  clear hp
  induction hf with
  | nil => exact List.Perm.refl _
  | cons hpq _ ih =>
    simp only [List.flatMap_cons]
    exact (assertions_perm hpq.1 hpq.2.2).append ih

theorem assertions_recognised {pods : List Pod} (h : recognisedOwners pods)
    {k kind : String} (hk : kind ∈ kindsFor k (pods.flatMap assertions)) :
    recognised kind = true := by
  unfold kindsFor at hk
  simp only [List.mem_map, List.mem_filter, List.mem_flatMap] at hk
  obtain ⟨⟨n, kd⟩, ⟨⟨pod, hpod, hmem⟩, _⟩, rfl⟩ := hk
  unfold assertions at hmem
  split at hmem
  · simp only [List.mem_map, List.mem_filter] at hmem
    obtain ⟨ref, ⟨href, hc⟩, heq⟩ := hmem
    cases heq
    exact h pod hpod ref href hc
  · simp only [List.mem_singleton, Prod.mk.injEq] at hmem
    obtain ⟨_, rfl⟩ := hmem
    show recognised "Pod" = true
    decide

/-- C3, counterexample: two pods name the same controller "x", one with the
kind "Foo" and one with the kind "Bar", neither in `controllerOrder`. Both
kinds read as weight 0, the kind seen first is kept, and the two orders of the
pod list give two different registries. -/
theorem seedPass_order_dependent :
    [podOwnedBy "p1" "Foo", podOwnedBy "p2" "Bar"].Perm
        [podOwnedBy "p2" "Bar", podOwnedBy "p1" "Foo"]
    ∧ (seedPass [podOwnedBy "p1" "Foo", podOwnedBy "p2" "Bar"]).get "x" = some "Foo"
    ∧ (seedPass [podOwnedBy "p2" "Bar", podOwnedBy "p1" "Foo"]).get "x" = some "Bar" :=
  ⟨List.Perm.swap _ _ _, by decide, by decide⟩

/-- C3, amended: when every controller reference of the pods carries one of
the eight kinds of `controllerOrder`, the registry after the seeding pass is
the same map for every order of the pod list and of the owner references of
each pod. -/
theorem seedPass_reordered (pods pods' : List Pod) (hperm : podsReordered pods pods')
    (hrec : recognisedOwners pods) (k : String) :
    (seedPass pods).get k = (seedPass pods').get k := by
  rw [get_seedPass, get_seedPass]
  have hp : (kindsFor k (pods.flatMap assertions)).Perm
      (kindsFor k (pods'.flatMap assertions)) :=
    ((flatMap_assertions_perm hperm).filter _).map _
  exact hp.foldl_eq'
    (fun x hx y hy z =>
      mergeKind_right_comm (assertions_recognised hrec hx) (assertions_recognised hrec hy) z)
    none

theorem seedPass_reordered_witness :
    podsReordered [podOwnedBy "p1" "Deployment", podOwnedBy "p2" "ReplicaSet"]
        [podOwnedBy "p2" "ReplicaSet", podOwnedBy "p1" "Deployment"]
    ∧ recognisedOwners [podOwnedBy "p1" "Deployment", podOwnedBy "p2" "ReplicaSet"]
    ∧ (seedPass [podOwnedBy "p1" "Deployment", podOwnedBy "p2" "ReplicaSet"]).get "x"
      = (seedPass [podOwnedBy "p2" "ReplicaSet", podOwnedBy "p1" "Deployment"]).get "x" :=
  have hperm : podsReordered [podOwnedBy "p1" "Deployment", podOwnedBy "p2" "ReplicaSet"]
      [podOwnedBy "p2" "ReplicaSet", podOwnedBy "p1" "Deployment"] :=
    ⟨_, List.Perm.swap _ _ _,
      List.Forall₂.cons ⟨rfl, rfl, List.Perm.refl _⟩
        (List.Forall₂.cons ⟨rfl, rfl, List.Perm.refl _⟩ List.Forall₂.nil)⟩
  have hrec : recognisedOwners [podOwnedBy "p1" "Deployment", podOwnedBy "p2" "ReplicaSet"] := by
    unfold recognisedOwners
    decide
  ⟨hperm, hrec, seedPass_reordered _ _ hperm hrec "x"⟩

/-! ## The recovery pass -/

theorem recoverAny_get_mono (kind : String) (selector : Selector) (r : Registry)
    (x : Controller) {k v : String} (h : r.get k = some v) :
    (recoverAny kind selector r x).get k = some v := by
  unfold recoverAny
  split
  · rename_i hc
    rw [Registry.get_set]
    by_cases hk : k = x.Name
    · subst hk; simp [h] at hc
    · simp [hk, h]
  · exact h

theorem recoverOwnerless_get_mono (kind : String) (selector : Selector) (r : Registry)
    (x : Controller) {k v : String} (h : r.get k = some v) :
    (recoverOwnerless kind selector r x).get k = some v := by
  unfold recoverOwnerless
  split
  · rename_i hc
    rw [Registry.get_set]
    by_cases hk : k = x.Name
    · subst hk; simp [h] at hc
    · simp [hk, h]
  · exact h

theorem recoverAny_covers (kind : String) (r : Registry) (x : Controller) :
    ∃ v, (recoverAny kind none r x).get x.Name = some v := by
  unfold recoverAny
  cases h : r.get x.Name with
  | none => exact ⟨kind, by simp [selectorCheck, Registry.get_set]⟩
  | some v => exact ⟨v, by simp [h]⟩

theorem recoverOwnerless_covers (kind : String) (r : Registry) (x : Controller)
    (hx : x.OwnerReferences = []) :
    ∃ v, (recoverOwnerless kind none r x).get x.Name = some v := by
  unfold recoverOwnerless
  cases h : r.get x.Name with
  | none => exact ⟨kind, by simp [selectorCheck, Registry.get_set, hx]⟩
  | some v => exact ⟨v, by simp [h]⟩

theorem foldl_get_mono (step : Registry → Controller → Registry)
    (mono : ∀ r x k v, r.get k = some v → (step r x).get k = some v)
    (xs : List Controller) (r : Registry) {k v : String} (h : r.get k = some v) :
    (xs.foldl step r).get k = some v :=
  foldl_preserves (fun c : Registry => c.get k = some v) step
    (fun b a hb => mono b a k v hb) xs r h

theorem foldl_covers (step : Registry → Controller → Registry) (elig : Controller → Prop)
    (mono : ∀ r x k v, r.get k = some v → (step r x).get k = some v)
    (cover : ∀ r x, elig x → ∃ v, (step r x).get x.Name = some v)
    (xs : List Controller) (r : Registry) (x : Controller) (hx : x ∈ xs) (he : elig x) :
    ∃ v, (xs.foldl step r).get x.Name = some v := by
  induction xs generalizing r with
  | nil => cases hx
  | cons y rest ih =>
    rw [List.foldl_cons]
    rcases List.mem_cons.1 hx with rfl | hmem
    · obtain ⟨v, hv⟩ := cover r x he
      exact ⟨v, foldl_get_mono step mono rest _ hv⟩
    · exact ih _ hmem

theorem recoveryPass_get_mono (selector : Selector) (f : Fetched) (r : Registry)
    {k v : String} (h : r.get k = some v) : (recoveryPass selector f r).get k = some v := by
  unfold recoveryPass
  exact foldl_get_mono _ (fun r x _ _ => recoverAny_get_mono _ _ r x) _ _
    (foldl_get_mono _ (fun r x _ _ => recoverOwnerless_get_mono _ _ r x) _ _
      (foldl_get_mono _ (fun r x _ _ => recoverAny_get_mono _ _ r x) _ _
        (foldl_get_mono _ (fun r x _ _ => recoverOwnerless_get_mono _ _ r x) _ _
          (foldl_get_mono _ (fun r x _ _ => recoverAny_get_mono _ _ r x) _ _ h))))

/-- C8: with the empty label selector, after the recovery pass the name of
every fetched Deployment, DeploymentConfig and StatefulSet, and of every
fetched ReplicaSet and ReplicationController without owner references, is a
key of the registry, whatever registry the pass starts from (so also for a
controller that no pod refers to); and every entry that was there before the
pass keeps its kind. -/
theorem recoveryPass_surfaces (parse : String → Selector) (f : Fetched) (r : Registry) :
    (∀ d ∈ f.dep, d.Name ∈ (recoveryPass (recoverySelector parse "") f r).keys)
    ∧ (∀ rs ∈ f.repset, rs.OwnerReferences = [] →
        rs.Name ∈ (recoveryPass (recoverySelector parse "") f r).keys)
    ∧ (∀ dc ∈ f.depcon, dc.Name ∈ (recoveryPass (recoverySelector parse "") f r).keys)
    ∧ (∀ rc ∈ f.repcon, rc.OwnerReferences = [] →
        rc.Name ∈ (recoveryPass (recoverySelector parse "") f r).keys)
    ∧ (∀ fs ∈ f.fulset, fs.Name ∈ (recoveryPass (recoverySelector parse "") f r).keys)
    ∧ (∀ k v, r.get k = some v →
        (recoveryPass (recoverySelector parse "") f r).get k = some v) := by
  have hsel : recoverySelector parse "" = none := by simp [recoverySelector]
  rw [hsel]
  have mA : ∀ kind, ∀ (r : Registry) (x : Controller) (k v : String), r.get k = some v →
      (recoverAny kind none r x).get k = some v :=
    fun kind r x _ _ h => recoverAny_get_mono kind none r x h
  have mO : ∀ kind, ∀ (r : Registry) (x : Controller) (k v : String), r.get k = some v →
      (recoverOwnerless kind none r x).get k = some v :=
    fun kind r x _ _ h => recoverOwnerless_get_mono kind none r x h
  refine ⟨?_, ?_, ?_, ?_, ?_, fun k v h => recoveryPass_get_mono none f r h⟩
  · intro d hd
    rw [Registry.mem_keys_iff]
    obtain ⟨v, hv⟩ := foldl_covers (recoverAny "Deployment" none) (fun _ => True)
      (mA _) (fun r x _ => recoverAny_covers _ r x) f.dep r d hd trivial
    exact ⟨v, foldl_get_mono _ (mA _) _ _ (foldl_get_mono _ (mO _) _ _
      (foldl_get_mono _ (mA _) _ _ (foldl_get_mono _ (mO _) _ _ hv)))⟩
  · intro rs hrs hown
    rw [Registry.mem_keys_iff]
    obtain ⟨v, hv⟩ := foldl_covers (recoverOwnerless "ReplicaSet" none)
      (fun x => x.OwnerReferences = []) (mO _)
      (fun r x hx => recoverOwnerless_covers _ r x hx) f.repset
      (f.dep.foldl (recoverAny "Deployment" none) r) rs hrs hown
    exact ⟨v, foldl_get_mono _ (mA _) _ _ (foldl_get_mono _ (mO _) _ _
      (foldl_get_mono _ (mA _) _ _ hv))⟩
  · intro dc hdc
    rw [Registry.mem_keys_iff]
    obtain ⟨v, hv⟩ := foldl_covers (recoverAny "DeploymentConfig" none) (fun _ => True)
      (mA _) (fun r x _ => recoverAny_covers _ r x) f.depcon
      (f.repset.foldl (recoverOwnerless "ReplicaSet" none)
        (f.dep.foldl (recoverAny "Deployment" none) r)) dc hdc trivial
    exact ⟨v, foldl_get_mono _ (mA _) _ _ (foldl_get_mono _ (mO _) _ _ hv)⟩
  · intro rc hrc hown
    rw [Registry.mem_keys_iff]
    obtain ⟨v, hv⟩ := foldl_covers (recoverOwnerless "ReplicationController" none)
      (fun x => x.OwnerReferences = []) (mO _)
      (fun r x hx => recoverOwnerless_covers _ r x hx) f.repcon
      (f.depcon.foldl (recoverAny "DeploymentConfig" none)
        (f.repset.foldl (recoverOwnerless "ReplicaSet" none)
          (f.dep.foldl (recoverAny "Deployment" none) r))) rc hrc hown
    exact ⟨v, foldl_get_mono _ (mA _) _ _ hv⟩
  · intro fs hfs
    rw [Registry.mem_keys_iff]
    exact foldl_covers (recoverAny "StatefulSet" none) (fun _ => True)
      (mA _) (fun r x _ => recoverAny_covers _ r x) f.fulset _ fs hfs trivial

theorem recoveryPass_surfaces_witness :
    "web" ∈ (recoveryPass (recoverySelector (fun _ => none) "") scaledToZero []).keys :=
  (recoveryPass_surfaces (fun _ => none) scaledToZero []).1
    { Name := "web", OwnerReferences := [], TemplateLabels := [("app", "web")] }
    (by simp [scaledToZero])

/-! ## The build of the batch path and of the single-workload path -/

theorem hasName_iff (xs : List Controller) (name : String) :
    hasName xs name = true ↔ (findByName xs name).isSome = true := by
  unfold hasName findByName
  simp [List.find?_isSome]

theorem buildFromCollection_isSome (kind : String) (xs : List Controller)
    (pods : List Pod) (cname : String) :
    (buildFromCollection kind xs pods cname).isSome = hasName xs cname := by
  have h := hasName_iff xs cname
  unfold buildFromCollection
  cases hf : findByName xs cname with
  | none => simp [hf] at h; simp [h]
  | some x => simp [hf] at h; simp [h]

theorem buildFromPod_isSome (pods : List Pod) (cname : String) :
    (buildFromPod pods cname).isSome = pods.any (fun pod => decide (pod.Name = cname)) := by
  have key : (pods.find? (fun pod => decide (pod.Name = cname))).isSome
      = pods.any (fun pod => decide (pod.Name = cname)) := by
    rw [Bool.eq_iff_iff]
    simp [List.find?_isSome, List.any_eq_true]
  unfold buildFromPod
  cases hf : pods.find? (fun pod => decide (pod.Name = cname)) with
  | none => rw [hf] at key; rw [← key]; rfl
  | some pod => rw [hf] at key; rw [← key]; rfl

theorem buildWorkload_isSome_iff (f : Fetched) (cname ctype : String) :
    (buildWorkload f cname ctype).isSome = true
      ↔ (ctype ∉ modelledKinds ∨ objectPresent f ctype cname = true) := by
  unfold buildWorkload objectPresent modelledKinds
  split_ifs with h1 h2 h3 h4 h5 h6 h7 h8
  · subst h1; simp [buildFromCollection_isSome]
  · subst h2; simp [buildFromCollection_isSome]
  · subst h3; simp [buildFromCollection_isSome]
  · subst h4; simp [buildFromCollection_isSome]
  · subst h5; simp [buildFromCollection_isSome]
  · subst h6; simp [buildFromPod_isSome]
  · subst h7; simp [buildFromCollection_isSome]
  · subst h8; simp [buildFromCollection_isSome]
  · simp [h1, h2, h3, h4, h5, h6, h7, h8]

theorem mem_buildWorkloads (f : Fetched) (r : Registry) (w : Workload) :
    w ∈ buildWorkloads f r
      ↔ ∃ ctype, r.get w.Name = some ctype ∧ buildWorkload f w.Name ctype = some w := by
  unfold buildWorkloads
  rw [List.mem_filterMap]
  constructor
  · rintro ⟨c, _, hc⟩
    split at hc
    · rename_i ctype hget
      have hn := (buildWorkload_name hc).1
      subst hn
      exact ⟨ctype, hget, hc⟩
    · cases hc
  · rintro ⟨ctype, hget, hb⟩
    refine ⟨w.Name, ?_, ?_⟩
    · rw [mem_sortStrings, Registry.mem_keys_iff]
      exact ⟨ctype, hget⟩
    · simp [hget, hb]

theorem fetchWorkloads_of_success (parse : String → Selector) (cl : Cluster)
    (excludedWorkloads : Option (List (String × Bool))) (run : Run)
    (labelSelector : String) (hns : cl.namespaceError = none)
    (hok : (fetchAll cl excludedWorkloads labelSelector).2 = []) :
    fetchWorkloads parse cl excludedWorkloads run labelSelector
      = (buildWorkloads (fetchAll cl excludedWorkloads labelSelector).1
          (resolve (recoverySelector parse labelSelector) run.order
            (fetchAll cl excludedWorkloads labelSelector).1), none) := by
  unfold fetchWorkloads
  simp [hns, hok]

/-- C10: when the access check and all issued fetches succeed, the batch path
returns no error, and for every entry `(name, kind)` of the final registry the
returned list holds a workload of that name and kind if and only if the kind
is not one of the eight modelled kinds or an object of that name is in the
fetched collection of the kind; an entry whose object is missing is dropped
and the call still succeeds. -/
theorem fetchWorkloads_drops_missing (parse : String → Selector) (cl : Cluster)
    (excludedWorkloads : Option (List (String × Bool))) (run : Run)
    (labelSelector : String) (hns : cl.namespaceError = none)
    (hok : (fetchAll cl excludedWorkloads labelSelector).2 = []) :
    (fetchWorkloads parse cl excludedWorkloads run labelSelector).2 = none
    ∧ ∀ name kind,
        (resolve (recoverySelector parse labelSelector) run.order
          (fetchAll cl excludedWorkloads labelSelector).1).get name = some kind →
        ((∃ w ∈ (fetchWorkloads parse cl excludedWorkloads run labelSelector).1,
            w.Name = name ∧ w.Kind = kind)
          ↔ (kind ∉ modelledKinds
              ∨ objectPresent (fetchAll cl excludedWorkloads labelSelector).1 kind name
                  = true)) := by
  rw [fetchWorkloads_of_success parse cl excludedWorkloads run labelSelector hns hok]
  refine ⟨rfl, ?_⟩
  intro name kind hget
  rw [← buildWorkload_isSome_iff]
  constructor
  · rintro ⟨w, hw, hn, _⟩
    obtain ⟨ctype, hg, hb⟩ := (mem_buildWorkloads _ _ w).1 hw
    subst hn
    rw [hget] at hg
    cases hg
    simp [hb]
  · intro hsome
    obtain ⟨w, hw⟩ := Option.isSome_iff_exists.1 hsome
    have hnk := buildWorkload_name hw
    refine ⟨w, ?_, hnk.1, hnk.2⟩
    rw [mem_buildWorkloads]
    refine ⟨kind, ?_, ?_⟩
    · rw [hnk.1]; exact hget
    · rw [hnk.1]; exact hw

theorem fetchWorkloads_drops_missing_witness :
    (fetchWorkloads (fun _ => none) statefulCluster none { order := ["web"], first := 0 } "").2
      = none :=
  (fetchWorkloads_drops_missing (fun _ => none) statefulCluster none
    { order := ["web"], first := 0 } "" rfl (by decide)).1

/-- C9, the failing input evaluated: the namespace holds the StatefulSet "web"
and its pod, and the request names the workload "web" with the target kind
"Deployment". The StatefulSet fetch is skipped, `fulset` stays nil, the
registry still maps "web" to "StatefulSet" from the pod, and the build reads
`fulset.Name`: the call panics instead of returning a not-found error. The
same happens without a target kind when the configuration excludes the kind
"StatefulSet". A request without target kind and without exclusion returns
the workload. -/
theorem fetchWorkload_skipped_kind_panics :
    fetchWorkload statefulCluster none { order := ["web"], first := 0 } "web" "Deployment"
      = Outcome.nilDereference
    ∧ (resolveOne ["web"]
        (fetchOne statefulCluster none "web" "Deployment").1).get "web" = some "StatefulSet"
    ∧ (fetchOne statefulCluster none "web" "Deployment").1.fulset = none
    ∧ fetchWorkload statefulCluster (some [("StatefulSet", true)])
        { order := ["web"], first := 0 } "web" "" = Outcome.nilDereference
    ∧ fetchWorkload statefulCluster none { order := ["web"], first := 0 } "web" ""
      = Outcome.returned
          (some { Name := "web", Kind := "StatefulSet",
                  Pods := [{ Name := "web-0", Labels := [("app", "web")],
                             OwnerReferences :=
                               [{ Name := "web", Kind := "StatefulSet",
                                  Controller := some true }] }] })
          none := by
  refine ⟨?_, ?_, ?_, ?_, ?_⟩ <;> decide

/-! ## The owner loop of a turn of the collapse pass -/

theorem collapseOwners_eq (cname : String) (refs : List OwnerReference) (r : Registry) :
    collapseOwners cname refs r = refs.foldl (collapseStep (fun _ => true) cname) r := by
  unfold collapseOwners
  congr 1

theorem collapseJobOwners_eq (conjbs : List Controller) (cname : String)
    (refs : List OwnerReference) (r : Registry) :
    collapseJobOwners conjbs cname refs r
      = refs.foldl (collapseStep (fun ref => cronJobExists conjbs ref.Name) cname) r := by
  unfold collapseJobOwners
  congr 1

theorem collapseChild_eq (xs : List Controller) (cname : String) (r : Registry) :
    collapseChild xs cname r
      = (match findByName xs cname with
          | some x => x.OwnerReferences
          | none => []).foldl (collapseStep (fun _ => true) cname) r := by
  unfold collapseChild
  cases findByName xs cname with
  | none => rfl
  | some x =>
    simp only
    split
    · exact collapseOwners_eq _ _ _
    · rename_i h
      have : x.OwnerReferences = [] := by
        cases hx : x.OwnerReferences with
        | nil => rfl
        | cons a l => rw [hx] at h; simp at h
      rw [this]; rfl

theorem collapseEntry_eq (cs : Collections) (cname ctype : String) (r : Registry) :
    collapseEntry cs cname ctype r
      = (ownersOf cs cname ctype).foldl (collapseStep (deletes cs ctype) cname) r := by
  unfold collapseEntry ownersOf
  by_cases h1 : ctype = "ReplicaSet"
  · subst h1
    have e : deletes cs "ReplicaSet" = fun _ => true := by
      funext ref; simp [deletes]
    simp only [if_true, e]
    simp only [show ¬ ("ReplicaSet" = "ReplicationController") by decide,
      show ¬ ("ReplicaSet" = "Job") by decide, if_false]
    exact collapseChild_eq _ _ _
  · by_cases h2 : ctype = "ReplicationController"
    · subst h2
      have e : deletes cs "ReplicationController" = fun _ => true := by
        funext ref; simp [deletes]
      simp only [if_true, e]
      simp only [show ¬ ("ReplicationController" = "ReplicaSet") by decide,
        show ¬ ("ReplicationController" = "Job") by decide, if_false]
      exact collapseChild_eq _ _ _
    · by_cases h3 : ctype = "Job"
      · subst h3
        have e : deletes cs "Job" = fun ref => cronJobExists cs.conjbs ref.Name := by
          funext ref; simp [deletes]
        simp only [if_true, e]
        simp only [show ¬ ("Job" = "ReplicaSet") by decide,
          show ¬ ("Job" = "ReplicationController") by decide, if_false]
        cases hf : findByName cs.jbs cname with
        | none => rfl
        | some x =>
          simp only
          split
          · exact collapseJobOwners_eq _ _ _ _
          · rename_i h
            have : x.OwnerReferences = [] := by
              cases hx : x.OwnerReferences with
              | nil => rfl
              | cons a l => rw [hx] at h; simp at h
            rw [this]; rfl
      · simp [h1, h2, h3]

theorem get_collapseStep (del : OwnerReference → Bool) (cname : String) (c : Registry)
    (ref : OwnerReference) (k : String) :
    (collapseStep del cname c ref).get k =
      if ref.isController = true then
        if del ref = true ∧ k = cname then none
        else if k = ref.Name then mergeKind (c.get ref.Name) ref.Kind
        else c.get k
      else c.get k := by
  unfold collapseStep
  by_cases hc : ref.isController = true
  · by_cases hd : del ref = true
    · simp only [hc, hd, if_true, true_and, Registry.get_delete, get_recordOwner]
    · simp only [hc, hd, if_true, false_and, if_false]
      simp only [Bool.false_eq_true, if_false]
      exact get_recordOwner c ref k
  · simp [hc]

theorem weight_controllerPriority_left (a b : String) :
    weight a ≤ weight (controllerPriority a b) := by
  rw [controllerPriority_eq]
  split_ifs with h
  · exact le_refl _
  · omega

theorem weight_controllerPriority_right (a b : String) :
    weight b ≤ weight (controllerPriority a b) := by
  rw [controllerPriority_eq]
  split_ifs with h
  · exact h
  · exact le_refl _

theorem controllerPriority_of_le {a b : String} (h : weight b ≤ weight a) :
    controllerPriority a b = a := by
  rw [controllerPriority_eq]
  simp [h]

theorem get_foldl_collapseStep_frame (del : OwnerReference → Bool) (cname : String)
    (refs : List OwnerReference) (r : Registry) (k : String) (hk : k ≠ cname)
    (hr : ∀ ref ∈ refs, ref.isController = true → ref.Name ≠ k) :
    (refs.foldl (collapseStep del cname) r).get k = r.get k := by
  induction refs generalizing r with
  | nil => rfl
  | cons a rest ih =>
    rw [List.foldl_cons, ih _ (fun ref h => hr ref (List.mem_cons_of_mem _ h)),
      get_collapseStep]
    by_cases hc : a.isController = true
    · have hn : ¬ k = a.Name := fun h => hr a (List.mem_cons_self _ _) hc h.symm
      simp [hc, hk, hn]
    · simp [hc]

theorem get_foldl_collapseStep_self (del : OwnerReference → Bool) (cname : String)
    (refs : List OwnerReference) (r : Registry)
    (hr : ∀ ref ∈ refs, ref.isController = true → ref.Name ≠ cname) :
    (refs.foldl (collapseStep del cname) r).get cname
      = if refs.any (fun ref => ref.isController && del ref) = true then none
        else r.get cname := by
  induction refs generalizing r with
  | nil => simp
  | cons a rest ih =>
    rw [List.foldl_cons, ih _ (fun ref h => hr ref (List.mem_cons_of_mem _ h)),
      get_collapseStep]
    by_cases hc : a.isController = true
    · have hn : ¬ cname = a.Name := fun h => hr a (List.mem_cons_self _ _) hc h.symm
      by_cases hd : del a = true
      · simp [hc, hd]
      · simp [hc, hd, hn]
    · simp [hc]

theorem dominated_congr {r r' : Registry} (h : ∀ k, r'.get k = r.get k)
    {ref : OwnerReference} (hd : dominated r ref) : dominated r' ref := by
  obtain ⟨e, he, hw⟩ := hd
  exact ⟨e, by rw [h, he], hw⟩

theorem dominated_collapseStep (del : OwnerReference → Bool) (cname : String)
    (c : Registry) (ref ref0 : OwnerReference) (h0 : dominated c ref0)
    (hn : ref0.Name ≠ cname) : dominated (collapseStep del cname c ref) ref0 := by
  obtain ⟨e, he, hw⟩ := h0
  unfold dominated
  rw [get_collapseStep]
  by_cases hc : ref.isController = true
  · by_cases hk : ref0.Name = ref.Name
    · refine ⟨controllerPriority e ref.Kind, ?_, ?_⟩
      · rw [if_pos hc, if_neg (fun h => hn h.2), if_pos hk, ← hk, he]
        rfl
      · exact le_trans hw (weight_controllerPriority_left _ _)
    · exact ⟨e, by simp [hc, hn, hk, he], hw⟩
  · exact ⟨e, by simp [hc, he], hw⟩

theorem dominated_collapseStep_self (del : OwnerReference → Bool) (cname : String)
    (c : Registry) (ref : OwnerReference) (hc : ref.isController = true)
    (hn : ref.Name ≠ cname) : dominated (collapseStep del cname c ref) ref := by
  unfold dominated
  rw [get_collapseStep]
  cases hg : c.get ref.Name with
  | none => exact ⟨ref.Kind, by simp [hc, hn, mergeKind], le_refl _⟩
  | some e =>
    exact ⟨controllerPriority e ref.Kind, by simp [hc, hn, mergeKind],
      weight_controllerPriority_right _ _⟩

theorem dominated_foldl (del : OwnerReference → Bool) (cname : String)
    (refs : List OwnerReference) (r : Registry) (ref0 : OwnerReference)
    (h0 : dominated r ref0) (hn : ref0.Name ≠ cname) :
    dominated (refs.foldl (collapseStep del cname) r) ref0 :=
  foldl_preserves (fun c : Registry => dominated c ref0) _
    (fun b a hb => dominated_collapseStep del cname b a ref0 hb hn) refs r h0

theorem dominated_foldl_mem (del : OwnerReference → Bool) (cname : String)
    (refs : List OwnerReference) (r : Registry) (ref : OwnerReference)
    (hmem : ref ∈ refs) (hc : ref.isController = true) (hn : ref.Name ≠ cname) :
    dominated (refs.foldl (collapseStep del cname) r) ref := by
  induction refs generalizing r with
  | nil => cases hmem
  | cons a rest ih =>
    rw [List.foldl_cons]
    rcases List.mem_cons.1 hmem with rfl | hm
    · exact dominated_foldl del cname rest _ ref
        (dominated_collapseStep_self del cname r ref hc hn) hn
    · exact ih _ hm

theorem get_collapseStep_noop (del : OwnerReference → Bool) (cname : String)
    (c : Registry) (ref : OwnerReference)
    (h : ref.isController = true → del ref = false ∧ dominated c ref) (k : String) :
    (collapseStep del cname c ref).get k = c.get k := by
  rw [get_collapseStep]
  by_cases hc : ref.isController = true
  · obtain ⟨hd, e, he, hw⟩ := h hc
    by_cases hk : k = ref.Name
    · subst hk
      simp [hc, hd, he, mergeKind, controllerPriority_of_le hw]
    · simp [hc, hd, hk]
  · simp [hc]

theorem get_foldl_collapseStep_noop (del : OwnerReference → Bool) (cname : String)
    (refs : List OwnerReference) (r : Registry)
    (h : ∀ ref ∈ refs, ref.isController = true → del ref = false ∧ dominated r ref)
    (k : String) : (refs.foldl (collapseStep del cname) r).get k = r.get k := by
  induction refs generalizing r with
  | nil => rfl
  | cons a rest ih =>
    have hstep : ∀ k, (collapseStep del cname r a).get k = r.get k :=
      get_collapseStep_noop del cname r a (h a (List.mem_cons_self _ _))
    rw [List.foldl_cons, ih, hstep]
    intro ref hm hc
    obtain ⟨hd, hdom⟩ := h ref (List.mem_cons_of_mem _ hm) hc
    exact ⟨hd, dominated_congr hstep hdom⟩

/-! ## A turn of the collapse pass under two-level ownership -/

theorem ownersOf_mem {cs : Collections} {m kind : String} {ref : OwnerReference}
    (h : ref ∈ ownersOf cs m kind) :
    ∃ x ∈ children cs, x.Name = m ∧ ref ∈ x.OwnerReferences := by
  unfold ownersOf at h
  unfold children
  split_ifs at h
  · cases hf : findByName cs.repset m with
    | none => simp [hf] at h
    | some x =>
      rw [hf] at h
      exact ⟨x, by simp [findByName_mem hf], findByName_name hf, h⟩
  · cases hf : findByName cs.repcon m with
    | none => simp [hf] at h
    | some x =>
      rw [hf] at h
      exact ⟨x, by simp [findByName_mem hf], findByName_name hf, h⟩
  · cases hf : findByName cs.jbs m with
    | none => simp [hf] at h
    | some x =>
      rw [hf] at h
      exact ⟨x, by simp [findByName_mem hf], findByName_name hf, h⟩
  · cases h

theorem ownersOf_eq_nil {cs : Collections} {m : String} (h : ¬ isChildName cs m)
    (kind : String) : ownersOf cs m kind = [] := by
  cases ho : ownersOf cs m kind with
  | nil => rfl
  | cons a l =>
    exfalso
    have ha : a ∈ ownersOf cs m kind := by rw [ho]; exact List.mem_cons_self _ _
    obtain ⟨x, hx, hn, _⟩ := ownersOf_mem ha
    exact h ⟨x, hx, hn⟩

theorem owner_not_child {cs : Collections} (hflat : flatOwnership cs) {m kind : String}
    {ref : OwnerReference} (h : ref ∈ ownersOf cs m kind) (hc : ref.isController = true) :
    ¬ isChildName cs ref.Name := by
  obtain ⟨x, hx, _, hr⟩ := ownersOf_mem h
  rintro ⟨y, hy, hyn⟩
  exact hflat x hx ref hr hc y hy hyn

theorem owner_ne_self {cs : Collections} (hflat : flatOwnership cs) {m kind : String}
    {ref : OwnerReference} (h : ref ∈ ownersOf cs m kind) (hc : ref.isController = true) :
    ref.Name ≠ m := by
  obtain ⟨x, hx, hn, hr⟩ := ownersOf_mem h
  intro he
  exact hflat x hx ref hr hc x hx (by rw [hn, he])

theorem collapseVisit_none {cs : Collections} {r : Registry} {m : String}
    (h : r.get m = none) : collapseVisit cs r m = r := by
  unfold collapseVisit
  rw [h]

theorem collapseVisit_some {cs : Collections} {r : Registry} {m kind : String}
    (h : r.get m = some kind) :
    collapseVisit cs r m
      = (ownersOf cs m kind).foldl (collapseStep (deletes cs kind) m) r := by
  unfold collapseVisit
  rw [h]
  exact collapseEntry_eq cs m kind r

theorem collapsible_iff_any (cs : Collections) (m kind : String) :
    collapsible cs m kind
      ↔ (ownersOf cs m kind).any (fun ref => ref.isController && deletes cs kind ref) = true := by
  unfold collapsible
  simp [List.any_eq_true]

theorem get_collapseVisit_child {cs : Collections} (hflat : flatOwnership cs)
    (r : Registry) {m n : String} (hn : isChildName cs n) (hne : n ≠ m) :
    (collapseVisit cs r m).get n = r.get n := by
  cases hg : r.get m with
  | none => rw [collapseVisit_none hg]
  | some kind =>
    rw [collapseVisit_some hg]
    refine get_foldl_collapseStep_frame _ _ _ _ _ hne ?_
    intro ref href hc he
    exact owner_not_child hflat href hc (he ▸ hn)

theorem get_collapseVisit_self {cs : Collections} (hflat : flatOwnership cs)
    {r : Registry} {m kind : String} (hg : r.get m = some kind) :
    (collapseVisit cs r m).get m
      = if (ownersOf cs m kind).any (fun ref => ref.isController && deletes cs kind ref) = true
        then none else some kind := by
  rw [collapseVisit_some hg, get_foldl_collapseStep_self, hg]
  intro ref href hc
  exact owner_ne_self hflat href hc

theorem dominated_collapseVisit {cs : Collections} (r : Registry) (m : String)
    {ref0 : OwnerReference} (h0 : dominated r ref0) (hn : ¬ isChildName cs ref0.Name) :
    dominated (collapseVisit cs r m) ref0 := by
  cases hg : r.get m with
  | none => rw [collapseVisit_none hg]; exact h0
  | some kind =>
    rw [collapseVisit_some hg]
    by_cases hm : ref0.Name = m
    · rw [ownersOf_eq_nil (hm ▸ hn)]
      exact h0
    · exact dominated_foldl _ _ _ _ _ h0 hm

theorem dominated_collapseVisit_own {cs : Collections} (hflat : flatOwnership cs)
    {r : Registry} {m kind : String} (hg : r.get m = some kind) {ref : OwnerReference}
    (href : ref ∈ ownersOf cs m kind) (hc : ref.isController = true) :
    dominated (collapseVisit cs r m) ref := by
  rw [collapseVisit_some hg]
  exact dominated_foldl_mem _ _ _ _ _ href hc (owner_ne_self hflat href hc)

theorem get_collapseVisit_noop {cs : Collections} {r : Registry} {m : String}
    (h : ∀ kind, r.get m = some kind → settled cs r m kind) (k : String) :
    (collapseVisit cs r m).get k = r.get k := by
  cases hg : r.get m with
  | none => rw [collapseVisit_none hg]
  | some kind =>
    rw [collapseVisit_some hg]
    obtain ⟨hnc, hdom⟩ := h kind hg
    refine get_foldl_collapseStep_noop _ _ _ _ ?_ k
    intro ref href hc
    refine ⟨?_, hdom ref href hc⟩
    cases hd : deletes cs kind ref with
    | false => rfl
    | true => exact absurd ⟨ref, href, hc, hd⟩ hnc

theorem settled_congr {cs : Collections} {r r' : Registry}
    (h : ∀ k, r'.get k = r.get k) {n kind : String} (hs : settled cs r n kind) :
    settled cs r' n kind :=
  ⟨hs.1, fun ref href hc => dominated_congr h (hs.2 ref href hc)⟩

theorem stable_congr {cs : Collections} {r r' : Registry}
    (h : ∀ k, r'.get k = r.get k) (hs : stable cs r) : stable cs r' := by
  intro n kind hg
  rw [h] at hg
  exact settled_congr h (hs n kind hg)

/-! ## The collapse pass under two-level ownership -/

theorem passInvariant_mono {cs : Collections} {r0 r : Registry}
    {visited visited' : String → Prop} (hv : ∀ n, visited' n → visited n)
    (h : passInvariant cs r0 visited r) : passInvariant cs r0 visited' r := by
  intro n hn
  rcases h n hn with h1 | ⟨h1, h2⟩
  · exact Or.inl h1
  · exact Or.inr ⟨h1, fun hv' => h2 (hv n hv')⟩

theorem passInvariant_visit {cs : Collections} (hflat : flatOwnership cs)
    {r0 r : Registry} {visited : String → Prop} (m : String)
    (h : passInvariant cs r0 visited r) :
    passInvariant cs r0 (fun n => visited n ∨ n = m) (collapseVisit cs r m) := by
  intro n hn
  by_cases hne : n = m
  · subst hne
    cases hg : r.get n with
    | none =>
      left
      rw [collapseVisit_none hg]; exact hg
    | some kind =>
      have hself := get_collapseVisit_self hflat hg
      by_cases hany : (ownersOf cs n kind).any
          (fun ref => ref.isController && deletes cs kind ref) = true
      · left
        rw [hself, if_pos hany]
      · right
        rw [if_neg hany] at hself
        rcases h n hn with h1 | ⟨h1, _⟩
        · rw [hg] at h1; cases h1
        · refine ⟨by rw [hself, ← h1, hg], ?_⟩
          intro _ kind' hk'
          rw [hself] at hk'
          cases hk'
          refine ⟨fun hc => hany ((collapsible_iff_any cs n kind).1 hc), ?_⟩
          intro ref href hc
          exact dominated_collapseVisit_own hflat hg href hc
  · have hsame := get_collapseVisit_child hflat r hn hne
    rcases h n hn with h1 | ⟨h1, h2⟩
    · left; rw [hsame, h1]
    · right
      refine ⟨by rw [hsame, h1], ?_⟩
      intro hv kind hk
      rw [hsame] at hk
      have hvis : visited n := by
        rcases hv with hv | hv
        · exact hv
        · exact absurd hv hne
      obtain ⟨hnc, hdom⟩ := h2 hvis kind hk
      refine ⟨hnc, ?_⟩
      intro ref href hc
      exact dominated_collapseVisit r m (hdom ref href hc) (owner_not_child hflat href hc)

theorem passInvariant_collapsePass {cs : Collections} (hflat : flatOwnership cs)
    {r0 : Registry} (order : List String) (r : Registry) (visited : String → Prop)
    (h : passInvariant cs r0 visited r) :
    passInvariant cs r0 (fun n => visited n ∨ n ∈ order) (collapsePass cs order r) := by
  induction order generalizing r visited with
  | nil =>
    exact passInvariant_mono (fun n hv => by simpa using hv) h
  | cons m rest ih =>
    have h1 := ih (collapseVisit cs r m) _ (passInvariant_visit hflat m h)
    refine passInvariant_mono ?_ h1
    intro n hv
    rcases hv with hv | hv
    · exact Or.inl (Or.inl hv)
    · rcases List.mem_cons.1 hv with hv | hv
      · exact Or.inl (Or.inr hv)
      · exact Or.inr hv

theorem stable_collapsePass {cs : Collections} (hflat : flatOwnership cs)
    {order : List String} {r0 : Registry} (hcov : coversKeys order r0) :
    stable cs (collapsePass cs order r0) := by
  have hinv := passInvariant_collapsePass hflat order r0 (fun _ => False)
    (fun n _ => Or.inr ⟨rfl, fun hf => hf.elim⟩)
  intro n kind hg
  by_cases hcn : isChildName cs n
  · rcases hinv n hcn with h1 | ⟨h1, h2⟩
    · rw [hg] at h1; cases h1
    · have hkey : n ∈ r0.keys := by
        rw [Registry.mem_keys_iff]
        exact ⟨kind, by rw [← h1, hg]⟩
      exact h2 (Or.inr (hcov n hkey)) kind hg
  · refine ⟨?_, ?_⟩
    · rintro ⟨ref, href, _⟩
      rw [ownersOf_eq_nil hcn] at href
      cases href
    · intro ref href
      rw [ownersOf_eq_nil hcn] at href
      cases href

theorem get_collapsePass_of_stable {cs : Collections} (order : List String)
    (r : Registry) (hs : stable cs r) (k : String) :
    (collapsePass cs order r).get k = r.get k := by
  induction order generalizing r with
  | nil => rfl
  | cons m rest ih =>
    have hstep : ∀ k, (collapseVisit cs r m).get k = r.get k :=
      get_collapseVisit_noop (fun kind hg => hs m kind hg)
    show (collapsePass cs rest (collapseVisit cs r m)).get k = r.get k
    rw [ih _ (stable_congr hstep hs), hstep]

/-- C7, counterexample: in `nestedSets` the turns "b" then "a" of the collapse
loop cover the seeded keys and leave the entry of the ReplicaSet "b"; a second
run of the loop on that registry removes it, so the second run does not
return the registry of the first. -/
theorem collapsePass_not_idempotent :
    coversKeys ["b", "a"] (seedPass nestedSets.pods)
    ∧ (collapsePass nestedSets.collections ["b", "a"]
        (seedPass nestedSets.pods)).get "b" = some "ReplicaSet"
    ∧ (collapsePass nestedSets.collections ["b"]
        (collapsePass nestedSets.collections ["b", "a"]
          (seedPass nestedSets.pods))).get "b" = none := by
  refine ⟨?_, ?_, ?_⟩
  · unfold coversKeys; decide
  · decide
  · decide

/-- C7, amended: when no controller reference of a fetched ReplicaSet,
ReplicationController or Job carries the name of a fetched ReplicaSet,
ReplicationController or Job, the collapse pass is idempotent: for every
registry `r0` (that of the seeding pass included), every first run whose turns
cover the keys of `r0` and every second run, the second run returns the same
map as the first. -/
theorem collapsePass_idempotent (cs : Collections) (hflat : flatOwnership cs)
    (r0 : Registry) (order1 order2 : List String) (hcov : coversKeys order1 r0)
    (k : String) :
    (collapsePass cs order2 (collapsePass cs order1 r0)).get k
      = (collapsePass cs order1 r0).get k :=
  get_collapsePass_of_stable order2 _ (stable_collapsePass hflat hcov) k

theorem collapsePass_idempotent_witness :
    flatOwnership twoLevel.collections
    ∧ coversKeys ["etl-1", "web-1"] (seedPass twoLevel.pods)
    ∧ (collapsePass twoLevel.collections ["web", "etl", "etl-1"]
        (collapsePass twoLevel.collections ["etl-1", "web-1"]
          (seedPass twoLevel.pods))).get "etl"
      = (collapsePass twoLevel.collections ["etl-1", "web-1"]
          (seedPass twoLevel.pods)).get "etl" :=
  have hflat : flatOwnership twoLevel.collections := by unfold flatOwnership; decide
  have hcov : coversKeys ["etl-1", "web-1"] (seedPass twoLevel.pods) := by
    unfold coversKeys; decide
  ⟨hflat, hcov,
    collapsePass_idempotent twoLevel.collections hflat (seedPass twoLevel.pods)
      ["etl-1", "web-1"] ["web", "etl", "etl-1"] hcov "etl"⟩

/-! ## No child with a live parent is left -/

theorem findByName_of_nodup {xs : List Controller} (hnd : (xs.map Controller.Name).Nodup)
    {x : Controller} (hx : x ∈ xs) : findByName xs x.Name = some x := by
  induction xs with
  | nil => cases hx
  | cons y rest ih =>
    rw [List.map_cons, List.nodup_cons] at hnd
    unfold findByName
    rw [List.find?_cons]
    by_cases hy : y.Name = x.Name
    · rcases List.mem_cons.1 hx with rfl | hm
      · simp
      · exact absurd (hy ▸ List.mem_map_of_mem Controller.Name hm) hnd.1
    · rcases List.mem_cons.1 hx with rfl | hm
      · exact absurd rfl hy
      · simp only [hy, decide_False]
        exact ih hnd.2 hm

theorem collapsible_of_hasLiveParent {cs : Collections} (hdist : distinctNames cs)
    {n kind : String} (h : hasLiveParent cs n kind) : collapsible cs n kind := by
  rcases h with ⟨rfl, x, hx, rfl, ref, href, hc⟩ | ⟨rfl, x, hx, rfl, ref, href, hc⟩
      | ⟨rfl, x, hx, rfl, ref, href, hc, hcj⟩
  · refine ⟨ref, ?_, hc, by simp [deletes]⟩
    simp [ownersOf, findByName_of_nodup hdist.1 hx, href]
  · refine ⟨ref, ?_, hc, by simp [deletes]⟩
    simp [ownersOf, findByName_of_nodup hdist.2.1 hx, href]
  · refine ⟨ref, ?_, hc, by simp [deletes, hcj]⟩
    simp [ownersOf, findByName_of_nodup hdist.2.2 hx, href]

theorem recoverAny_get_cases {kind : String} {selector : Selector} {r : Registry}
    {x : Controller} {n k : String} (h : (recoverAny kind selector r x).get n = some k) :
    r.get n = some k ∨ k = kind := by
  unfold recoverAny at h
  split at h
  · rw [Registry.get_set] at h
    split at h
    · right; cases h; rfl
    · left; exact h
  · left; exact h

theorem recoverOwnerless_get_cases {kind : String} {selector : Selector} {r : Registry}
    {x : Controller} {n k : String}
    (h : (recoverOwnerless kind selector r x).get n = some k) :
    r.get n = some k ∨ (k = kind ∧ x.Name = n ∧ x.OwnerReferences = []) := by
  unfold recoverOwnerless at h
  split at h
  · rename_i hc
    rw [Registry.get_set] at h
    split at h
    · rename_i hn
      right
      cases h
      simp only [Bool.and_eq_true, decide_eq_true_eq] at hc
      exact ⟨rfl, hn.symm, List.length_eq_zero.1 hc.1.2⟩
    · left; exact h
  · left; exact h

theorem foldl_recoverAny_cases {kind : String} {selector : Selector}
    (xs : List Controller) (r : Registry) {n k : String}
    (h : (xs.foldl (recoverAny kind selector) r).get n = some k) :
    r.get n = some k ∨ k = kind := by
  induction xs generalizing r with
  | nil => exact Or.inl h
  | cons x rest ih =>
    rcases ih _ h with h1 | h1
    · exact recoverAny_get_cases h1
    · exact Or.inr h1

theorem foldl_recoverOwnerless_cases {kind : String} {selector : Selector}
    (xs : List Controller) (r : Registry) {n k : String}
    (h : (xs.foldl (recoverOwnerless kind selector) r).get n = some k) :
    r.get n = some k ∨ (k = kind ∧ ∃ x ∈ xs, x.Name = n ∧ x.OwnerReferences = []) := by
  induction xs generalizing r with
  | nil => exact Or.inl h
  | cons x rest ih =>
    rcases ih _ h with h1 | ⟨hk, y, hy, hyn⟩
    · rcases recoverOwnerless_get_cases h1 with h2 | ⟨hk, hn, ho⟩
      · exact Or.inl h2
      · exact Or.inr ⟨hk, x, List.mem_cons_self _ _, hn, ho⟩
    · exact Or.inr ⟨hk, y, List.mem_cons_of_mem _ hy, hyn⟩

theorem recoveryPass_get_cases {selector : Selector} {f : Fetched} {r : Registry}
    {n k : String} (h : (recoveryPass selector f r).get n = some k) :
    r.get n = some k
    ∨ k = "Deployment" ∨ k = "DeploymentConfig" ∨ k = "StatefulSet"
    ∨ (k = "ReplicaSet" ∧ ∃ x ∈ f.repset, x.Name = n ∧ x.OwnerReferences = [])
    ∨ (k = "ReplicationController" ∧ ∃ x ∈ f.repcon, x.Name = n ∧ x.OwnerReferences = []) := by
  unfold recoveryPass at h
  rcases foldl_recoverAny_cases _ _ h with h5 | h5
  · rcases foldl_recoverOwnerless_cases _ _ h5 with h4 | h4
    · rcases foldl_recoverAny_cases _ _ h4 with h3 | h3
      · rcases foldl_recoverOwnerless_cases _ _ h3 with h2 | h2
        · rcases foldl_recoverAny_cases _ _ h2 with h1 | h1
          · exact Or.inl h1
          · exact Or.inr (Or.inl h1)
        · exact Or.inr (Or.inr (Or.inr (Or.inr (Or.inl h2))))
      · exact Or.inr (Or.inr (Or.inl h3))
    · exact Or.inr (Or.inr (Or.inr (Or.inr (Or.inr h4))))
  · exact Or.inr (Or.inr (Or.inr (Or.inl h5)))

theorem eq_of_name_eq {xs : List Controller} (hnd : (xs.map Controller.Name).Nodup)
    {x y : Controller} (hx : x ∈ xs) (hy : y ∈ xs) (h : x.Name = y.Name) : x = y := by
  have h1 := findByName_of_nodup hnd hx
  have h2 := findByName_of_nodup hnd hy
  rw [h, h2] at h1
  cases h1
  rfl

/-- C6, counterexample: in `nestedSets` the turns "b" then "a" cover the seeded
keys; the turn of "b" finds the kind "Pod" and does nothing, the turn of "a"
records its owner "b" as a ReplicaSet. After the three passes the registry
holds the entry ("b", "ReplicaSet") although the ReplicaSet "b" was fetched
and has a controller reference. -/
theorem resolve_leaves_child :
    coversKeys ["b", "a"] (seedPass nestedSets.pods)
    ∧ (resolve none ["b", "a"] nestedSets).get "b" = some "ReplicaSet"
    ∧ hasLiveParent nestedSets.collections "b" "ReplicaSet" := by
  refine ⟨?_, ?_, ?_⟩
  · unfold coversKeys; decide
  · decide
  · unfold hasLiveParent; decide

/-- C6, amended: when no controller reference of a fetched ReplicaSet,
ReplicationController or Job carries the name of a fetched ReplicaSet,
ReplicationController or Job, and the names within each of these three
collections are distinct, then after the seeding, collapse and recovery
passes, for every run of the collapse loop whose turns cover the seeded keys,
the registry holds no entry `(n, kind)` with `kind` ReplicaSet,
ReplicationController or Job whose object was fetched and has a controller
reference (naming a fetched CronJob, for a Job). -/
theorem resolve_no_live_parent (selector : Selector) (order : List String) (f : Fetched)
    (hflat : flatOwnership f.collections) (hdist : distinctNames f.collections)
    (hcov : coversKeys order (seedPass f.pods)) (n kind : String)
    (hget : (resolve selector order f).get n = some kind) :
    ¬ hasLiveParent f.collections n kind := by
  intro hlive
  have hst := stable_collapsePass hflat hcov
  unfold resolve at hget
  rcases recoveryPass_get_cases hget with h | h | h | h | ⟨hk, x, hx, hn, ho⟩
      | ⟨hk, x, hx, hn, ho⟩
  · exact (hst n kind h).1 (collapsible_of_hasLiveParent hdist hlive)
  · subst h
    rcases hlive with ⟨hk, _⟩ | ⟨hk, _⟩ | ⟨hk, _⟩ <;> exact absurd hk (by decide)
  · subst h
    rcases hlive with ⟨hk, _⟩ | ⟨hk, _⟩ | ⟨hk, _⟩ <;> exact absurd hk (by decide)
  · subst h
    rcases hlive with ⟨hk, _⟩ | ⟨hk, _⟩ | ⟨hk, _⟩ <;> exact absurd hk (by decide)
  · subst hk
    rcases hlive with ⟨_, y, hy, hyn, ref, href, _⟩ | ⟨hk, _⟩ | ⟨hk, _⟩
    · have hxy : x = y := eq_of_name_eq hdist.1 hx hy (by rw [hn, hyn])
      subst hxy
      rw [ho] at href
      cases href
    · exact absurd hk (by decide)
    · exact absurd hk (by decide)
  · subst hk
    rcases hlive with ⟨hk, _⟩ | ⟨_, y, hy, hyn, ref, href, _⟩ | ⟨hk, _⟩
    · exact absurd hk (by decide)
    · have hxy : x = y := eq_of_name_eq hdist.2.1 hx hy (by rw [hn, hyn])
      subst hxy
      rw [ho] at href
      cases href
    · exact absurd hk (by decide)

theorem resolve_no_live_parent_witness :
    (resolve none ["etl-1", "web-1"] twoLevel).get "etl-1" = some "Job"
    ∧ ¬ hasLiveParent twoLevel.collections "etl-1" "Job" :=
  ⟨by decide,
    resolve_no_live_parent none ["etl-1", "web-1"] twoLevel
      (by unfold flatOwnership; decide) (by unfold distinctNames; decide)
      (by unfold coversKeys; decide) "etl-1" "Job" (by decide)⟩

/-! ## The turn of a Job -/

theorem foldl_collapseStep_filter (del : OwnerReference → Bool) (cname : String)
    (refs : List OwnerReference) (r : Registry) :
    refs.foldl (collapseStep del cname) r
      = (refs.filter OwnerReference.isController).foldl (collapseStep del cname) r := by
  induction refs generalizing r with
  | nil => rfl
  | cons a rest ih =>
    by_cases hc : a.isController = true
    · rw [List.filter_cons_of_pos hc, List.foldl_cons, List.foldl_cons, ih]
    · rw [List.filter_cons_of_neg hc, List.foldl_cons, ih]
      simp [collapseStep, hc]

theorem collapseVisit_only_owner {cs : Collections} {r : Registry} {n : String}
    {jb : Controller} {R : OwnerReference} (hg : r.get n = some "Job")
    (hfound : findByName cs.jbs n = some jb)
    (honly : jb.OwnerReferences.filter OwnerReference.isController = [R]) :
    collapseVisit cs r n = collapseStep (deletes cs "Job") n r R := by
  rw [collapseVisit_some hg, foldl_collapseStep_filter]
  have : ownersOf cs n "Job" = jb.OwnerReferences := by
    simp [ownersOf, hfound]
  rw [this, honly]
  rfl

theorem only_owner_isController {jb : Controller} {R : OwnerReference}
    (honly : jb.OwnerReferences.filter OwnerReference.isController = [R]) :
    R.isController = true := by
  have : R ∈ jb.OwnerReferences.filter OwnerReference.isController := by
    rw [honly]; exact List.mem_singleton_self R
  exact (List.mem_filter.1 this).2

theorem get_collapseVisit_unclaimed {cs : Collections} (r : Registry) {m n : String}
    (hun : ∀ x ∈ children cs, ∀ ref ∈ x.OwnerReferences,
      ref.isController = true → ref.Name ≠ n) (hne : n ≠ m) :
    (collapseVisit cs r m).get n = r.get n := by
  cases hg : r.get m with
  | none => rw [collapseVisit_none hg]
  | some kind =>
    rw [collapseVisit_some hg]
    refine get_foldl_collapseStep_frame _ _ _ _ _ hne ?_
    intro ref href hc
    obtain ⟨x, hx, _, hr⟩ := ownersOf_mem href
    exact hun x hx ref hr hc

theorem dangling_job_visit {cs : Collections} {r : Registry} {n : String}
    {jb : Controller} {R : OwnerReference} (hg : r.get n = some "Job")
    (hfound : findByName cs.jbs n = some jb)
    (honly : jb.OwnerReferences.filter OwnerReference.isController = [R])
    (hgone : cronJobExists cs.conjbs R.Name = false) (hne : R.Name ≠ n) :
    (collapseVisit cs r n).get n = some "Job" := by
  have hn : ¬ n = R.Name := fun h => hne h.symm
  rw [collapseVisit_only_owner hg hfound honly, get_collapseStep]
  simp [only_owner_isController honly, deletes, hgone, hn, hg]

theorem dangling_job_pass {cs : Collections} {n : String} {jb : Controller}
    {R : OwnerReference} (hfound : findByName cs.jbs n = some jb)
    (honly : jb.OwnerReferences.filter OwnerReference.isController = [R])
    (hgone : cronJobExists cs.conjbs R.Name = false)
    (hun : ∀ x ∈ children cs, ∀ ref ∈ x.OwnerReferences,
      ref.isController = true → ref.Name ≠ n)
    (order : List String) (r : Registry) (hg : r.get n = some "Job") :
    (collapsePass cs order r).get n = some "Job" := by
  have hR : R.Name ≠ n := by
    have hmem : R ∈ jb.OwnerReferences.filter OwnerReference.isController := by
      rw [honly]; exact List.mem_singleton_self R
    exact hun jb (by simp [children, findByName_mem hfound]) R (List.mem_filter.1 hmem).1
      (List.mem_filter.1 hmem).2
  refine foldl_preserves (fun c : Registry => c.get n = some "Job") _ ?_ order r hg
  intro b m hb
  by_cases hm : n = m
  · subst hm
    exact dangling_job_visit hb hfound honly hgone hR
  · rw [get_collapseVisit_unclaimed b hun hm]
    exact hb

/-- C5, counterexample. First, in `twoOwners` the Job "j" carries the
controller reference to "c1", no CronJob "c1" was fetched, and the turn of
the entry ("j", "Job") still removes it, because of the second controller
reference. Second, in `sharedName` the seeding pass records ("etl", "Job"),
the Job "etl" was fetched with its only controller reference to the CronJob
"nightly" that was not fetched, and yet for both orders of the turns
`fetchWorkloads` returns only the Deployment "etl": the controller reference
of the ReplicaSet "etl-5d" turns the entry into a Deployment, and the Job is
not returned as a workload. -/
theorem job_entry_not_kept :
    (findByName twoOwners.jbs "j").map Controller.OwnerReferences
        = some [controlledBy "c1" "CronJob", controlledBy "c2" "CronJob"]
    ∧ cronJobExists twoOwners.conjbs "c1" = false
    ∧ (collapseVisit twoOwners [("j", "Job")] "j").get "j" = none
    ∧ (seedPass (fetchAll sharedName none "").1.pods).get "etl" = some "Job"
    ∧ (findByName (fetchAll sharedName none "").1.jbs "etl").map Controller.OwnerReferences
        = some [controlledBy "nightly" "CronJob"]
    ∧ cronJobExists (fetchAll sharedName none "").1.conjbs "nightly" = false
    ∧ (fetchWorkloads (fun _ => none) sharedName none
          { order := ["etl", "etl-5d"], first := 0 } "").1.map
            (fun w => (w.Name, w.Kind)) = [("etl", "Deployment")]
    ∧ (fetchWorkloads (fun _ => none) sharedName none
          { order := ["etl-5d", "etl"], first := 0 } "").1.map
            (fun w => (w.Name, w.Kind)) = [("etl", "Deployment")] := by
  refine ⟨?_, ?_, ?_, ?_, ?_, ?_, ?_, ?_⟩ <;> decide

/-- C5, amended: for a registry entry of kind Job whose Job object is fetched
and has `R` as its only controller reference, the turn of the entry in the
collapse loop removes it if and only if a CronJob named `R.Name` was fetched,
and leaves it with the kind Job when none was fetched and `R` does not carry
the name of the Job itself. When no such CronJob was fetched, the seeding pass
recorded the Job under its name, and no controller reference of a fetched
ReplicaSet, ReplicationController or Job carries the name of the Job, then
for every run `fetchWorkloads` returns a workload of kind Job with that
name. -/
theorem job_entry_collapse (parse : String → Selector) (cl : Cluster)
    (excludedWorkloads : Option (List (String × Bool))) (labelSelector : String)
    (f : Fetched) (hns : cl.namespaceError = none)
    (hf : fetchAll cl excludedWorkloads labelSelector = (f, []))
    (n : String) (jb : Controller) (R : OwnerReference)
    (hfound : findByName f.jbs n = some jb)
    (honly : jb.OwnerReferences.filter OwnerReference.isController = [R]) :
    (∀ r : Registry, r.get n = some "Job" →
      ((collapseVisit f.collections r n).get n = none
          ↔ cronJobExists f.conjbs R.Name = true)
      ∧ (cronJobExists f.conjbs R.Name = false → R.Name ≠ n →
          (collapseVisit f.collections r n).get n = some "Job"))
    ∧ (cronJobExists f.conjbs R.Name = false →
        (seedPass f.pods).get n = some "Job" →
        (∀ x ∈ children f.collections, ∀ ref ∈ x.OwnerReferences,
          ref.isController = true → ref.Name ≠ n) →
        ∀ run : Run,
          ∃ w ∈ (fetchWorkloads parse cl excludedWorkloads run labelSelector).1,
            w.Name = n ∧ w.Kind = "Job") := by
  have hfound' : findByName f.collections.jbs n = some jb := hfound
  refine ⟨?_, ?_⟩
  · intro r hg
    refine ⟨?_, fun hgone hne => dangling_job_visit hg hfound' honly hgone hne⟩
    rw [collapseVisit_only_owner hg hfound' honly, get_collapseStep]
    have hc := only_owner_isController honly
    by_cases hex : cronJobExists f.conjbs R.Name = true
    · have hd : deletes f.collections "Job" R = true := by
        simp only [deletes, if_true]; exact hex
      simp [hc, hd, hex]
    · have hd : deletes f.collections "Job" R = false := by
        simp only [deletes, if_true]; simpa using hex
      by_cases hk : n = R.Name
      · cases hr : r.get R.Name <;> simp [hc, hd, hex, hk, mergeKind, hr]
      · simp [hc, hd, hex, hk, hg]
  · intro hgone hseed hun run
    have h1 : fetchWorkloads parse cl excludedWorkloads run labelSelector
        = (buildWorkloads f (resolve (recoverySelector parse labelSelector) run.order f),
            none) := by
      have := fetchWorkloads_of_success parse cl excludedWorkloads run labelSelector hns
        (by rw [hf])
      rw [hf] at this
      exact this
    rw [h1]
    have hreg : (resolve (recoverySelector parse labelSelector) run.order f).get n
        = some "Job" :=
      recoveryPass_get_mono _ _ _
        (dangling_job_pass hfound' honly hgone hun run.order _ hseed)
    have hb : buildWorkload f n "Job"
        = some { Name := jb.Name, Kind := "Job",
                 Pods := FilterPodsForSelector jb.TemplateLabels f.pods } := by
      simp [buildWorkload, buildFromCollection, hfound, parsedWorkload]
    have hname := findByName_name hfound
    refine ⟨{ Name := jb.Name, Kind := "Job",
              Pods := FilterPodsForSelector jb.TemplateLabels f.pods },
      (mem_buildWorkloads _ _ _).2 ⟨"Job", ?_, ?_⟩, hname, rfl⟩
    · show (resolve _ _ f).get jb.Name = some "Job"
      rw [hname]; exact hreg
    · show buildWorkload f jb.Name "Job" = _
      rw [hname] at hb ⊢
      exact hb

theorem job_entry_collapse_witness :
    ∃ w ∈ (fetchWorkloads (fun _ => none) twoLevelCluster none
        { order := ["etl-1", "web-1"], first := 0 } "").1,
      w.Name = "etl-1" ∧ w.Kind = "Job" :=
  (job_entry_collapse (fun _ => none) twoLevelCluster none "" twoLevel rfl rfl
    "etl-1"
    { Name := "etl-1", OwnerReferences := [controlledBy "etl" "CronJob"],
      TemplateLabels := [("job", "etl-1")] }
    (controlledBy "etl" "CronJob") (by decide) (by decide)).2
    (by decide) (by decide) (by decide) { order := ["etl-1", "web-1"], first := 0 }

/-! ## Errors of the fetches -/

/-- C11, the failing input evaluated: in `statefulTimeout` the read of the
StatefulSet "web" answers a timeout, which is not a not-found error; the call
does not fail with it but returns the not-found error of a missing workload.
In `deploymentTimeout` the same answer to the read of the Deployment fails the
call with that error. -/
theorem fetchWorkload_swallows_error :
    timeoutAnswer.notFound = false
    ∧ fetchWorkload statefulTimeout none { order := [], first := 0 } "web" ""
      = Outcome.returned (some emptyWorkload) (some (NewNotFound "web" "Kiali" "Workload"))
    ∧ (fetchOne statefulTimeout none "web" "").2 = []
    ∧ fetchWorkload deploymentTimeout none { order := [], first := 0 } "web" ""
      = Outcome.returned (some emptyWorkload) (some timeoutAnswer) :=
  ⟨rfl, rfl, rfl, rfl⟩

theorem mem_listTask_errors {α : Type} (issued : Bool) (answer : Except Err (List α))
    (e : Err) : e ∈ (listTask issued answer).2 ↔ issued = true ∧ answer = .error e := by
  unfold listTask
  cases issued with
  | false => simp
  | true =>
    cases answer with
    | ok xs => simp
    | error err =>
      simp only [if_true, List.mem_singleton, true_and]
      constructor
      · intro h; rw [h]
      · intro h; cases h; rfl

theorem mem_fetchAll_errors (cl : Cluster)
    (excludedWorkloads : Option (List (String × Bool))) (labelSelector : String) (e : Err) :
    e ∈ (fetchAll cl excludedWorkloads labelSelector).2
      ↔ issuedFetchError cl excludedWorkloads labelSelector e := by
  unfold fetchAll issuedFetchError
  simp only [List.mem_append, mem_listTask_errors, true_and, Bool.and_eq_true]
  tauto

theorem receiveFirst_mem (run : Run) {errs : List Err} (h : errs ≠ []) :
    ∃ e ∈ errs, receiveFirst run errs = some e := by
  unfold receiveFirst
  have hpos : 0 < errs.length := List.length_pos.2 h
  have hlt : run.first % errs.length < errs.length := Nat.mod_lt _ hpos
  exact ⟨errs.get ⟨_, hlt⟩, List.get_mem _ _ _, List.get?_eq_get hlt⟩

/-- C12: `fetchWorkloads` returns an error if and only if the access check
fails or one of the fetches it issues answers an error; when the access check
passes and a fetch fails, the returned list is empty and the returned error is
the answer of one of the issued fetches; when the access check fails, its
error is returned with an empty list. -/
theorem fetchWorkloads_error_iff (parse : String → Selector) (cl : Cluster)
    (excludedWorkloads : Option (List (String × Bool))) (run : Run)
    (labelSelector : String) :
    ((fetchWorkloads parse cl excludedWorkloads run labelSelector).2 ≠ none
      ↔ (cl.namespaceError ≠ none
          ∨ ∃ e, issuedFetchError cl excludedWorkloads labelSelector e))
    ∧ (cl.namespaceError = none →
        (∃ e, issuedFetchError cl excludedWorkloads labelSelector e) →
        (fetchWorkloads parse cl excludedWorkloads run labelSelector).1 = []
        ∧ ∃ e, issuedFetchError cl excludedWorkloads labelSelector e
            ∧ (fetchWorkloads parse cl excludedWorkloads run labelSelector).2 = some e)
    ∧ (∀ e, cl.namespaceError = some e →
        fetchWorkloads parse cl excludedWorkloads run labelSelector = ([], some e)) := by
  have hfail : cl.namespaceError = none →
      (∃ e, issuedFetchError cl excludedWorkloads labelSelector e) →
      (fetchWorkloads parse cl excludedWorkloads run labelSelector).1 = []
      ∧ ∃ e, issuedFetchError cl excludedWorkloads labelSelector e
          ∧ (fetchWorkloads parse cl excludedWorkloads run labelSelector).2 = some e := by
    rintro hns ⟨e, he⟩
    have hmem := (mem_fetchAll_errors cl excludedWorkloads labelSelector e).2 he
    have hne : (fetchAll cl excludedWorkloads labelSelector).2 ≠ [] :=
      List.ne_nil_of_mem hmem
    have hlen : (fetchAll cl excludedWorkloads labelSelector).2.length ≠ 0 := by
      simpa using hne
    obtain ⟨e', he', hrecv⟩ := receiveFirst_mem run hne
    unfold fetchWorkloads
    rw [hns]
    dsimp only
    rw [if_pos hlen]
    exact ⟨rfl, e', (mem_fetchAll_errors cl excludedWorkloads labelSelector e').1 he', hrecv⟩
  refine ⟨?_, hfail, ?_⟩
  · constructor
    · intro herr
      by_cases hns : cl.namespaceError = none
      · right
        by_contra hno
        have hnil : (fetchAll cl excludedWorkloads labelSelector).2 = [] := by
          cases hl : (fetchAll cl excludedWorkloads labelSelector).2 with
          | nil => rfl
          | cons a l =>
            exfalso
            exact hno ⟨a, (mem_fetchAll_errors cl excludedWorkloads labelSelector a).1
              (by rw [hl]; exact List.mem_cons_self _ _)⟩
        rw [fetchWorkloads_of_success parse cl excludedWorkloads run labelSelector hns hnil]
          at herr
        exact herr rfl
      · exact Or.inl hns
    · rintro (hns | hex)
      · cases h : cl.namespaceError with
        | none => exact absurd h hns
        | some e => unfold fetchWorkloads; simp [h]
      · cases h : cl.namespaceError with
        | none =>
          obtain ⟨_, e, _, he⟩ := hfail h hex
          rw [he]; simp
        | some e => unfold fetchWorkloads; simp [h]
  · intro e he
    unfold fetchWorkloads
    simp [he]

theorem fetchWorkloads_error_iff_witness :
    (fetchWorkloads (fun _ => none) jobsTimeout none { order := [], first := 0 } "").1 = []
    ∧ ∃ e, issuedFetchError jobsTimeout none "" e
        ∧ (fetchWorkloads (fun _ => none) jobsTimeout none { order := [], first := 0 } "").2
            = some e :=
  (fetchWorkloads_error_iff (fun _ => none) jobsTimeout none { order := [], first := 0 } "").2.1
    rfl ⟨timeoutAnswer,
      Or.inr (Or.inr (Or.inr (Or.inr (Or.inr (Or.inr (Or.inr ⟨rfl, rfl⟩))))))⟩

/-- C13: when the access check `Namespace.GetNamespace` answers the error `e`,
each of `fetchWorkloads`, `fetchWorkload` and `updateWorkload` returns `e`
and issues no list, get or patch call to the gateway. -/
theorem access_error_short_circuits (parse : String → Selector) (cl : Cluster)
    (excludedWorkloads : Option (List (String × Bool))) (patch : String → Option Err)
    (run : Run) (labelSelector workloadName workloadType : String) (e : Err)
    (hns : cl.namespaceError = some e) :
    fetchWorkloads parse cl excludedWorkloads run labelSelector = ([], some e)
    ∧ fetchWorkloadsCalls cl excludedWorkloads labelSelector = []
    ∧ fetchWorkload cl excludedWorkloads run workloadName workloadType
        = Outcome.returned none (some e)
    ∧ fetchWorkloadCalls cl excludedWorkloads workloadName workloadType = []
    ∧ updateWorkload cl excludedWorkloads patch run workloadType = some e
    ∧ updateWorkloadCalls cl excludedWorkloads workloadType = [] := by
  refine ⟨?_, ?_, ?_, ?_, ?_, ?_⟩
  · unfold fetchWorkloads; simp [hns]
  · unfold fetchWorkloadsCalls; simp [hns]
  · unfold fetchWorkload; simp [hns]
  · unfold fetchWorkloadCalls; simp [hns]
  · unfold updateWorkload; simp [hns]
  · unfold updateWorkloadCalls; simp [hns]

theorem access_error_short_circuits_witness :
    fetchWorkloads (fun _ => none) forbiddenCluster none { order := [], first := 0 } ""
        = ([], some forbiddenAnswer)
    ∧ fetchWorkloadsCalls forbiddenCluster none "" = []
    ∧ fetchWorkload forbiddenCluster none { order := [], first := 0 } "web" ""
        = Outcome.returned none (some forbiddenAnswer)
    ∧ fetchWorkloadCalls forbiddenCluster none "web" "" = []
    ∧ updateWorkload forbiddenCluster none (fun _ => none) { order := [], first := 0 } ""
        = some forbiddenAnswer
    ∧ updateWorkloadCalls forbiddenCluster none "" = [] :=
  access_error_short_circuits (fun _ => none) forbiddenCluster none (fun _ => none)
    { order := [], first := 0 } "" "web" "" forbiddenAnswer rfl

/-! ## The target kind of a single-workload request -/

/-- C14, the failing input evaluated: in `cronCluster` the request for "etl"
without target kind returns the workload of kind "CronJob" with the pod of its
Job. The request that names the kind "CronJob" skips the fetch of the Jobs, so
the entry of the Job "etl-1" is not collapsed into its CronJob, the registry
has no key "etl", and the call returns the not-found error. -/
theorem fetchWorkload_cronjob_by_kind :
    fetchWorkload cronCluster none { order := ["etl-1"], first := 0 } "etl" ""
      = Outcome.returned
          (some { Name := "etl", Kind := "CronJob",
                  Pods := [{ Name := "etl-1-x", Labels := [("job", "etl")],
                             OwnerReferences := [controlledBy "etl-1" "Job"] }] })
          none
    ∧ (fetchOne cronCluster none "etl" "CronJob").2 = []
    ∧ (fetchOne cronCluster none "etl" "CronJob").1.jbs = []
    ∧ (resolveOne ["etl-1"] (fetchOne cronCluster none "etl" "CronJob").1)
        = [("etl-1", "Job")]
    ∧ fetchWorkload cronCluster none { order := ["etl-1"], first := 0 } "etl" "CronJob"
      = Outcome.returned (some emptyWorkload)
          (some (NewNotFound "etl" "Kiali" "Workload")) :=
  ⟨by decide, by decide, by decide, by decide, rfl⟩

/-! ## The list of workloads and the details of one workload -/

theorem typeSkipped_empty (kind : String) : typeSkipped "" kind = false := by
  simp [typeSkipped]

theorem deploymentTask_agrees {cl : Cluster} (n : String)
    (hag : getAgrees cl.getDeployments cl.getDeployment)
    (hok : (listTask true cl.getDeployments).2 = []) :
    deploymentTask cl n "" = (findByName (listTask true cl.getDeployments).1 n, []) := by
  unfold deploymentTask
  rw [typeSkipped_empty]
  cases hl : cl.getDeployments with
  | error e => rw [hl] at hok; simp [listTask] at hok
  | ok xs =>
    have h := hag xs hl n
    simp only [listTask, if_true, Bool.false_eq_true, if_false]
    cases hf : findByName xs n with
    | some x => rw [h.1 x hf]
    | none =>
      obtain ⟨e, he, hnf⟩ := h.2 hf
      rw [he]
      simp [hnf]

theorem quietTask_agrees {list : Except Err (List Controller)}
    {get : String → Except Err Controller} (issued : Bool) (n : String)
    (hag : getAgrees list get) (hok : (listTask issued list).2 = []) :
    quietTask issued (get n) = findByName (listTask issued list).1 n := by
  unfold quietTask
  cases issued with
  | false => simp [listTask, findByName]
  | true =>
    cases hl : list with
    | error e => rw [hl] at hok; simp [listTask] at hok
    | ok xs =>
      have h := hag xs hl n
      simp only [listTask, if_true]
      cases hf : findByName xs n with
      | some x => rw [h.1 x hf]
      | none =>
        obtain ⟨e, he, _⟩ := h.2 hf
        rw [he]

theorem fetchOne_of_fetchAll {cl : Cluster}
    (excludedWorkloads : Option (List (String × Bool))) (n : String)
    (hok : (fetchAll cl excludedWorkloads "").2 = [])
    (hdep : getAgrees cl.getDeployments cl.getDeployment)
    (hdc : getAgrees cl.getDeploymentConfigs cl.getDeploymentConfig)
    (hss : getAgrees cl.getStatefulSets cl.getStatefulSet) :
    fetchOne cl excludedWorkloads n ""
      = ((fetchAll cl excludedWorkloads "").1.single n, []) := by
  unfold fetchAll at hok ⊢
  simp only [List.append_eq_nil] at hok
  obtain ⟨⟨⟨⟨⟨⟨⟨h1, h2⟩, h3⟩, h4⟩, h5⟩, h6⟩, h7⟩, h8⟩ := hok
  unfold fetchOne Fetched.single
  simp only [typeSkipped_empty, Bool.not_false, Bool.true_and]
  rw [deploymentTask_agrees n hdep h2, quietTask_agrees _ n hdc h5,
    quietTask_agrees _ n hss h6]
  simp only [h1, h3, h4, h7, h8, List.append_nil]

theorem get_recoverAny_none (kind : String) (r : Registry) (x : Controller) (n : String) :
    (recoverAny kind none r x).get n
      = match r.get n with
        | some v => some v
        | none => if x.Name = n then some kind else none := by
  unfold recoverAny
  simp only [selectorCheck, Bool.and_true]
  cases hx : r.get x.Name with
  | none =>
    simp only [Option.isNone_none, if_true, Registry.get_set]
    by_cases hn : n = x.Name
    · subst hn; simp [hx]
    · have hn2 : ¬ x.Name = n := fun h => hn h.symm
      simp only [hn, hn2, if_false]
      cases r.get n <;> rfl
  | some v =>
    simp only [Option.isNone_some, Bool.false_eq_true, if_false]
    by_cases hn : x.Name = n
    · subst hn; simp [hx]
    · simp only [hn, if_false]
      cases r.get n <;> rfl

theorem get_recoverOwnerless_none (kind : String) (r : Registry) (x : Controller)
    (n : String) :
    (recoverOwnerless kind none r x).get n
      = match r.get n with
        | some v => some v
        | none =>
          if x.Name = n ∧ x.OwnerReferences.length = 0 then some kind else none := by
  unfold recoverOwnerless
  simp only [selectorCheck, Bool.and_true]
  by_cases ho : x.OwnerReferences.length = 0
  · cases hx : r.get x.Name with
    | none =>
      simp only [Option.isNone_none, ho, decide_True, Bool.and_self, if_true,
        Registry.get_set, and_true]
      by_cases hn : n = x.Name
      · subst hn; simp [hx]
      · have hn2 : ¬ x.Name = n := fun h => hn h.symm
        simp only [hn, hn2, if_false]
        cases r.get n <;> rfl
    | some v =>
      simp only [Option.isNone_some, Bool.false_and, Bool.false_eq_true, if_false, ho,
        and_true]
      by_cases hn : x.Name = n
      · subst hn; simp [hx]
      · simp only [hn, if_false]
        cases r.get n <;> rfl
  · simp only [ho, decide_False, Bool.and_false, Bool.false_eq_true, if_false, and_false]
    cases r.get n <;> rfl

theorem hasName_cons (x : Controller) (rest : List Controller) (n : String) :
    hasName (x :: rest) n = (decide (x.Name = n) || hasName rest n) := rfl

theorem hasOwnerless_cons (x : Controller) (rest : List Controller) (n : String) :
    hasOwnerless (x :: rest) n
      = ((decide (x.Name = n) && decide (x.OwnerReferences.length = 0))
          || hasOwnerless rest n) := rfl

theorem get_foldl_recoverAny_none (kind : String) (xs : List Controller) (r : Registry)
    (n : String) :
    (xs.foldl (recoverAny kind none) r).get n
      = match r.get n with
        | some v => some v
        | none => if hasName xs n = true then some kind else none := by
  induction xs generalizing r with
  | nil =>
    simp only [List.foldl_nil]
    cases r.get n with
    | some v => rfl
    | none => rfl
  | cons x rest ih =>
    rw [List.foldl_cons, ih, get_recoverAny_none, hasName_cons]
    cases r.get n with
    | some v => rfl
    | none =>
      by_cases hx : x.Name = n
      · simp [hx]
      · simp [hx]

theorem get_foldl_recoverOwnerless_none (kind : String) (xs : List Controller)
    (r : Registry) (n : String) :
    (xs.foldl (recoverOwnerless kind none) r).get n
      = match r.get n with
        | some v => some v
        | none => if hasOwnerless xs n = true then some kind else none := by
  induction xs generalizing r with
  | nil =>
    simp only [List.foldl_nil]
    cases r.get n with
    | some v => rfl
    | none => rfl
  | cons x rest ih =>
    rw [List.foldl_cons, ih, get_recoverOwnerless_none, hasOwnerless_cons]
    cases r.get n with
    | some v => rfl
    | none =>
      by_cases hx : x.Name = n ∧ x.OwnerReferences.length = 0
      · have h1 : (decide (x.Name = n) && decide (x.OwnerReferences.length = 0)) = true := by
          simp only [Bool.and_eq_true, decide_eq_true_eq]; exact hx
        rw [h1, if_pos hx]
        simp
      · have h1 : (decide (x.Name = n) && decide (x.OwnerReferences.length = 0)) = false := by
          rw [Bool.eq_false_iff]
          simp only [ne_eq, Bool.and_eq_true, decide_eq_true_eq]; exact hx
        rw [h1, if_neg hx]
        simp

theorem hasName_pointerList (xs : List Controller) (n : String) :
    hasName (pointerList (findByName xs n)) n = hasName xs n := by
  have h := hasName_iff xs n
  cases hf : findByName xs n with
  | none =>
    rw [hf] at h
    have h2 : hasName xs n = false := by simpa using h
    rw [h2]
    rfl
  | some x =>
    rw [hf] at h
    have h2 : hasName xs n = true := by simpa using h
    rw [h2]
    simp [pointerList, hasName, findByName_name hf]

theorem get_recoveryOne_single (f : Fetched) (r : Registry) (n : String) :
    (recoveryOne (f.single n) r).get n = (recoveryPass none f r).get n := by
  unfold recoveryOne recoveryPass Fetched.single
  simp only [get_foldl_recoverAny_none, get_foldl_recoverOwnerless_none,
    hasName_pointerList]

theorem get_resolveOne_single (order : List String) (f : Fetched) (n : String) :
    (resolveOne order (f.single n)).get n = (resolve none order f).get n := by
  unfold resolveOne resolve
  exact get_recoveryOne_single f _ n

theorem buildFromPointer_single {kind : String} {xs : List Controller} {pods : List Pod}
    {n : String} {w : Workload} (h : buildFromCollection kind xs pods n = some w) :
    buildFromPointer kind (findByName xs n) pods n = .found w := by
  unfold buildFromCollection at h
  unfold buildFromPointer
  cases hf : findByName xs n with
  | none => rw [hf] at h; cases h
  | some x =>
    rw [hf] at h
    cases h
    simp [findByName_name hf]

theorem buildOne_single {f : Fetched} {n ctype : String} {w : Workload}
    (h : buildWorkload f n ctype = some w) : buildOne (f.single n) n ctype = .found w := by
  unfold buildWorkload at h
  unfold buildOne Fetched.single
  split_ifs at h ⊢
  · exact buildFromPointer_single h
  · rw [h]; rfl
  · rw [h]; rfl
  · exact buildFromPointer_single h
  · exact buildFromPointer_single h
  · rw [h]; rfl
  · rw [h]; rfl
  · rw [h]; rfl
  · cases h; rfl

/-- C15, the failing input evaluated. In `nestedCluster` all fetches succeed
and the reads by name agree with the lists. A run of `fetchWorkloads` whose
collapse loop takes the turns "b", "a" returns the workload "b" of kind
ReplicaSet; a run of `fetchWorkload` for "b" whose collapse loop takes the
turns "a", "b" collapses "b" into its Deployment and returns the not-found
error. Likewise in `rolloutCluster`: the list run with the turns "b", "a"
returns the workload "b" of kind Rollout, and the details run for "b" with the
turns "a", "b" returns the not-found error. All these orders are orders of a
Go map iteration, where the comment above `controllerOrder` asks that the list
and the details be consistent. -/
theorem list_and_details_differ :
    (fetchAll nestedCluster none "").2 = []
    ∧ (fetchWorkloads (fun _ => none) nestedCluster none
          { order := ["b", "a"], first := 0 } "").1.map (fun w => (w.Name, w.Kind))
        = [("b", "ReplicaSet"), ("d", "Deployment")]
    ∧ fetchWorkload nestedCluster none { order := ["a", "b"], first := 0 } "b" ""
        = Outcome.returned (some emptyWorkload)
            (some (NewNotFound "b" "Kiali" "Workload"))
    ∧ (fetchAll rolloutCluster none "").2 = []
    ∧ (fetchWorkloads (fun _ => none) rolloutCluster none
          { order := ["b", "a"], first := 0 } "").1.map (fun w => (w.Name, w.Kind))
        = [("b", "Rollout"), ("c", "CronJob")]
    ∧ fetchWorkload rolloutCluster none { order := ["a", "b"], first := 0 } "b" ""
        = Outcome.returned (some emptyWorkload)
            (some (NewNotFound "b" "Kiali" "Workload")) :=
  ⟨by decide, by decide, rfl, by decide, by decide, rfl⟩

/-- The two entry points agree within one order of the turns: when the access
check and all fetches succeed, the reads of a Deployment, DeploymentConfig and
StatefulSet by name agree with the listed collections, and the collapse loops
of the two calls take their turns in the same order, every workload that
`fetchWorkloads(namespace, "")` returns is returned, with the same name, kind
and pods, by `fetchWorkload` for its name without target kind. The order of
the turns is not in the hands of a caller. -/
theorem list_details_consistent (parse : String → Selector) (cl : Cluster)
    (excludedWorkloads : Option (List (String × Bool))) (run : Run)
    (hns : cl.namespaceError = none)
    (hok : (fetchAll cl excludedWorkloads "").2 = [])
    (hdep : getAgrees cl.getDeployments cl.getDeployment)
    (hdc : getAgrees cl.getDeploymentConfigs cl.getDeploymentConfig)
    (hss : getAgrees cl.getStatefulSets cl.getStatefulSet)
    (w : Workload) (hw : w ∈ (fetchWorkloads parse cl excludedWorkloads run "").1) :
    fetchWorkload cl excludedWorkloads run w.Name "" = Outcome.returned (some w) none := by
  rw [fetchWorkloads_of_success parse cl excludedWorkloads run "" hns hok] at hw
  have hsel : recoverySelector parse "" = none := by simp [recoverySelector]
  rw [hsel] at hw
  obtain ⟨ctype, hget, hbuild⟩ := (mem_buildWorkloads _ _ w).1 hw
  unfold fetchWorkload
  rw [hns]
  dsimp only
  rw [fetchOne_of_fetchAll excludedWorkloads w.Name hok hdep hdc hss]
  dsimp only
  rw [if_neg (by simp)]
  unfold finishOne
  rw [get_resolveOne_single, hget]
  dsimp only
  rw [buildOne_single hbuild]

theorem getAgrees_empty (get : String → Except Err Controller)
    (h : ∀ n, get n = .error notFoundAnswer) : getAgrees (.ok []) get := by
  intro xs hxs n
  cases hxs
  exact ⟨fun x hx => (by cases hx), fun _ => ⟨notFoundAnswer, h n, rfl⟩⟩

theorem getAgrees_statefulCluster :
    getAgrees statefulCluster.getStatefulSets statefulCluster.getStatefulSet := by
  intro xs hxs n
  have hxs' : (Except.ok
      [{ Name := "web", OwnerReferences := [], TemplateLabels := [("app", "web")] }] :
        Except Err (List Controller)) = Except.ok xs := hxs
  cases hxs'
  by_cases hn : n = "web"
  · subst hn
    exact ⟨fun x hx => (by cases hx; rfl), fun hf => (by cases hf)⟩
  · have hnone : findByName
        [({ Name := "web", OwnerReferences := [], TemplateLabels := [("app", "web")] } :
          Controller)] n = none := by
      have hn2 : ¬ "web" = n := fun h => hn h.symm
      simp [findByName, hn2]
    refine ⟨fun x hx => (by rw [hnone] at hx; cases hx), fun _ => ⟨notFoundAnswer, ?_, rfl⟩⟩
    show (if n = "web" then _ else _) = _
    rw [if_neg hn]

theorem list_details_consistent_witness :
    fetchWorkload statefulCluster none { order := ["web"], first := 0 } "web" ""
      = Outcome.returned
          (some { Name := "web", Kind := "StatefulSet",
                  Pods := [{ Name := "web-0", Labels := [("app", "web")],
                             OwnerReferences :=
                               [{ Name := "web", Kind := "StatefulSet",
                                  Controller := some true }] }] })
          none :=
  list_details_consistent (fun _ => none) statefulCluster none
    { order := ["web"], first := 0 } rfl (by decide)
    (getAgrees_empty _ (fun _ => rfl)) (getAgrees_empty _ (fun _ => rfl))
    getAgrees_statefulCluster
    { Name := "web", Kind := "StatefulSet",
      Pods := [{ Name := "web-0", Labels := [("app", "web")],
                 OwnerReferences :=
                   [{ Name := "web", Kind := "StatefulSet", Controller := some true }] }] }
    (by decide)

/-! ## The time window of the pod logs -/

theorem wellFormed_cons_none {parse : String → Option Int} {line : String}
    (rest : List String) (h : parseLine parse line = none) :
    wellFormed parse (line :: rest) = wellFormed parse rest := by
  simp [wellFormed, List.filterMap_cons, h]

theorem wellFormed_cons_some {parse : String → Option Int} {line : String}
    {p : LogEntry × Int} (rest : List String) (h : parseLine parse line = some p) :
    wellFormed parse (line :: rest) = p :: wellFormed parse rest := by
  simp [wellFormed, List.filterMap_cons, h]

theorem scanLines_with_end (parse : String → Option Int) (d : Int) (e : Int)
    (lines : List String) (s : Option Int) :
    scanLines parse (some d) s (some e) lines
      = ((wellFormed parse lines).takeWhile (fun p => !decide (p.2 > e))).map Prod.fst := by
  induction lines generalizing s with
  | nil => simp [scanLines, wellFormed]
  | cons line rest ih =>
    cases hp : parseLine parse line with
    | none =>
      rw [scanLines, hp, wellFormed_cons_none rest hp]
      exact ih s
    | some p =>
      obtain ⟨entry, parsed⟩ := p
      rw [scanLines, hp, wellFormed_cons_some rest hp]
      simp only
      by_cases hgt : parsed > e
      · simp [hgt, List.takeWhile_cons]
      · rw [if_neg hgt, ih]
        simp [hgt, List.takeWhile_cons]

theorem scanLines_bounded (parse : String → Option Int) (d : Int)
    (lines : List String) (s : Option Int) :
    scanLines parse (some d) s none lines = windowBySpec parse d lines := by
  induction lines generalizing s with
  | nil => simp [scanLines, windowBySpec, wellFormed]
  | cons line rest ih =>
    cases hp : parseLine parse line with
    | none =>
      rw [scanLines, hp]
      simp only
      rw [ih s]
      unfold windowBySpec
      rw [wellFormed_cons_none rest hp]
    | some p =>
      obtain ⟨entry, parsed⟩ := p
      rw [scanLines, hp]
      unfold windowBySpec
      rw [wellFormed_cons_some rest hp]
      simp only
      by_cases hgt : parsed > parsed + d
      · simp [hgt, List.takeWhile_cons]
      · rw [if_neg hgt, scanLines_with_end]
        simp [hgt, List.takeWhile_cons]

theorem scanLines_unbounded (parse : String → Option Int) (lines : List String)
    (s e : Option Int) :
    scanLines parse none s e lines = (wellFormed parse lines).map Prod.fst := by
  induction lines generalizing s with
  | nil => simp [scanLines, wellFormed]
  | cons line rest ih =>
    cases hp : parseLine parse line with
    | none =>
      rw [scanLines, hp, wellFormed_cons_none rest hp]
      exact ih s
    | some p =>
      obtain ⟨entry, parsed⟩ := p
      rw [scanLines, hp, wellFormed_cons_some rest hp]
      simp only
      rw [ih]
      rfl

/-- C16: for a request with the duration `d`, the entries that the loop of
`getParsedLogs` leaves before the tail-line count is applied are exactly the
well-formed lines that precede the first well-formed line stamped strictly
after `t0 + d`, with `t0` the time of the first well-formed line (a line
stamped `t0 + d` is kept). For the six lines of `sixLines`, one second apart,
and a duration of two seconds these are the first three lines. -/
theorem window_from_first_line (parse : String → Option Int) (opts : LogOptions)
    (logs : String) (d : Int) (hd : opts.Duration = some d) :
    windowEntries parse opts logs = windowBySpec parse d (splitLines logs)
    ∧ (windowEntries sixSeconds twoSeconds sixLines).map (fun e => e.Timestamp)
        = ["2020-01-01T10:00:00Z", "2020-01-01T10:00:01Z", "2020-01-01T10:00:02Z"] := by
  refine ⟨?_, by decide⟩
  unfold windowEntries
  rw [hd]
  exact scanLines_bounded parse d _ _

theorem window_from_first_line_witness :
    windowEntries sixSeconds twoSeconds sixLines
        = windowBySpec sixSeconds 2000000000 (splitLines sixLines)
    ∧ (windowEntries sixSeconds twoSeconds sixLines).map (fun e => e.Timestamp)
        = ["2020-01-01T10:00:00Z", "2020-01-01T10:00:01Z", "2020-01-01T10:00:02Z"] :=
  window_from_first_line sixSeconds twoSeconds sixLines 2000000000 rfl

/-- C17, the failing input evaluated: the request `twoSecondsSince` has the
start time S = 2020-01-01T09:00:00Z and a duration of two seconds, and the
gateway answers `sixLines`, whose first line is stamped one hour after S. The
call returns the first three lines, stamped 10:00:00 to 10:00:02, all after
S + 2s = 09:00:02: the end of the window is taken from the first line. -/
theorem window_ignores_start_time :
    twoSecondsSince.PodLogOptions.SinceTime = some (1577869200 * 1000000000)
    ∧ twoSecondsSince.Duration = some 2000000000
    ∧ unixSeconds (1577869200 * 1000000000 + 2000000000) = 1577869202
    ∧ getParsedLogs sixSeconds (fun _ => .ok sixLines) twoSecondsSince
      = .returned
          (some { Entries :=
            [{ Message := "starting", Severity := "INFO",
               Timestamp := "2020-01-01T10:00:00Z", TimestampUnix := 1577872800 },
             { Message := "warn: slow", Severity := "WARN",
               Timestamp := "2020-01-01T10:00:01Z", TimestampUnix := 1577872801 },
             { Message := "ready", Severity := "INFO",
               Timestamp := "2020-01-01T10:00:02Z", TimestampUnix := 1577872802 }] })
          none := by
  refine ⟨rfl, rfl, ?_, ?_⟩ <;> decide

/-! ## The tail-line count of the pod logs -/

theorem getParsedLogs_ok {parse : String → Option Int}
    {getPodLogs : PodLogOptions → Except Err String} {opts : LogOptions} {logs : String}
    {entries : List LogEntry} (hg : getPodLogs (gatewayOptions opts) = .ok logs)
    (ht : tailCut opts (windowEntries parse opts logs) = some entries) :
    getParsedLogs parse getPodLogs opts = .returned (some { Entries := entries }) none := by
  unfold getParsedLogs
  rw [hg]
  simp only
  rw [ht]

/-- C18: with a duration, `getParsedLogs` calls the gateway with the options
of the request without tail-line count; with a duration and a tail-line count
`n > 0` it returns the last `min n m` of the `m` entries that the time window
leaves, in order; without a duration it calls the gateway with the options of
the request unchanged and returns every well-formed line. The answer of the
gateway is read at these options only. -/
theorem tail_after_window (parse : String → Option Int)
    (getPodLogs : PodLogOptions → Except Err String) (opts : LogOptions) :
    (∀ d, opts.Duration = some d →
      gatewayOptions opts = { opts.PodLogOptions with TailLines := none })
    ∧ (∀ d n logs, opts.Duration = some d → opts.PodLogOptions.TailLines = some n →
        0 < n → getPodLogs (gatewayOptions opts) = .ok logs →
        getParsedLogs parse getPodLogs opts
          = .returned
              (some { Entries := lastEntries n.toNat (windowEntries parse opts logs) })
              none
        ∧ (lastEntries n.toNat (windowEntries parse opts logs)).length
          = min n.toNat (windowEntries parse opts logs).length)
    ∧ (opts.Duration = none →
        gatewayOptions opts = opts.PodLogOptions
        ∧ ∀ logs, getPodLogs (gatewayOptions opts) = .ok logs →
            getParsedLogs parse getPodLogs opts
              = .returned
                  (some { Entries := (wellFormed parse (splitLines logs)).map Prod.fst })
                  none)
    ∧ (∀ other : PodLogOptions → Except Err String,
        other (gatewayOptions opts) = getPodLogs (gatewayOptions opts) →
        getParsedLogs parse other opts = getParsedLogs parse getPodLogs opts) := by
  refine ⟨?_, ?_, ?_, ?_⟩
  · intro d hd
    simp [gatewayOptions, hd]
  · intro d n logs hd hn hpos hg
    unfold lastEntries
    constructor
    · apply getParsedLogs_ok hg
      unfold tailCut
      rw [hd, hn]
      simp only
      by_cases hlen : ((windowEntries parse opts logs).length : Int) > n
      · have h1 : n.toNat ≤ (windowEntries parse opts logs).length := by omega
        rw [if_pos hlen, if_neg (by omega), Nat.min_eq_left h1]
      · have h1 : (windowEntries parse opts logs).length ≤ n.toNat := by omega
        rw [if_neg hlen, Nat.min_eq_right h1]
        simp
    · rw [List.length_drop]
      omega
  · intro hd
    have hopts : gatewayOptions opts = opts.PodLogOptions := by
      simp [gatewayOptions, hd]
    refine ⟨hopts, ?_⟩
    intro logs hg
    apply getParsedLogs_ok hg
    unfold tailCut windowEntries
    rw [hd, scanLines_unbounded]
  · intro other hother
    unfold getParsedLogs
    rw [hother]

theorem tail_after_window_witness :
    getParsedLogs sixSeconds (fun _ => .ok sixLines) twoSecondsTail
      = .returned
          (some { Entries := [{ Message := "ready", Severity := "INFO",
                                Timestamp := "2020-01-01T10:00:02Z",
                                TimestampUnix := 1577872802 }] })
          none := by
  have h := ((tail_after_window sixSeconds (fun _ => .ok sixLines) twoSecondsTail).2.1
    2000000000 1 sixLines rfl rfl (by decide) rfl).1
  rw [h]
  decide

/-! ## The severity of a log entry -/

theorem matchesAt_iff (w s : List Char) :
    matchesAt w s = true ↔ w.length ≤ s.length ∧ (s.take w.length).map Char.toUpper = w := by
  induction w generalizing s with
  | nil => simp [matchesAt]
  | cons a ws ih =>
    cases s with
    | nil => simp [matchesAt]
    | cons c cs =>
      simp only [matchesAt, Bool.and_eq_true, decide_eq_true_eq, ih, List.length_cons,
        List.take_succ_cons, List.map_cons, List.cons.injEq, Nat.add_le_add_iff_right]
      tauto

theorem occursAt_zero (w s : List Char) : occursAt w s 0 ↔ matchesAt w s = true := by
  rw [matchesAt_iff]
  simp [occursAt]

theorem occursAt_succ (w : List Char) (c : Char) (cs : List Char) (i : Nat) :
    occursAt w (c :: cs) (i + 1) ↔ occursAt w cs i := by
  unfold occursAt
  simp only [List.length_cons, List.drop_succ_cons]
  constructor
  · rintro ⟨h1, h2⟩; exact ⟨by omega, h2⟩
  · rintro ⟨h1, h2⟩; exact ⟨by omega, h2⟩

theorem matchHere_some {s m : List Char} (h : matchHere s = some m) :
    ∃ w ∈ severityWords, matchesAt w s = true ∧ m = s.take w.length := by
  unfold matchHere at h
  cases hf : severityWords.find? (fun w => matchesAt w s) with
  | none => rw [hf] at h; cases h
  | some w =>
    rw [hf] at h
    cases h
    exact ⟨w, List.mem_of_find?_eq_some hf, by simpa using List.find?_some hf, rfl⟩

theorem matchHere_none {s : List Char} (h : matchHere s = none) :
    ∀ w ∈ severityWords, ¬ matchesAt w s = true := by
  unfold matchHere at h
  cases hf : severityWords.find? (fun w => matchesAt w s) with
  | some w => rw [hf] at h; cases h
  | none =>
    intro w hw
    exact List.find?_eq_none.1 hf w hw

theorem severityWords_length_pos {w : List Char} (hw : w ∈ severityWords) : 0 < w.length := by
  simp only [severityWords, List.mem_cons, List.mem_singleton, List.not_mem_nil,
    or_false] at hw
  rcases hw with rfl | rfl | rfl | rfl <;> decide

theorem findSeverity_none {s : List Char} (h : findSeverity s = none) :
    ∀ w ∈ severityWords, ∀ i, ¬ occursAt w s i := by
  induction s with
  | nil =>
    intro w hw i ho
    have := severityWords_length_pos hw
    have hlen := ho.1
    simp only [List.length_nil] at hlen
    omega
  | cons c cs ih =>
    unfold findSeverity at h
    cases hm : matchHere (c :: cs) with
    | some m => rw [hm] at h; cases h
    | none =>
      rw [hm] at h
      intro w hw i
      cases i with
      | zero =>
        rw [occursAt_zero]
        exact matchHere_none hm w hw
      | succ j =>
        rw [occursAt_succ]
        exact ih h w hw j

theorem findSeverity_some {s m : List Char} (h : findSeverity s = some m) :
    ∃ i, ∃ w ∈ severityWords, occursAt w s i ∧ toUpper m = w
      ∧ ∀ j, j < i → ∀ w' ∈ severityWords, ¬ occursAt w' s j := by
  induction s with
  | nil => cases h
  | cons c cs ih =>
    unfold findSeverity at h
    cases hm : matchHere (c :: cs) with
    | some m' =>
      rw [hm] at h
      cases h
      obtain ⟨w, hw, hmatch, hmw⟩ := matchHere_some hm
      refine ⟨0, w, hw, (occursAt_zero w _).2 hmatch, ?_, fun j hj => absurd hj (by omega)⟩
      rw [hmw]
      exact ((matchesAt_iff w _).1 hmatch).2
    | none =>
      rw [hm] at h
      obtain ⟨i, w, hw, hocc, hup, hleft⟩ := ih h
      refine ⟨i + 1, w, hw, (occursAt_succ w c cs i).2 hocc, hup, ?_⟩
      intro j hj w' hw'
      cases j with
      | zero =>
        rw [occursAt_zero]
        exact matchHere_none hm w' hw'
      | succ k =>
        rw [occursAt_succ]
        exact hleft k (by omega) w' hw'

theorem severity_mk_ne_info {w : List Char} (hw : w ∈ severityWords) :
    String.mk w ∈ ["ERROR", "WARN", "DEBUG", "TRACE"] ∧ String.mk w ≠ "INFO" := by
  simp only [severityWords, List.mem_cons, List.mem_singleton, List.not_mem_nil,
    or_false] at hw
  rcases hw with rfl | rfl | rfl | rfl <;> decide

theorem severityOf_spec (line : List Char) :
    severityOf line ∈ ["ERROR", "WARN", "DEBUG", "TRACE", "INFO"]
    ∧ (severityOf line = "INFO" ↔ ∀ w ∈ severityWords, ∀ i, ¬ occursAt w line i)
    ∧ (severityOf line ≠ "INFO" →
        ∃ i, occursAt (severityOf line).toList line i
          ∧ ∀ j, j < i → ∀ w ∈ severityWords, ¬ occursAt w line j) := by
  unfold severityOf
  cases hf : findSeverity line with
  | none =>
    refine ⟨by simp, ?_, fun h => absurd rfl h⟩
    simp only [true_iff]
    exact findSeverity_none hf
  | some m =>
    obtain ⟨i, w, hw, hocc, hup, hleft⟩ := findSeverity_some hf
    simp only
    rw [hup]
    have hmk := severity_mk_ne_info hw
    refine ⟨?_, ?_, fun _ => ⟨i, hocc, hleft⟩⟩
    · simp only [List.mem_cons, List.mem_singleton, List.not_mem_nil, or_false] at hmk ⊢
      tauto
    · constructor
      · intro h; exact absurd h hmk.2
      · intro h; exact absurd hocc (h w hw i)

/-! ## The entries of the pod logs and their lines -/

theorem scanLines_sublist (parse : String → Option Int) (duration : Option Int)
    (lines : List String) (s e : Option Int) :
    (scanLines parse duration s e lines).Sublist ((wellFormed parse lines).map Prod.fst) := by
  induction lines generalizing s e with
  | nil => simp [scanLines, wellFormed]
  | cons line rest ih =>
    cases hp : parseLine parse line with
    | none =>
      rw [scanLines, hp, wellFormed_cons_none rest hp]
      exact ih s e
    | some p =>
      obtain ⟨entry, parsed⟩ := p
      rw [scanLines, hp, wellFormed_cons_some rest hp]
      simp only [List.map_cons]
      cases duration with
      | none => exact (ih _ _).cons₂ entry
      | some d =>
        simp only
        split
        · exact List.nil_sublist _
        · exact (ih _ _).cons₂ entry

theorem tailCut_sublist {opts : LogOptions} {entries cut : List LogEntry}
    (h : tailCut opts entries = some cut) : cut.Sublist entries := by
  unfold tailCut at h
  split at h
  · split at h
    · split at h
      · cases h
      · cases h; exact List.drop_sublist _ _
    · cases h; exact List.Sublist.refl _
  · cases h; exact List.Sublist.refl _

theorem tailCut_of_nonNegative {opts : LogOptions} (htail : nonNegativeTail opts)
    (entries : List LogEntry) : ∃ cut, tailCut opts entries = some cut := by
  unfold tailCut
  split
  · rename_i d n hd hn
    have hpos := htail n hn
    split
    · rw [if_neg (by omega)]
      exact ⟨_, rfl⟩
    · exact ⟨_, rfl⟩
  · exact ⟨_, rfl⟩

theorem mem_wellFormed_fst {parse : String → Option Int} {lines : List String}
    {e : LogEntry} (h : e ∈ (wellFormed parse lines).map Prod.fst) :
    ∃ line ∈ lines, ∃ t, parseLine parse line = some (e, t) := by
  simp only [wellFormed, List.mem_map, List.mem_filterMap] at h
  obtain ⟨⟨e', t⟩, ⟨line, hline, hp⟩, rfl⟩ := h
  exact ⟨line, hline, t, hp⟩

theorem parseLine_some {parse : String → Option Int} {line : String} {e : LogEntry}
    {t : Int} (h : parseLine parse line = some (e, t)) :
    ∃ stamp rest, splitFirst ' ' line.toList = some (stamp, rest)
      ∧ e.Message = String.mk (trimSpace rest) ∧ e.Message ≠ ""
      ∧ e.Timestamp = String.mk (ensureRFC3339 stamp)
      ∧ parse (String.mk (ensureRFC3339 stamp)) = some t
      ∧ e.TimestampUnix = unixSeconds t
      ∧ e.Severity = severityOf line.toList := by
  unfold parseLine at h
  cases hs : splitFirst ' ' line.toList with
  | none => rw [hs] at h; cases h
  | some p =>
    obtain ⟨stamp, rest⟩ := p
    rw [hs] at h
    simp only at h
    split at h
    · cases h
    · rename_i hmsg
      cases hpt : parse (String.mk (ensureRFC3339 stamp)) with
      | none => rw [hpt] at h; cases h
      | some parsed =>
        rw [hpt] at h
        cases h
        exact ⟨stamp, rest, rfl, rfl, hmsg, rfl, hpt, rfl, rfl⟩

theorem splitFirst_eq_none_iff (c : Char) (s : List Char) :
    splitFirst c s = none ↔ c ∉ s := by
  induction s with
  | nil => simp [splitFirst]
  | cons x xs ih =>
    unfold splitFirst
    by_cases hx : x = c
    · simp [hx]
    · have hx2 : ¬ c = x := fun h => hx h.symm
      simp only [hx, if_false, List.mem_cons, hx2, false_or]
      rw [← ih]
      cases splitFirst c xs with
      | none => simp
      | some p => simp

theorem parseLine_eq_none_iff (parse : String → Option Int) (line : String) :
    parseLine parse line = none
      ↔ (' ' ∉ line.toList
          ∨ ∃ stamp rest, splitFirst ' ' line.toList = some (stamp, rest)
              ∧ (String.mk (trimSpace rest) = ""
                  ∨ parse (String.mk (ensureRFC3339 stamp)) = none)) := by
  unfold parseLine
  cases hs : splitFirst ' ' line.toList with
  | none =>
    have hno := (splitFirst_eq_none_iff ' ' line.toList).1 hs
    exact ⟨fun _ => Or.inl hno, fun _ => rfl⟩
  | some p =>
    obtain ⟨stamp, rest⟩ := p
    have hmem : ¬ ' ' ∉ line.toList := by
      rw [← splitFirst_eq_none_iff, hs]; simp
    simp only
    constructor
    · intro h
      right
      refine ⟨stamp, rest, rfl, ?_⟩
      by_cases hmsg : String.mk (trimSpace rest) = ""
      · exact Or.inl hmsg
      · right
        rw [if_neg hmsg] at h
        cases hpt : parse (String.mk (ensureRFC3339 stamp)) with
        | none => rfl
        | some t => rw [hpt] at h; cases h
    · rintro (hno | ⟨stamp', rest', heq, hor⟩)
      · exact absurd hno hmem
      · cases heq
        rcases hor with hm | hpn
        · rw [if_pos hm]
        · rw [hpn]
          split <;> rfl

theorem returned_entries {parse : String → Option Int}
    {getPodLogs : PodLogOptions → Except Err String} {opts : LogOptions} {log : PodLog}
    {err : Option Err}
    (h : getParsedLogs parse getPodLogs opts = .returned (some log) err) :
    ∃ logs, getPodLogs (gatewayOptions opts) = .ok logs
      ∧ log.Entries.Sublist ((wellFormed parse (splitLines logs)).map Prod.fst) := by
  unfold getParsedLogs at h
  cases hg : getPodLogs (gatewayOptions opts) with
  | error e => rw [hg] at h; cases h
  | ok logs =>
    rw [hg] at h
    simp only at h
    cases ht : tailCut opts (windowEntries parse opts logs) with
    | none => rw [ht] at h; cases h
    | some cut =>
      rw [ht] at h
      cases h
      exact ⟨logs, rfl, (tailCut_sublist ht).trans (scanLines_sublist _ _ _ _ _)⟩

/-- C19: every entry that `getParsedLogs` returns comes from a line of the
log text, and its severity is one of ERROR, WARN, DEBUG, TRACE and INFO: it
is INFO exactly when none of the four words occurs in the line in any letter
case, and otherwise it is, in capitals, the word that occurs at the leftmost
position at which one of the four words occurs. -/
theorem entry_severity (parse : String → Option Int)
    (getPodLogs : PodLogOptions → Except Err String) (opts : LogOptions) (log : PodLog)
    (err : Option Err)
    (h : getParsedLogs parse getPodLogs opts = .returned (some log) err)
    (e : LogEntry) (he : e ∈ log.Entries) :
    ∃ logs, getPodLogs (gatewayOptions opts) = .ok logs
      ∧ ∃ line ∈ splitLines logs, (∃ t, parseLine parse line = some (e, t))
        ∧ e.Severity ∈ ["ERROR", "WARN", "DEBUG", "TRACE", "INFO"]
        ∧ (e.Severity = "INFO" ↔ ∀ w ∈ severityWords, ∀ i, ¬ occursAt w line.toList i)
        ∧ (e.Severity ≠ "INFO" →
            ∃ i, occursAt e.Severity.toList line.toList i
              ∧ ∀ j, j < i → ∀ w ∈ severityWords, ¬ occursAt w line.toList j) := by
  obtain ⟨logs, hg, hsub⟩ := returned_entries h
  obtain ⟨line, hline, t, hp⟩ := mem_wellFormed_fst (hsub.subset he)
  obtain ⟨_, _, _, _, _, _, _, _, hsev⟩ := parseLine_some hp
  rw [hsev]
  exact ⟨logs, hg, line, hline, ⟨t, hp⟩, severityOf_spec line.toList⟩

theorem entry_severity_witness :
    ∃ logs, (fun _ => Except.ok sixLines : PodLogOptions → Except Err String)
        (gatewayOptions twoSeconds) = .ok logs
      ∧ ∃ line ∈ splitLines logs,
        (∃ t, parseLine sixSeconds line
          = some ({ Message := "warn: slow", Severity := "WARN",
                    Timestamp := "2020-01-01T10:00:01Z", TimestampUnix := 1577872801 }, t))
        ∧ "WARN" ∈ ["ERROR", "WARN", "DEBUG", "TRACE", "INFO"]
        ∧ ("WARN" = "INFO" ↔ ∀ w ∈ severityWords, ∀ i, ¬ occursAt w line.toList i)
        ∧ ("WARN" ≠ "INFO" →
            ∃ i, occursAt "WARN".toList line.toList i
              ∧ ∀ j, j < i → ∀ w ∈ severityWords, ¬ occursAt w line.toList j) :=
  entry_severity sixSeconds (fun _ => .ok sixLines) twoSeconds
    { Entries := windowEntries sixSeconds twoSeconds sixLines } none (by decide)
    { Message := "warn: slow", Severity := "WARN",
      Timestamp := "2020-01-01T10:00:01Z", TimestampUnix := 1577872801 } (by decide)

/-- C20, counterexample: the request `negativeTail` has a duration and the
tail-line count -1. The gateway answers `sixLines` without error; the loop
leaves three entries, more than -1, and the slice `entries[3-(-1):]` is out of
range: the call panics instead of returning. -/
theorem negative_tail_panics :
    negativeTail.PodLogOptions.TailLines = some (-1)
    ∧ (windowEntries sixSeconds negativeTail sixLines).length = 3
    ∧ getParsedLogs sixSeconds (fun _ => .ok sixLines) negativeTail
        = LogOutcome.sliceOutOfRange := by
  refine ⟨rfl, ?_, ?_⟩ <;> decide

/-- C20, amended: for a request whose tail-line count, if any, is not
negative, `getParsedLogs` returns, and it returns an error exactly when
`GetPodLogs` answers one, namely that error. For every log text that the
gateway answers, the entries returned are a subsequence, in the order of the
lines, of the entries of the well-formed lines; each comes from a line with a
first space, has the trimmed rest of the line as its message, which is not
empty, and the Unix seconds of the parsed timestamp as `TimestampUnix`. The
lines that the loop skips are those without a space, with an empty trimmed
message or with a timestamp that does not parse. -/
theorem parsed_logs_skip_bad_lines (parse : String → Option Int)
    (getPodLogs : PodLogOptions → Except Err String) (opts : LogOptions)
    (htail : nonNegativeTail opts) :
    (∀ err, getPodLogs (gatewayOptions opts) = .error err →
      getParsedLogs parse getPodLogs opts = .returned none (some err))
    ∧ (∀ logs, getPodLogs (gatewayOptions opts) = .ok logs →
        ∃ entries,
          getParsedLogs parse getPodLogs opts
            = .returned (some { Entries := entries }) none
          ∧ entries.Sublist
              ((splitLines logs).filterMap
                (fun line => (parseLine parse line).map Prod.fst))
          ∧ ∀ e ∈ entries, e.Message ≠ ""
              ∧ ∃ line ∈ splitLines logs, ∃ stamp rest t,
                  splitFirst ' ' line.toList = some (stamp, rest)
                  ∧ e.Message = String.mk (trimSpace rest)
                  ∧ parse (String.mk (ensureRFC3339 stamp)) = some t
                  ∧ e.TimestampUnix = unixSeconds t)
    ∧ (∀ line, parseLine parse line = none
        ↔ (' ' ∉ line.toList
            ∨ ∃ stamp rest, splitFirst ' ' line.toList = some (stamp, rest)
                ∧ (String.mk (trimSpace rest) = ""
                    ∨ parse (String.mk (ensureRFC3339 stamp)) = none))) := by
  refine ⟨?_, ?_, parseLine_eq_none_iff parse⟩
  · intro err hg
    unfold getParsedLogs
    rw [hg]
  · intro logs hg
    obtain ⟨cut, hcut⟩ := tailCut_of_nonNegative htail (windowEntries parse opts logs)
    have hret := getParsedLogs_ok hg hcut
    have hsub : cut.Sublist ((wellFormed parse (splitLines logs)).map Prod.fst) :=
      (tailCut_sublist hcut).trans (scanLines_sublist _ _ _ _ _)
    refine ⟨cut, hret, ?_, ?_⟩
    · have hmap : (wellFormed parse (splitLines logs)).map Prod.fst
          = (splitLines logs).filterMap
              (fun line => (parseLine parse line).map Prod.fst) := by
        unfold wellFormed
        rw [List.map_filterMap]
      rw [← hmap]
      exact hsub
    · intro e he
      obtain ⟨line, hline, t, hp⟩ := mem_wellFormed_fst (hsub.subset he)
      obtain ⟨stamp, rest, hs, hm, hne, _, hpt, hu, _⟩ := parseLine_some hp
      exact ⟨hne, line, hline, stamp, rest, t, hs, hm, hpt, hu⟩

theorem parsed_logs_skip_bad_lines_witness :
    ∃ entries,
      getParsedLogs sixSeconds (fun _ => .ok "no-space\n2020-01-01T10:00:00Z   \nbad ts\n2020-01-01T10:00:01Z ok")
          twoSecondsTail
        = .returned (some { Entries := entries }) none
      ∧ entries.Sublist
          ((splitLines "no-space\n2020-01-01T10:00:00Z   \nbad ts\n2020-01-01T10:00:01Z ok").filterMap
            (fun line => (parseLine sixSeconds line).map Prod.fst))
      ∧ ∀ e ∈ entries, e.Message ≠ ""
          ∧ ∃ line ∈ splitLines "no-space\n2020-01-01T10:00:00Z   \nbad ts\n2020-01-01T10:00:01Z ok",
              ∃ stamp rest t,
              splitFirst ' ' line.toList = some (stamp, rest)
              ∧ e.Message = String.mk (trimSpace rest)
              ∧ sixSeconds (String.mk (ensureRFC3339 stamp)) = some t
              ∧ e.TimestampUnix = unixSeconds t :=
  (parsed_logs_skip_bad_lines sixSeconds
    (fun _ => .ok "no-space\n2020-01-01T10:00:00Z   \nbad ts\n2020-01-01T10:00:01Z ok")
    twoSecondsTail (by unfold nonNegativeTail; decide)).2.1 _ rfl

/-! ## The tie-break as an order -/

/-- C25: the relation "controllerPriority a b = a" on kind strings is total
and transitive: `controllerPriority a b` is `a` or `b`, at least one of
`controllerPriority a b = a` and `controllerPriority b a = b` holds, and
`controllerPriority a b = a` with `controllerPriority b c = b` gives
`controllerPriority a c = a`. -/
theorem controllerPriority_total_transitive (a b c : String) :
    (controllerPriority a b = a ∨ controllerPriority a b = b)
    ∧ (controllerPriority a b = a ∨ controllerPriority b a = b)
    ∧ (controllerPriority a b = a → controllerPriority b c = b →
        controllerPriority a c = a) := by
  simp only [controllerPriority_eq]
  refine ⟨?_, ?_, ?_⟩
  · by_cases h : weight a ≥ weight b
    · left; exact if_pos h
    · right; exact if_neg h
  · by_cases h : weight a ≥ weight b
    · left; exact if_pos h
    · right
      have h2 : weight b ≥ weight a := by omega
      exact if_pos h2
  · intro h1 h2
    by_cases hab : weight a ≥ weight b
    · by_cases hbc : weight b ≥ weight c
      · exact if_pos (ge_trans hab hbc)
      · rw [if_neg hbc] at h2
        subst h2
        exact if_pos hab
    · rw [if_neg hab] at h1
      subst h1
      exact h2

/-- C25 at the kinds Deployment, ReplicaSet and Job: Deployment wins over
ReplicaSet, ReplicaSet over Job, and so Deployment over Job. -/
theorem controllerPriority_total_transitive_witness :
    controllerPriority "Deployment" "ReplicaSet" = "Deployment"
    ∧ controllerPriority "ReplicaSet" "Job" = "ReplicaSet"
    ∧ controllerPriority "Deployment" "Job" = "Deployment" :=
  ⟨by decide, by decide,
   (controllerPriority_total_transitive "Deployment" "ReplicaSet" "Job").2.2
     (by decide) (by decide)⟩

/-! ## The order of the recovery pass -/

theorem eligibleIn_cons (selector : Selector) (ownerless : Bool) (x : Controller)
    (rest : List Controller) (n : String) :
    eligibleIn selector ownerless (x :: rest) n
      = ((decide (x.Name = n) && (!ownerless || decide (x.OwnerReferences.length = 0))
            && selectorCheck selector x.TemplateLabels)
          || eligibleIn selector ownerless rest n) := rfl

theorem get_recoverAny (kind : String) (selector : Selector) (r : Registry)
    (x : Controller) (n : String) :
    (recoverAny kind selector r x).get n
      = match r.get n with
        | some v => some v
        | none => if eligibleIn selector false [x] n = true then some kind else none := by
  unfold recoverAny eligibleIn
  simp only [List.any_cons, List.any_nil, Bool.or_false, Bool.not_false, Bool.true_or,
    Bool.and_true]
  by_cases hn : x.Name = n
  · subst hn
    cases hx : r.get x.Name with
    | none =>
      cases hs : selectorCheck selector x.TemplateLabels <;>
        simp [hx, Registry.get_set]
    | some v => simp [hx]
  · have hn2 : ¬ n = x.Name := fun h => hn h.symm
    have h3 : (if (r.get x.Name).isNone && selectorCheck selector x.TemplateLabels
        then r.set x.Name kind else r).get n = r.get n := by
      split
      · rw [Registry.get_set, if_neg hn2]
      · rfl
    rw [h3]
    cases r.get n <;> simp [hn]

theorem get_recoverOwnerless (kind : String) (selector : Selector) (r : Registry)
    (x : Controller) (n : String) :
    (recoverOwnerless kind selector r x).get n
      = match r.get n with
        | some v => some v
        | none => if eligibleIn selector true [x] n = true then some kind else none := by
  unfold recoverOwnerless eligibleIn
  simp only [List.any_cons, List.any_nil, Bool.or_false, Bool.not_true, Bool.false_or]
  by_cases hn : x.Name = n
  · subst hn
    cases hx : r.get x.Name with
    | none =>
      cases hs : selectorCheck selector x.TemplateLabels <;>
        by_cases ho : x.OwnerReferences.length = 0 <;>
        simp [hx, Registry.get_set, ho]
    | some v => simp [hx]
  · have hn2 : ¬ n = x.Name := fun h => hn h.symm
    have h3 : (if (r.get x.Name).isNone && decide (x.OwnerReferences.length = 0)
        && selectorCheck selector x.TemplateLabels
        then r.set x.Name kind else r).get n = r.get n := by
      split
      · rw [Registry.get_set, if_neg hn2]
      · rfl
    rw [h3]
    cases r.get n <;> simp [hn]

theorem get_foldl_recover (step : Registry → Controller → Registry) (kind : String)
    (selector : Selector) (ownerless : Bool)
    (hstep : ∀ r x n, (step r x).get n
      = match r.get n with
        | some v => some v
        | none => if eligibleIn selector ownerless [x] n = true then some kind else none)
    (xs : List Controller) (r : Registry) (n : String) :
    (xs.foldl step r).get n
      = match r.get n with
        | some v => some v
        | none => if eligibleIn selector ownerless xs n = true then some kind else none := by
  induction xs generalizing r with
  | nil =>
    simp only [List.foldl_nil]
    cases r.get n with
    | some v => rfl
    | none => rfl
  | cons x rest ih =>
    have h3 : eligibleIn selector ownerless (x :: rest) n
        = (eligibleIn selector ownerless [x] n || eligibleIn selector ownerless rest n) := by
      simp [eligibleIn]
    rw [List.foldl_cons, ih, hstep, h3]
    cases r.get n with
    | some v => rfl
    | none =>
      cases eligibleIn selector ownerless [x] n <;> simp

/-- C30: for a name that is not a key of the registry, the recovery pass of
`fetchWorkloads` records the kind of the first collection, in the order
Deployment, ReplicaSet, DeploymentConfig, ReplicationController, StatefulSet,
that holds an eligible object of that name, and leaves the name out when no
collection holds one. -/
theorem recoveryPass_first_collection (selector : Selector) (f : Fetched) (r : Registry)
    (n : String) (h : r.get n = none) :
    (recoveryPass selector f r).get n = firstEligible selector f n := by
  unfold recoveryPass firstEligible
  simp only [get_foldl_recover _ _ selector false (get_recoverAny _ selector),
    get_foldl_recover _ _ selector true (get_recoverOwnerless _ selector), h]
  cases eligibleIn selector false f.dep n <;>
    cases eligibleIn selector true f.repset n <;>
    cases eligibleIn selector false f.depcon n <;>
    cases eligibleIn selector true f.repcon n <;>
    cases eligibleIn selector false f.fulset n <;> rfl

/-- C30 on a ReplicaSet without owner and a DeploymentConfig of the same name:
the recovery pass records the ReplicaSet, where `controllerPriority` prefers
the DeploymentConfig. -/
theorem recoveryPass_first_collection_witness :
    (recoveryPass none equallyNamed []).get "x" = some "ReplicaSet"
    ∧ controllerPriority "ReplicaSet" "DeploymentConfig" = "DeploymentConfig" :=
  ⟨(recoveryPass_first_collection none equallyNamed [] "x" rfl).trans (by decide),
   by decide⟩

/-! ## The update -/

theorem mem_updateTask (excludedWorkloads : Option (List (String × Bool)))
    (patch : String → Option Err) (k : String) (e : Err) :
    e ∈ updateTask excludedWorkloads patch k
      ↔ isWorkloadIncluded excludedWorkloads k = true ∧ patch k = some e
        ∧ e.notFound = false := by
  unfold updateTask
  cases hi : isWorkloadIncluded excludedWorkloads k with
  | false => simp
  | true =>
    cases hp : patch k with
    | none => simp
    | some err =>
      simp only [if_true, true_and, Option.some.injEq]
      constructor
      · intro h
        cases hn : err.notFound with
        | true => rw [hn] at h; simp at h
        | false =>
          rw [hn] at h
          simp only [Bool.not_false, if_true, List.mem_singleton] at h
          subst h
          exact ⟨rfl, hn⟩
      · rintro ⟨h, hn⟩
        subst h
        rw [hn]
        simp

theorem mem_updateErrors (excludedWorkloads : Option (List (String × Bool)))
    (patch : String → Option Err) (workloadType : String) (e : Err) :
    e ∈ (updateTargets workloadType).flatMap (updateTask excludedWorkloads patch)
      ↔ patchError excludedWorkloads patch workloadType e := by
  unfold patchError
  simp only [List.mem_flatMap, mem_updateTask]

/-- C22: `updateWorkload` returns an error if and only if the access check
fails or the patch of a kind it attempts answers an error that is not a
not-found error; in the second case the error returned is such an answer; and
when the access check passes and every attempted patch answers nil or a
not-found error, all of them maybe, the call returns nil. -/
theorem updateWorkload_error_iff (cl : Cluster)
    (excludedWorkloads : Option (List (String × Bool))) (patch : String → Option Err)
    (run : Run) (workloadType : String) :
    (updateWorkload cl excludedWorkloads patch run workloadType ≠ none
      ↔ (cl.namespaceError ≠ none
          ∨ ∃ e, patchError excludedWorkloads patch workloadType e))
    ∧ (cl.namespaceError = none →
        (∃ e, patchError excludedWorkloads patch workloadType e) →
        ∃ e, patchError excludedWorkloads patch workloadType e
          ∧ updateWorkload cl excludedWorkloads patch run workloadType = some e)
    ∧ (cl.namespaceError = none →
        (∀ k ∈ updateTargets workloadType, isWorkloadIncluded excludedWorkloads k = true →
          patch k = none ∨ ∃ e, patch k = some e ∧ e.notFound = true) →
        updateWorkload cl excludedWorkloads patch run workloadType = none) := by
  have hfail : cl.namespaceError = none →
      (∃ e, patchError excludedWorkloads patch workloadType e) →
      ∃ e, patchError excludedWorkloads patch workloadType e
        ∧ updateWorkload cl excludedWorkloads patch run workloadType = some e := by
    rintro hns ⟨e, he⟩
    have hmem := (mem_updateErrors excludedWorkloads patch workloadType e).2 he
    have hne : (updateTargets workloadType).flatMap (updateTask excludedWorkloads patch) ≠ [] :=
      List.ne_nil_of_mem hmem
    have hlen :
        ((updateTargets workloadType).flatMap (updateTask excludedWorkloads patch)).length
          ≠ 0 := fun h => hne (List.length_eq_zero.1 h)
    obtain ⟨e', he', hrecv⟩ := receiveFirst_mem run hne
    refine ⟨e', (mem_updateErrors excludedWorkloads patch workloadType e').1 he', ?_⟩
    unfold updateWorkload
    rw [hns]
    dsimp only
    rw [if_pos hlen]
    exact hrecv
  have hnone : cl.namespaceError = none →
      (¬ ∃ e, patchError excludedWorkloads patch workloadType e) →
      updateWorkload cl excludedWorkloads patch run workloadType = none := by
    intro hns hno
    have hnil : (updateTargets workloadType).flatMap (updateTask excludedWorkloads patch)
        = [] := by
      cases hl : (updateTargets workloadType).flatMap (updateTask excludedWorkloads patch) with
      | nil => rfl
      | cons a l =>
        exfalso
        exact hno ⟨a, (mem_updateErrors excludedWorkloads patch workloadType a).1
          (by rw [hl]; exact List.mem_cons_self _ _)⟩
    unfold updateWorkload
    rw [hns]
    dsimp only
    rw [hnil]
    rfl
  refine ⟨?_, hfail, ?_⟩
  · constructor
    · intro herr
      by_cases hns : cl.namespaceError = none
      · right
        by_contra hno
        exact herr (hnone hns hno)
      · exact Or.inl hns
    · rintro (hns | hex)
      · cases h : cl.namespaceError with
        | none => exact absurd h hns
        | some e => unfold updateWorkload; simp [h]
      · cases h : cl.namespaceError with
        | none =>
          obtain ⟨e, _, he⟩ := hfail h hex
          rw [he]; simp
        | some e => unfold updateWorkload; simp [h]
  · intro hns hall
    apply hnone hns
    rintro ⟨e, k, hk, hincl, hp, hnf⟩
    rcases hall k hk hincl with h | ⟨e', h, hn⟩
    · rw [h] at hp; cases hp
    · rw [h] at hp
      cases hp
      rw [hn] at hnf
      cases hnf

/-- C22 on a namespace where the patch of the Job times out and that of every
other kind answers not-found: the call fails with an answer that is not a
not-found error; and where every kind answers not-found the call returns
nil. -/
theorem updateWorkload_error_iff_witness :
    (∃ e, patchError none jobPatchTimeout "" e
      ∧ updateWorkload statefulCluster none jobPatchTimeout { order := [], first := 0 } ""
          = some e)
    ∧ updateWorkload statefulCluster none (fun _ => some notFoundAnswer)
        { order := [], first := 0 } "" = none :=
  ⟨(updateWorkload_error_iff statefulCluster none jobPatchTimeout
      { order := [], first := 0 } "").2.1 rfl
      ⟨timeoutAnswer, "Job", by decide, rfl, rfl, rfl⟩,
   (updateWorkload_error_iff statefulCluster none (fun _ => some notFoundAnswer)
      { order := [], first := 0 } "").2.2 rfl
      (fun _ _ _ => Or.inr ⟨notFoundAnswer, rfl, rfl⟩)⟩

theorem mem_workloadTypes_iff_any (workloadType : String) :
    workloadTypes.any (fun wt => decide (workloadType = wt)) = true
      ↔ workloadType ∈ workloadTypes := by
  simp only [List.any_eq_true, decide_eq_true_eq]
  constructor
  · rintro ⟨x, hx, rfl⟩; exact hx
  · intro h; exact ⟨workloadType, h, rfl⟩

theorem mem_updateTargets (workloadType k : String) :
    k ∈ updateTargets workloadType
      ↔ k ∈ workloadTypes
        ∧ (workloadType = "" ∨ workloadType ∉ workloadTypes ∨ workloadType = k) := by
  unfold updateTargets
  by_cases h1 : workloadType = ""
  · simp [h1]
  · rw [if_pos h1]
    by_cases h2 : workloadType ∈ workloadTypes
    · rw [if_pos ((mem_workloadTypes_iff_any workloadType).2 h2)]
      simp only [List.mem_singleton, h1, h2, not_true_eq_false, false_or]
      constructor
      · intro h; subst h; exact ⟨h2, rfl⟩
      · intro h; exact h.2.symm
    · have h3 : ¬ workloadTypes.any (fun wt => decide (workloadType = wt)) = true :=
        fun h => h2 ((mem_workloadTypes_iff_any workloadType).1 h)
      rw [if_neg h3]
      simp [h2]

/-- C23 as stated fails: with the target kind "DaemonSet", which is not empty
and is none of the eight kinds, the patch is attempted against the Deployment
and against the Pod. -/
theorem unknown_target_patches_all :
    GatewayCall.UpdateWorkload "Deployment" ∈ updateWorkloadCalls statefulCluster none "DaemonSet"
    ∧ GatewayCall.UpdateWorkload "Pod" ∈ updateWorkloadCalls statefulCluster none "DaemonSet"
    ∧ "DaemonSet" ≠ "" ∧ "DaemonSet" ≠ "Deployment" := by
  decide

/-- C23, amended: when the access check passes, `updateWorkload` attempts the
patch against the kind `k` if and only if `k` is one of the eight kinds, is
not excluded by the configuration, and the target kind is empty, is none of
the eight kinds, or is `k`; with a target kind that is one of the eight, no
other kind is patched. -/
theorem updateWorkload_patched_kinds (cl : Cluster)
    (excludedWorkloads : Option (List (String × Bool))) (workloadType k : String)
    (hns : cl.namespaceError = none) :
    (GatewayCall.UpdateWorkload k ∈ updateWorkloadCalls cl excludedWorkloads workloadType
      ↔ k ∈ workloadTypes ∧ isWorkloadIncluded excludedWorkloads k = true
        ∧ (workloadType = "" ∨ workloadType ∉ workloadTypes ∨ workloadType = k))
    ∧ (workloadType ∈ workloadTypes →
        GatewayCall.UpdateWorkload k ∈ updateWorkloadCalls cl excludedWorkloads workloadType →
        k = workloadType) := by
  have hiff : GatewayCall.UpdateWorkload k
      ∈ updateWorkloadCalls cl excludedWorkloads workloadType
      ↔ k ∈ updateTargets workloadType ∧ isWorkloadIncluded excludedWorkloads k = true := by
    unfold updateWorkloadCalls
    rw [hns]
    simp only [List.mem_flatMap, callIf]
    constructor
    · rintro ⟨t, ht, hmem⟩
      cases hi : isWorkloadIncluded excludedWorkloads t with
      | false => rw [hi] at hmem; simp at hmem
      | true =>
        rw [hi] at hmem
        simp only [if_true, List.mem_singleton, GatewayCall.UpdateWorkload.injEq] at hmem
        subst hmem
        exact ⟨ht, hi⟩
    · rintro ⟨ht, hi⟩
      exact ⟨k, ht, by rw [hi]; simp⟩
  refine ⟨?_, ?_⟩
  · rw [hiff, mem_updateTargets]
    tauto
  · intro hwt hcall
    have h := (mem_updateTargets workloadType k).1 (hiff.1 hcall).1
    rcases h.2 with h1 | h2 | h3
    · exfalso
      rw [h1] at hwt
      revert hwt
      decide
    · exact absurd hwt h2
    · exact h3.symm

/-- C23, amended, on the target kind "StatefulSet": the StatefulSet is patched
and nothing else is. -/
theorem updateWorkload_patched_kinds_witness :
    GatewayCall.UpdateWorkload "StatefulSet"
      ∈ updateWorkloadCalls statefulCluster none "StatefulSet"
    ∧ (GatewayCall.UpdateWorkload "Pod"
        ∈ updateWorkloadCalls statefulCluster none "StatefulSet" →
        "Pod" = "StatefulSet") :=
  ⟨(updateWorkload_patched_kinds statefulCluster none "StatefulSet" "StatefulSet" rfl).1.2
      ⟨by decide, rfl, Or.inr (Or.inr rfl)⟩,
   (updateWorkload_patched_kinds statefulCluster none "StatefulSet" "Pod" rfl).2
      (by decide)⟩

/-! ## The criteria of a log request -/

/-- C21 as stated fails: the tail-line counts "0" and "-5" are integers that
are not positive; the request is not rejected, and its options carry no
tail-line count. -/
theorem nonPositive_tail_accepted :
    BuildLogOptionsCriteria sampleDurations sampleInts "" "" "" "0"
      = .ok { Duration := none,
              PodLogOptions := { Container := "", SinceTime := none, TailLines := none,
                                 Timestamps := true } }
    ∧ BuildLogOptionsCriteria sampleDurations sampleInts "" "" "" "-5"
      = .ok { Duration := none,
              PodLogOptions := { Container := "", SinceTime := none, TailLines := none,
                                 Timestamps := true } } :=
  ⟨rfl, rfl⟩

/-- C21, amended: `BuildLogOptionsCriteria` returns an error, and no options,
exactly when a duration that is given is not a valid duration, or a start time
or a tail-line count that is given is not a base-10 64-bit integer; otherwise
it returns the options with timestamps enabled, the container, the parsed
duration and start time, and the parsed tail-line count when that is positive
(a count that is not positive is dropped). -/
theorem buildLogOptionsCriteria_spec (parseDuration parseInt : String → Except String Int)
    (container duration sinceTime tailLines : String) :
    ((∃ err, BuildLogOptionsCriteria parseDuration parseInt container duration sinceTime
          tailLines = .error err)
      ↔ malformedInput parseDuration parseInt duration sinceTime tailLines)
    ∧ (¬ malformedInput parseDuration parseInt duration sinceTime tailLines →
        BuildLogOptionsCriteria parseDuration parseInt container duration sinceTime tailLines
          = .ok (criteriaBySpec parseDuration parseInt container duration sinceTime
              tailLines)) := by
  unfold BuildLogOptionsCriteria malformedInput criteriaBySpec parsedValue
  by_cases hc : container = "" <;> by_cases hd : duration = "" <;>
    by_cases hs : sinceTime = "" <;> by_cases ht : tailLines = "" <;>
    cases hpd : parseDuration duration <;> cases hps : parseInt sinceTime <;>
    cases hpt : parseInt tailLines <;> simp [*]
  all_goals (split_ifs <;> simp_all [Option.filter])
  all_goals (rw [if_neg (not_lt.2 (by assumption))])

/-- C21, amended, on a request with all four parameters: the options carry the
container, two seconds, the start time and ten lines; and a tail-line count
that is not a number is rejected. -/
theorem buildLogOptionsCriteria_spec_witness :
    BuildLogOptionsCriteria sampleDurations sampleInts "istio-proxy" "2s" "1577869200" "10"
      = .ok { Duration := some 2000000000,
              PodLogOptions := { Container := "istio-proxy",
                                 SinceTime := some (1577869200 * 1000000000),
                                 TailLines := some 10, Timestamps := true } }
    ∧ ∃ err, BuildLogOptionsCriteria sampleDurations sampleInts "" "" "" "ten"
        = .error err :=
  ⟨((buildLogOptionsCriteria_spec sampleDurations sampleInts "istio-proxy" "2s"
        "1577869200" "10").2
      (by
        unfold malformedInput
        rintro (⟨_, c, h⟩ | ⟨_, c, h⟩ | ⟨_, c, h⟩) <;> cases h)).trans rfl,
   (buildLogOptionsCriteria_spec sampleDurations sampleInts "" "" "" "ten").1.2
      (Or.inr (Or.inr ⟨by decide, "invalid syntax", rfl⟩))⟩

/-! ## The pod set of a Deployment -/

theorem labelsMatch_iff (selector podLabels : LabelSet) :
    labelsMatch selector podLabels = true
      ↔ ∀ kv ∈ selector, podLabels.lookup kv.1 = some kv.2 := by
  unfold labelsMatch
  simp only [List.all_eq_true, decide_eq_true_eq]

/-- C24: for a registry entry of kind Deployment whose Deployment object `d`
is found in the fetched Deployments, the list of `fetchWorkloads` holds one
workload of that name; its kind is Deployment and its pods are the fetched
pods whose labels contain every label of the pod template of `d`; with the
fetched pods in another order the pods of the workload are the same ones; and
the build of `fetchWorkload` gives the same workload. -/
theorem deployment_pod_set (f : Fetched) (r : Registry) (cname : String) (d : Controller)
    (hget : r.get cname = some "Deployment") (hd : findByName f.dep cname = some d) :
    ∃ w, w ∈ buildWorkloads f r
      ∧ (∀ w' ∈ buildWorkloads f r, w'.Name = cname → w' = w)
      ∧ w.Name = cname ∧ w.Kind = "Deployment"
      ∧ (∀ pod, pod ∈ w.Pods
          ↔ pod ∈ f.pods ∧ ∀ kv ∈ d.TemplateLabels, pod.Labels.lookup kv.1 = some kv.2)
      ∧ (∀ pods', pods'.Perm f.pods →
          ∃ w' ∈ buildWorkloads (f.withPods pods') r,
            w'.Name = cname ∧ w'.Kind = "Deployment" ∧ w'.Pods.Perm w.Pods)
      ∧ buildOne (f.single cname) cname "Deployment" = Built.found w := by
  have hname : d.Name = cname := findByName_name hd
  have hbuild : ∀ pods, buildWorkload (f.withPods pods) cname "Deployment"
      = some (parsedWorkload cname "Deployment"
          (FilterPodsForSelector d.TemplateLabels pods)) := by
    intro pods
    have hd2 : findByName (f.withPods pods).dep cname = some d := hd
    unfold buildWorkload buildFromCollection
    rw [if_pos rfl, hd2]
    show some (parsedWorkload d.Name "Deployment" _) = _
    rw [hname]
    rfl
  have hbuild0 : buildWorkload f cname "Deployment"
      = some (parsedWorkload cname "Deployment"
          (FilterPodsForSelector d.TemplateLabels f.pods)) := hbuild f.pods
  refine ⟨parsedWorkload cname "Deployment" (FilterPodsForSelector d.TemplateLabels f.pods),
    ?_, ?_, rfl, rfl, ?_, ?_, ?_⟩
  · exact (mem_buildWorkloads f r _).2 ⟨"Deployment", hget, hbuild0⟩
  · intro w' hw' hn
    obtain ⟨ctype, hg, hb⟩ := (mem_buildWorkloads f r w').1 hw'
    rw [hn, hget] at hg
    cases hg
    rw [hn, hbuild0] at hb
    cases hb
    rfl
  · intro pod
    unfold parsedWorkload FilterPodsForSelector
    simp only [List.mem_filter, labelsMatch_iff]
  · intro pods' hperm
    refine ⟨parsedWorkload cname "Deployment"
        (FilterPodsForSelector d.TemplateLabels pods'), ?_, rfl, rfl, ?_⟩
    · exact (mem_buildWorkloads (f.withPods pods') r _).2 ⟨"Deployment", hget, hbuild pods'⟩
    · exact List.Perm.filter _ hperm
  · unfold buildOne buildFromPointer Fetched.single
    rw [if_pos rfl]
    simp only [hd, hname, if_true]

/-- C24 on the Deployment "reviews-v1" with the template labels app=reviews
and version=v1 and four fetched pods, two of which carry both labels: the pods
of the workload are those two, also with the fetched pods in reverse order. -/
theorem deployment_pod_set_witness :
    (∃ w, w ∈ buildWorkloads reviewsFetched [("reviews-v1", "Deployment")]
      ∧ (∀ w' ∈ buildWorkloads reviewsFetched [("reviews-v1", "Deployment")],
          w'.Name = "reviews-v1" → w' = w)
      ∧ w.Name = "reviews-v1" ∧ w.Kind = "Deployment"
      ∧ (∀ pod, pod ∈ w.Pods
          ↔ pod ∈ reviewsFetched.pods
            ∧ ∀ kv ∈ [("app", "reviews"), ("version", "v1")],
                pod.Labels.lookup kv.1 = some kv.2)
      ∧ (∀ pods', pods'.Perm reviewsFetched.pods →
          ∃ w' ∈ buildWorkloads (reviewsFetched.withPods pods')
              [("reviews-v1", "Deployment")],
            w'.Name = "reviews-v1" ∧ w'.Kind = "Deployment" ∧ w'.Pods.Perm w.Pods)
      ∧ buildOne (reviewsFetched.single "reviews-v1") "reviews-v1" "Deployment"
          = Built.found w)
    ∧ (buildWorkloads reviewsFetched [("reviews-v1", "Deployment")]).map
        (fun w => w.Pods.map Pod.Name) = [["reviews-v1", "reviews-v1-b"]]
    ∧ (buildWorkloads (reviewsFetched.withPods reviewsFetched.pods.reverse)
        [("reviews-v1", "Deployment")]).map
        (fun w => w.Pods.map Pod.Name) = [["reviews-v1-b", "reviews-v1"]] :=
  ⟨deployment_pod_set reviewsFetched [("reviews-v1", "Deployment")] "reviews-v1"
      { Name := "reviews-v1", OwnerReferences := [],
        TemplateLabels := [("app", "reviews"), ("version", "v1")] } rfl rfl,
   by decide, by decide⟩

/-! ## What the seeding pass records -/

theorem mem_kindsFor (n kind : String) (l : List (String × String)) :
    kind ∈ kindsFor n l ↔ (n, kind) ∈ l := by
  unfold kindsFor
  simp only [List.mem_map, List.mem_filter, decide_eq_true_eq]
  constructor
  · rintro ⟨⟨a, b⟩, ⟨hmem, ha⟩, hb⟩
    simp only at ha hb
    subst ha; subst hb
    exact hmem
  · intro h
    exact ⟨(n, kind), ⟨h, rfl⟩, rfl⟩

theorem mem_assertions (pod : Pod) (n kind : String) :
    (n, kind) ∈ assertions pod
      ↔ (∃ ref ∈ pod.OwnerReferences, ref.isController = true ∧ ref.Name = n
            ∧ ref.Kind = kind)
        ∨ (pod.OwnerReferences = [] ∧ pod.Name = n ∧ kind = "Pod") := by
  unfold assertions
  by_cases h : pod.OwnerReferences.length ≠ 0
  · have hne : pod.OwnerReferences ≠ [] := fun h0 => h (by rw [h0]; rfl)
    rw [if_pos h]
    simp only [List.mem_map, List.mem_filter, Prod.mk.injEq, hne, false_and, or_false]
    constructor
    · rintro ⟨ref, ⟨hm, hc⟩, hn, hk⟩
      exact ⟨ref, hm, hc, hn, hk⟩
    · rintro ⟨ref, hm, hc, hn, hk⟩
      exact ⟨ref, ⟨hm, hc⟩, hn, hk⟩
  · have h0 : pod.OwnerReferences = [] := by
      have h1 : pod.OwnerReferences.length = 0 := not_not.1 h
      exact List.length_eq_zero.1 h1
    rw [if_neg h]
    simp only [List.mem_singleton, Prod.mk.injEq, h0, List.not_mem_nil, false_and,
      exists_false, true_and, false_or]
    constructor
    · rintro ⟨hn, hk⟩; exact ⟨hn.symm, hk⟩
    · rintro ⟨hn, hk⟩; exact ⟨hn.symm, hk⟩

theorem mem_seedKinds (pods : List Pod) (n kind : String) :
    kind ∈ kindsFor n (pods.flatMap assertions)
      ↔ controllerAsserts pods n kind
        ∨ (kind = "Pod" ∧ ∃ pod ∈ pods, pod.OwnerReferences = [] ∧ pod.Name = n) := by
  rw [mem_kindsFor]
  simp only [List.mem_flatMap, mem_assertions]
  unfold controllerAsserts
  constructor
  · rintro ⟨pod, hp, h | ⟨h0, hn, hk⟩⟩
    · exact Or.inl ⟨pod, hp, h⟩
    · exact Or.inr ⟨hk, pod, hp, h0, hn⟩
  · rintro (⟨pod, hp, h⟩ | ⟨hk, pod, hp, h0, hn⟩)
    · exact ⟨pod, hp, Or.inl h⟩
    · exact ⟨pod, hp, Or.inr ⟨h0, hn, hk⟩⟩

theorem foldl_mergeKind_some (l : List String) (e : String) :
    ∃ kind, l.foldl mergeKind (some e) = some kind ∧ (kind = e ∨ kind ∈ l)
      ∧ weight e ≤ weight kind ∧ ∀ k ∈ l, weight k ≤ weight kind := by
  induction l generalizing e with
  | nil => exact ⟨e, rfl, Or.inl rfl, le_refl _, fun k hk => by cases hk⟩
  | cons a rest ih =>
    obtain ⟨kind, hf, hmem, hw, hall⟩ := ih (controllerPriority e a)
    refine ⟨kind, hf, ?_, le_trans (weight_controllerPriority_left e a) hw, ?_⟩
    · rcases hmem with h | h
      · have hcp : controllerPriority e a = e ∨ controllerPriority e a = a := by
          rw [controllerPriority_eq]
          by_cases hc : weight e ≥ weight a
          · left; exact if_pos hc
          · right; exact if_neg hc
        rcases hcp with h2 | h2
        · left; rw [h, h2]
        · right; rw [h, h2]; exact List.mem_cons_self _ _
      · right; exact List.mem_cons_of_mem _ h
    · intro k hk
      rcases List.mem_cons.1 hk with h | h
      · rw [h]; exact le_trans (weight_controllerPriority_right e a) hw
      · exact hall k h

theorem foldl_mergeKind_none (l : List String) (hne : l ≠ []) :
    ∃ kind ∈ l, l.foldl mergeKind none = some kind ∧ ∀ k ∈ l, weight k ≤ weight kind := by
  cases l with
  | nil => exact absurd rfl hne
  | cons a rest =>
    obtain ⟨kind, hf, hmem, hw, hall⟩ := foldl_mergeKind_some rest a
    refine ⟨kind, ?_, hf, ?_⟩
    · rcases hmem with h | h
      · rw [h]; exact List.mem_cons_self _ _
      · exact List.mem_cons_of_mem _ h
    · intro k hk
      rcases List.mem_cons.1 hk with h | h
      · rw [h]; exact hw
      · exact hall k h

theorem eq_pod_of_weight {k : String} (h : weight k ≤ -1) : k = "Pod" := by
  cases hr : recognised k with
  | false =>
    have h0 := weight_of_not_recognised hr
    omega
  | true =>
    have h1 := weight_ge k
    have h2 : weight k = weight "Pod" := by
      have h3 : weight "Pod" = -1 := by decide
      omega
    exact weight_injective hr (by decide) h2

/-- C27: after the seeding pass of `fetchWorkloads`, for a pod with the
controller-flagged owner reference `R` the registry has exactly one entry for
the name of `R`; its kind is asserted for that name by a controller-flagged
owner reference of some pod, and no kind asserted for that name has a higher
weight in `controllerOrder`. -/
theorem seedPass_highest_asserted (pods : List Pod) (pod : Pod) (R : OwnerReference)
    (hpod : pod ∈ pods) (hR : R ∈ pod.OwnerReferences) (hc : R.isController = true) :
    ∃ kind, (seedPass pods).get R.Name = some kind
      ∧ (seedPass pods).keys.count R.Name = 1
      ∧ controllerAsserts pods R.Name kind
      ∧ ∀ k, controllerAsserts pods R.Name k → weight k ≤ weight kind := by
  have hRa : controllerAsserts pods R.Name R.Kind := ⟨pod, hpod, R, hR, hc, rfl, rfl⟩
  have hRmem : R.Kind ∈ kindsFor R.Name (pods.flatMap assertions) :=
    (mem_seedKinds pods R.Name R.Kind).2 (Or.inl hRa)
  obtain ⟨kind, hmem, hf, hall⟩ :=
    foldl_mergeKind_none (kindsFor R.Name (pods.flatMap assertions))
      (List.ne_nil_of_mem hRmem)
  have hget : (seedPass pods).get R.Name = some kind := by
    rw [get_seedPass]; exact hf
  refine ⟨kind, hget, ?_, ?_, ?_⟩
  · exact List.count_eq_one_of_mem (seedPass_nodup pods)
      ((Registry.mem_keys_iff _ _).2 ⟨kind, hget⟩)
  · rcases (mem_seedKinds pods R.Name kind).1 hmem with h | ⟨hk, _⟩
    · exact h
    · have hw : weight R.Kind ≤ weight kind := hall R.Kind hRmem
      have hp : weight kind = -1 := by rw [hk]; decide
      have hRk : R.Kind = "Pod" := eq_pod_of_weight (by omega)
      rw [hk, ← hRk]
      exact hRa
  · intro k hk
    exact hall k ((mem_seedKinds pods R.Name k).2 (Or.inl hk))

/-- C27 on two pods whose controller references name "x", one as a ReplicaSet
and one as a Deployment: the registry has one entry for "x", of the kind
Deployment. -/
theorem seedPass_highest_asserted_witness :
    ∃ kind, (seedPass [podOwnedBy "p1" "ReplicaSet", podOwnedBy "p2" "Deployment"]).get "x"
        = some kind
      ∧ (seedPass [podOwnedBy "p1" "ReplicaSet", podOwnedBy "p2" "Deployment"]).keys.count "x"
        = 1
      ∧ controllerAsserts [podOwnedBy "p1" "ReplicaSet", podOwnedBy "p2" "Deployment"] "x" kind
      ∧ ∀ k, controllerAsserts [podOwnedBy "p1" "ReplicaSet", podOwnedBy "p2" "Deployment"]
          "x" k → weight k ≤ weight kind :=
  seedPass_highest_asserted [podOwnedBy "p1" "ReplicaSet", podOwnedBy "p2" "Deployment"]
    (podOwnedBy "p1" "ReplicaSet") { Name := "x", Kind := "ReplicaSet", Controller := some true }
    (by decide) (by decide) rfl

theorem foldl_mergeKind_pods (l : List String) (h : ∀ k ∈ l, k = "Pod") :
    l.foldl mergeKind none = if l = [] then none else some "Pod" := by
  cases l with
  | nil => rfl
  | cons a rest =>
    obtain ⟨kind, hf, hmem, _, _⟩ := foldl_mergeKind_some rest a
    have ha : a = "Pod" := h a (List.mem_cons_self _ _)
    have hk : kind = "Pod" := by
      rcases hmem with h1 | h1
      · rw [h1, ha]
      · exact h kind (List.mem_cons_of_mem _ h1)
    rw [if_neg (List.cons_ne_nil _ _)]
    show rest.foldl mergeKind (some a) = some "Pod"
    rw [hf, hk]

/-- The seeding pass at a pod whose name no controller-flagged owner reference
of a pod carries: when the pod has no owner references at all, the registry
maps its name to "Pod"; when no pod of that name is without owner references,
the registry has no entry for the name. -/
theorem get_seedPass_uncontrolled (pods : List Pod) (pod : Pod) (hpod : pod ∈ pods)
    (hclaim : ∀ kind, ¬ controllerAsserts pods pod.Name kind) :
    (pod.OwnerReferences = [] → (seedPass pods).get pod.Name = some "Pod")
    ∧ ((∀ q ∈ pods, q.Name = pod.Name → q.OwnerReferences ≠ []) →
        (seedPass pods).get pod.Name = none) := by
  have hall : ∀ k ∈ kindsFor pod.Name (pods.flatMap assertions), k = "Pod" := by
    intro k hk
    rcases (mem_seedKinds pods pod.Name k).1 hk with h | ⟨h, _⟩
    · exact absurd h (hclaim k)
    · exact h
  refine ⟨?_, ?_⟩
  · intro h0
    have hmem : "Pod" ∈ kindsFor pod.Name (pods.flatMap assertions) :=
      (mem_seedKinds pods pod.Name "Pod").2 (Or.inr ⟨rfl, pod, hpod, h0, rfl⟩)
    rw [get_seedPass, foldl_mergeKind_pods _ hall, if_neg (List.ne_nil_of_mem hmem)]
  · intro hq
    have hnil : kindsFor pod.Name (pods.flatMap assertions) = [] := by
      cases hl : kindsFor pod.Name (pods.flatMap assertions) with
      | nil => rfl
      | cons a rest =>
        exfalso
        have ha : a ∈ kindsFor pod.Name (pods.flatMap assertions) := by
          rw [hl]; exact List.mem_cons_self _ _
        rcases (mem_seedKinds pods pod.Name a).1 ha with h | ⟨_, q, hqm, hq0, hqn⟩
        · exact hclaim a h
        · exact hq q hqm hqn hq0
    rw [get_seedPass, hnil]
    rfl

/-- C26, the failing input evaluated: the only owner reference of the pod "p"
is not flagged as controller and no owner reference carries the name "p"; the
registry after the seeding pass has no entry for "p", where the branch
commented "Pod without controller" records a pod without owner references as
a "Pod", and `fetchWorkloads` returns no workload at all for the namespace. -/
theorem seedPass_skips_uncontrolled_pod :
    (∀ ref ∈ looselyOwned.OwnerReferences, ref.isController = false)
    ∧ (∀ kind, ¬ controllerAsserts [looselyOwned] looselyOwned.Name kind)
    ∧ (seedPass [looselyOwned]).get "p" = none
    ∧ (seedPass [{ looselyOwned with OwnerReferences := [] }]).get "p" = some "Pod"
    ∧ fetchWorkloads (fun _ => none) looseCluster none { order := [], first := 0 } ""
        = ([], none) := by
  have hclaim : ∀ kind, ¬ controllerAsserts [looselyOwned] looselyOwned.Name kind := by
    rintro kind ⟨q, hq, ref, href, hc, _⟩
    simp only [List.mem_singleton] at hq
    subst hq
    change ref ∈ [{ Name := "cfg", Kind := "ConfigMap", Controller := none }] at href
    simp only [List.mem_singleton] at href
    subst href
    cases hc
  exact ⟨by decide, hclaim, by decide, by decide, by decide⟩

/-! ## The turn of a ReplicaSet or ReplicationController -/

/-- C28 as stated fails: in `nestedSets` the seeded registry holds the entry
("a", "ReplicaSet"), the ReplicaSet "a" is fetched and its controller
reference names "b"; in the run with the turns "a" then "b" the turn of "a"
records "b" as a ReplicaSet and the turn of "b" collapses it into its
Deployment, so after the pass the registry has no entry for "b". -/
theorem collapsePass_parent_collapsed :
    (seedPass nestedSets.pods).get "a" = some "ReplicaSet"
    ∧ findByName nestedSets.collections.repset "a"
        = some { Name := "a", OwnerReferences := [controlledBy "b" "ReplicaSet"],
                 TemplateLabels := [] }
    ∧ (controlledBy "b" "ReplicaSet").isController = true
    ∧ coversKeys ["a", "b"] (seedPass nestedSets.pods)
    ∧ (collapsePass nestedSets.collections ["a", "b"] (seedPass nestedSets.pods)).get "b"
        = none := by
  refine ⟨by decide, by decide, by decide, ?_, by decide⟩
  unfold coversKeys; decide

theorem ownersOf_of_found {cs : Collections} {cname ctype : String} {x : Controller}
    (hfound : (ctype = "ReplicaSet" ∧ findByName cs.repset cname = some x)
      ∨ (ctype = "ReplicationController" ∧ findByName cs.repcon cname = some x)) :
    ownersOf cs cname ctype = x.OwnerReferences ∧ isChildName cs cname
      ∧ ∀ ref, deletes cs ctype ref = true := by
  rcases hfound with ⟨hk, hf⟩ | ⟨hk, hf⟩
  · subst hk
    refine ⟨?_, ⟨x, ?_, findByName_name hf⟩, fun ref => ?_⟩
    · unfold ownersOf; rw [if_pos rfl, hf]
    · unfold children
      exact List.mem_append_left _ (List.mem_append_left _ (findByName_mem hf))
    · unfold deletes; rw [if_neg (by decide)]
  · subst hk
    refine ⟨?_, ⟨x, ?_, findByName_name hf⟩, fun ref => ?_⟩
    · unfold ownersOf; rw [if_neg (by decide), if_pos rfl, hf]
    · unfold children
      exact List.mem_append_left _ (List.mem_append_right _ (findByName_mem hf))
    · unfold deletes; rw [if_neg (by decide)]

theorem collapsed_stays {cs : Collections} (hflat : flatOwnership cs) {cname : String}
    (hchild : isChildName cs cname) {R : OwnerReference}
    (hR : ¬ isChildName cs R.Name) (order : List String) (r : Registry)
    (h : r.get cname = none ∧ dominated r R) :
    (collapsePass cs order r).get cname = none ∧ dominated (collapsePass cs order r) R := by
  induction order generalizing r with
  | nil => exact h
  | cons m rest ih =>
    show (collapsePass cs rest (collapseVisit cs r m)).get cname = none
      ∧ dominated (collapsePass cs rest (collapseVisit cs r m)) R
    apply ih
    by_cases hm : cname = m
    · subst hm
      rw [collapseVisit_none h.1]
      exact h
    · exact ⟨by rw [get_collapseVisit_child hflat r hchild hm]; exact h.1,
        dominated_collapseVisit r m h.2 hR⟩

theorem collapsePass_child_turn (cs : Collections) (order : List String)
    (r0 : Registry) (hflat : flatOwnership cs) (hcov : coversKeys order r0)
    (cname ctype : String) (x : Controller) (R : OwnerReference)
    (hget : r0.get cname = some ctype)
    (hfound : (ctype = "ReplicaSet" ∧ findByName cs.repset cname = some x)
      ∨ (ctype = "ReplicationController" ∧ findByName cs.repcon cname = some x))
    (hR : R ∈ x.OwnerReferences) (hc : R.isController = true) :
    (∃ kind, (collapsePass cs order r0).get R.Name = some kind
        ∧ weight R.Kind ≤ weight kind)
    ∧ (collapsePass cs order r0).get cname = none := by
  obtain ⟨hown, hchild, hdel⟩ := ownersOf_of_found hfound
  have hmem : R ∈ ownersOf cs cname ctype := by rw [hown]; exact hR
  have hRn : ¬ isChildName cs R.Name := owner_not_child hflat hmem hc
  have hany : (ownersOf cs cname ctype).any
      (fun ref => ref.isController && deletes cs ctype ref) = true := by
    rw [List.any_eq_true]
    exact ⟨R, hmem, by rw [hc, hdel R]; rfl⟩
  have hturn : cname ∈ order := hcov cname ((Registry.mem_keys_iff _ _).2 ⟨ctype, hget⟩)
  have key : ∀ (order : List String) (r : Registry), r.get cname = some ctype →
      cname ∈ order →
      (collapsePass cs order r).get cname = none ∧ dominated (collapsePass cs order r) R := by
    intro order
    induction order with
    | nil => intro r _ hin; cases hin
    | cons m rest ih =>
      intro r hg hin
      show (collapsePass cs rest (collapseVisit cs r m)).get cname = none
        ∧ dominated (collapsePass cs rest (collapseVisit cs r m)) R
      by_cases hm : cname = m
      · subst hm
        apply collapsed_stays hflat hchild hRn
        refine ⟨?_, dominated_collapseVisit_own hflat hg hmem hc⟩
        rw [get_collapseVisit_self hflat hg, if_pos hany]
      · apply ih
        · rw [get_collapseVisit_child hflat r hchild hm]; exact hg
        · rcases List.mem_cons.1 hin with h | h
          · exact absurd h hm
          · exact h
  obtain ⟨h1, h2⟩ := key order r0 hget hturn
  exact ⟨h2, h1⟩

/-- C28, amended: when no controller reference of a fetched ReplicaSet,
ReplicationController or Job carries the name of a fetched ReplicaSet,
ReplicationController or Job, then for every registry entry of kind ReplicaSet
(or ReplicationController) whose object is found by name in the fetched
ReplicaSets (or ReplicationControllers) and has the controller-flagged owner
reference `R`, after a collapse pass whose turns cover the keys the registry
has an entry for the name of `R`, with a kind that the kind of `R` does not
beat in the tie-break, and has no entry for the name of the child. -/
theorem collapsePass_records_parent (cs : Collections) (order : List String)
    (r0 : Registry) (hflat : flatOwnership cs) (hcov : coversKeys order r0)
    (cname ctype : String) (x : Controller) (R : OwnerReference)
    (hget : r0.get cname = some ctype)
    (hfound : (ctype = "ReplicaSet" ∧ findByName cs.repset cname = some x)
      ∨ (ctype = "ReplicationController" ∧ findByName cs.repcon cname = some x))
    (hR : R ∈ x.OwnerReferences) (hc : R.isController = true) :
    (∃ kind, (collapsePass cs order r0).get R.Name = some kind
        ∧ weight R.Kind ≤ weight kind)
    ∧ (collapsePass cs order r0).get cname = none :=
  collapsePass_child_turn cs order r0 hflat hcov cname ctype x R hget hfound hR hc

/-- C28, amended, on `twoLevel`: the entry of the ReplicaSet "web-1" is
collapsed into the Deployment "web" that its controller reference names. -/
theorem collapsePass_records_parent_witness :
    (∃ kind, (collapsePass twoLevel.collections ["etl-1", "web-1"]
          (seedPass twoLevel.pods)).get "web" = some kind
        ∧ weight "Deployment" ≤ weight kind)
    ∧ (collapsePass twoLevel.collections ["etl-1", "web-1"]
        (seedPass twoLevel.pods)).get "web-1" = none :=
  collapsePass_records_parent twoLevel.collections ["etl-1", "web-1"]
    (seedPass twoLevel.pods) (by unfold flatOwnership; decide)
    (by unfold coversKeys; decide) "web-1" "ReplicaSet"
    { Name := "web-1", OwnerReferences := [controlledBy "web" "Deployment"],
      TemplateLabels := [("app", "web")] }
    (controlledBy "web" "Deployment") (by decide) (Or.inl ⟨rfl, by decide⟩)
    (by decide) rfl

/-! ## A ReplicaSet whose Deployment is gone -/

theorem eq_deployment_of_weight {e : String} (h : weight "Deployment" ≤ weight e) :
    e = "Deployment" := by
  cases hr : recognised e with
  | false =>
    have h0 := weight_of_not_recognised hr
    have h6 : weight "Deployment" = 6 := by decide
    omega
  | true =>
    have hmem := (recognised_iff e).1 hr
    simp only [precedence, List.mem_cons, List.mem_singleton, List.not_mem_nil,
      or_false] at hmem
    rcases hmem with h1 | h1 | h1 | h1 | h1 | h1 | h1 | h1
    · exact h1
    all_goals (exfalso; rw [h1] at h; revert h; decide)

theorem buildWorkload_absent {f : Fetched} {cname ctype : String}
    (hk : ctype ∈ modelledKinds) (h : objectPresent f ctype cname = false) :
    buildWorkload f cname ctype = none := by
  cases hb : buildWorkload f cname ctype with
  | none => rfl
  | some w =>
    exfalso
    have hs : (buildWorkload f cname ctype).isSome = true := by rw [hb]; rfl
    rcases (buildWorkload_isSome_iff f cname ctype).1 hs with h1 | h1
    · exact h1 hk
    · rw [h] at h1; cases h1

theorem hasName_of_mem {xs : List Controller} {x : Controller} (hx : x ∈ xs) :
    hasName xs x.Name = true :=
  (hasName_iff xs x.Name).2
    (by
      have h := (findByName_isSome_iff xs x.Name).2 ⟨x, hx, rfl⟩
      simpa using h)

/-- C29 as stated fails. In the namespace `orphanedSet` the pod "web-1-x" is
controlled by the fetched ReplicaSet "web-1", whose controller reference names
the Deployment "web"; no fetched object of any kind is named "web". First,
with the Deployment "web2" fetched, whose template labels the pod carries, the
pod is listed in the returned workload "web2". Second, with a Deployment named
"web-1" fetched, the returned list holds a workload named "web-1". -/
theorem orphaned_pod_still_listed :
    (∀ kind ∈ modelledKinds,
      objectPresent (fetchAll (orphanedSet [webDeployment "web2"]) none "").1 kind "web"
        = false)
    ∧ (fetchWorkloads (fun _ => none) (orphanedSet [webDeployment "web2"]) none
          { order := ["web-1"], first := 0 } "").1.map
            (fun w => (w.Name, w.Kind, w.Pods.map Pod.Name))
        = [("web2", "Deployment", ["web-1-x"])]
    ∧ (∀ kind ∈ modelledKinds,
      objectPresent (fetchAll (orphanedSet [webDeployment "web-1"]) none "").1 kind "web"
        = false)
    ∧ (fetchWorkloads (fun _ => none) (orphanedSet [webDeployment "web-1"]) none
          { order := ["web-1"], first := 0 } "").1.map (fun w => (w.Name, w.Kind))
        = [("web-1", "Deployment")] := by
  refine ⟨by decide, by decide, by decide, by decide⟩

/-- C29, amended: let a fetched pod have a controller reference `P` to a
ReplicaSet that is fetched, and let that ReplicaSet have a controller
reference `R` to a Deployment that is not among the fetched Deployments. When
ownership among the fetched children is not nested, names are distinct within
each child collection, every controller reference of a pod that names the
ReplicaSet has the kind ReplicaSet, and no fetched Deployment,
DeploymentConfig, StatefulSet or ReplicationController carries the name of the
ReplicaSet, then in every run whose turns cover the seeded keys the list that
`fetchWorkloads` returns holds no workload named after the ReplicaSet and none
named after the Deployment. -/
theorem orphaned_set_dropped (parse : String → Selector) (cl : Cluster)
    (excludedWorkloads : Option (List (String × Bool))) (run : Run)
    (labelSelector : String) (f : Fetched) (hns : cl.namespaceError = none)
    (hf : fetchAll cl excludedWorkloads labelSelector = (f, []))
    (hflat : flatOwnership f.collections) (hdist : distinctNames f.collections)
    (hcov : coversKeys run.order (seedPass f.pods))
    (pod : Pod) (P : OwnerReference) (x : Controller) (R : OwnerReference)
    (hpod : pod ∈ f.pods) (hP : P ∈ pod.OwnerReferences) (hPc : P.isController = true)
    (hPk : P.Kind = "ReplicaSet") (hx : findByName f.repset P.Name = some x)
    (hR : R ∈ x.OwnerReferences) (hRc : R.isController = true)
    (hRk : R.Kind = "Deployment")
    (habsent : objectPresent f "Deployment" R.Name = false)
    (honly : ∀ kind, controllerAsserts f.pods P.Name kind → kind = "ReplicaSet")
    (hclash : ∀ kind ∈ ["Deployment", "DeploymentConfig", "StatefulSet",
      "ReplicationController"], objectPresent f kind P.Name = false) :
    ∀ w ∈ (fetchWorkloads parse cl excludedWorkloads run labelSelector).1,
      w.Name ≠ P.Name ∧ w.Name ≠ R.Name := by
  have h1 : fetchWorkloads parse cl excludedWorkloads run labelSelector
      = (buildWorkloads f (resolve (recoverySelector parse labelSelector) run.order f),
          none) := by
    have := fetchWorkloads_of_success parse cl excludedWorkloads run labelSelector hns
      (by rw [hf])
    rw [hf] at this
    exact this
  rw [h1]
  -- the seeding pass records the ReplicaSet under its name
  have hPa : controllerAsserts f.pods P.Name "ReplicaSet" :=
    ⟨pod, hpod, P, hP, hPc, rfl, hPk⟩
  have hmem : "ReplicaSet" ∈ kindsFor P.Name (f.pods.flatMap assertions) :=
    (mem_seedKinds f.pods P.Name "ReplicaSet").2 (Or.inl hPa)
  obtain ⟨kind, hk, hfold, hall⟩ :=
    foldl_mergeKind_none (kindsFor P.Name (f.pods.flatMap assertions))
      (List.ne_nil_of_mem hmem)
  have hkind : kind = "ReplicaSet" := by
    rcases (mem_seedKinds f.pods P.Name kind).1 hk with h | ⟨h, _⟩
    · exact honly kind h
    · exfalso
      have hw := hall "ReplicaSet" hmem
      rw [h] at hw
      revert hw
      decide
  have hseed : (seedPass f.pods).get P.Name = some "ReplicaSet" := by
    rw [get_seedPass, hfold, hkind]
  -- the collapse pass replaces it by the Deployment
  obtain ⟨⟨e, hge, hwe⟩, hgone⟩ :=
    collapsePass_child_turn f.collections run.order (seedPass f.pods) hflat hcov P.Name
      "ReplicaSet" x R hseed (Or.inl ⟨rfl, hx⟩) hR hRc
  have he : e = "Deployment" := eq_deployment_of_weight (by rw [← hRk]; exact hwe)
  rw [he] at hge
  have hfinal : (resolve (recoverySelector parse labelSelector) run.order f).get R.Name
      = some "Deployment" := recoveryPass_get_mono _ _ _ hge
  have hxmem : x ∈ f.repset := findByName_mem hx
  have hxname : x.Name = P.Name := findByName_name hx
  intro w hw
  obtain ⟨ctype, hg, hb⟩ := (mem_buildWorkloads f _ w).1 hw
  refine ⟨?_, ?_⟩
  · intro hn
    rw [hn] at hg hb
    have hnone : ∀ k ∈ ["Deployment", "DeploymentConfig", "StatefulSet",
        "ReplicationController"], ctype = k → False := by
      intro k hkm hck
      have hmod : k ∈ modelledKinds := by
        revert hkm
        simp only [modelledKinds, List.mem_cons, List.mem_singleton, List.not_mem_nil,
          or_false]
        tauto
      rw [hck, buildWorkload_absent hmod (hclash k hkm)] at hb
      cases hb
    rcases recoveryPass_get_cases hg with h | h | h | h | ⟨_, x', hx', hxn, hx0⟩
        | ⟨h, x', hx', hxn, _⟩
    · rw [hgone] at h; cases h
    · exact hnone "Deployment" (by decide) h
    · exact hnone "DeploymentConfig" (by decide) h
    · exact hnone "StatefulSet" (by decide) h
    · have hxx : x' = x := eq_of_name_eq hdist.1 hx' hxmem (by rw [hxn, hxname])
      rw [hxx] at hx0
      rw [hx0] at hR
      cases hR
    · have hp : objectPresent f "ReplicationController" P.Name = true := by
        have := hasName_of_mem hx'
        rw [hxn] at this
        simpa [objectPresent] using this
      rw [hclash "ReplicationController" (by decide)] at hp
      cases hp
  · intro hn
    rw [hn, hfinal] at hg
    cases hg
    rw [hn, buildWorkload_absent (by decide) habsent] at hb
    cases hb

/-- C29, amended, on `orphanedSet` with the Deployment "web2": the returned
list holds no workload named "web-1" and none named "web". -/
theorem orphaned_set_dropped_witness :
    (fetchWorkloads (fun _ => none) (orphanedSet [webDeployment "web2"]) none
        { order := ["web-1"], first := 0 } "").1.map Workload.Name = ["web2"]
    ∧ (fetchWorkloads (fun _ => none) (orphanedSet [webDeployment "web2"]) none
        { order := ["web-1"], first := 0 } "").1.all
          (fun w => decide (w.Name ≠ "web-1" ∧ w.Name ≠ "web")) = true :=
  ⟨by decide,
   List.all_eq_true.2 (fun w hw => decide_eq_true
    (orphaned_set_dropped (fun _ => none) (orphanedSet [webDeployment "web2"]) none
        { order := ["web-1"], first := 0 } ""
        (fetchAll (orphanedSet [webDeployment "web2"]) none "").1 rfl rfl
        (by unfold flatOwnership; decide) (by unfold distinctNames; decide)
        (by unfold coversKeys; decide)
        orphanedPod (controlledBy "web-1" "ReplicaSet")
        { Name := "web-1", OwnerReferences := [controlledBy "web" "Deployment"],
          TemplateLabels := [("app", "web")] }
        (controlledBy "web" "Deployment")
        (by decide) (by decide) rfl rfl (by decide) (by decide) rfl rfl (by decide)
        (by
          rintro kind ⟨q, hq, ref, href, _, _, hk⟩
          change q ∈ [orphanedPod] at hq
          simp only [List.mem_singleton] at hq
          subst hq
          change ref ∈ [controlledBy "web-1" "ReplicaSet"] at href
          simp only [List.mem_singleton] at href
          subst href
          exact hk.symm)
        (by decide)
      w hw))⟩

end Kiali
